import Mathlib

/-!
# mDCM native codecs: pixel-data transcoding core

A shallow embedding of the three codec drivers of the repository

* `Dicom.Codec/DcmJpeg2000Codec.cpp` (wavelet codec, OpenJPEG engine),
* `Dicom.Codec/DcmJpegCodec.cpp`, `DcmJpegCodec.h` (DCT codec, IJG engine),
* `Dicom.Codec.JpegLs/DcmJpegLsCodec.cpp` (predictive codec, CharLS engine),

followed by theorems about them.

Conventions of the embedding.

* A frame buffer (`array<unsigned char>`) is a `List Nat` of bytes; a 16-bit storage unit
  `((unsigned short*)frameData)[pos]` is the little-endian pair of bytes `2*pos`, `2*pos+1`.
* `int` values are `Int`; the conversions to `unsigned char` / `unsigned short` are reductions
  modulo `2^8` / `2^16`, a read through `char*` / `short*` is the two's-complement reading.
  The stride product of the predictive codec, which the source takes in 32-bit `int`, is
  reduced to that range (`wrapInt32`).
* The shift `1 << HighBit` is `2 ^ HighBit` (C++ leaves shift counts of 32 and more
  undefined); the sign is then cut to the width of the unit, as the source's declarations
  `const unsigned char sign` / `const unsigned short sign` do.
* A `throw` ends the call; the result of a call records the exception together with the state
  of the destination at that moment (the destination object is mutated in place by the source).
* Pinning a managed array, `pin_ptr<unsigned char> p = &array[0]`, evaluates the
  bounds-checked element access `array[0]`: on an empty array the runtime raises
  `IndexOutOfRangeException` there, and the call ends as with a `throw`.
* Two native arrays of the wavelet encoder have a fixed size: the rate table
  `float tcp_rates[100]` and the component parameters `cmptparm[3]`. A store past either is
  undefined in C++; the embedding drops a store past the rate table and builds one parameter
  record per sample of a pixel. The theorems on the content of the rate table (C17, C18), on
  the round trip of the marshalled components (C1) and on the unsupported storage width (C9)
  state the bound (at most 100 table entries, at most 3 samples per pixel) as a hypothesis.
* The compression engines are parameters of the drivers. `Unload()`, the release of native
  handles in `finally` blocks and the logging callbacks have no counterpart in the embedding.
-/

namespace Dicom.Codec

/-! ## Container data model -/

/-- The transfer syntaxes the three codecs name; `Other` stands for any further one. -/
inductive DicomTransferSyntax where
  | JPEG2000Lossy
  | JPEG2000Lossless
  | JPEGLSNearLossless
  | JPEGLSLossless
  | JPEGProcess1
  | JPEGProcess2_4
  | JPEGProcess14
  | JPEGProcess14SV1
  | Other (uid : String)
  deriving DecidableEq, Repr

/-- The attributes and frames of a `DcmPixelData` object that the codecs read or write.
`Frames` holds one byte list per frame, in `AddFrame` order. -/
structure DcmPixelData where
  TransferSyntax : DicomTransferSyntax
  ImageWidth : Nat
  ImageHeight : Nat
  SamplesPerPixel : Nat
  BitsAllocated : Nat
  BitsStored : Nat
  HighBit : Nat
  PixelRepresentation : Nat
  PlanarConfiguration : Nat
  PhotometricInterpretation : String
  IsLossy : Bool
  LossyCompressionMethod : String
  LossyCompressionRatio : String
  Frames : List (List Nat)
  deriving DecidableEq, Repr

namespace DcmPixelData

/-- Modelled from the spec: the container accessor `NumberOfFrames` (class `DcmPixelData`,
not among the sources): the number of frames the object holds. -/
def NumberOfFrames (pd : DcmPixelData) : Nat := pd.Frames.length

/-- Modelled from the spec: the container accessor `BytesAllocated` (class `DcmPixelData`,
not among the sources): the bytes of one storage unit, bits-allocated rounded up to whole
bytes (1 for 8 bits, 2 for 16 bits). -/
def BytesAllocated (pd : DcmPixelData) : Nat := (pd.BitsAllocated + 7) / 8

/-- Modelled from the spec: the container accessor `IsPlanar` (class `DcmPixelData`, not among
the sources): whether the planar configuration asks for one plane per component. -/
def IsPlanar (pd : DcmPixelData) : Bool := pd.PlanarConfiguration != 0

/-- Modelled from the spec: the container accessor `UncompressedFrameSize` (class
`DcmPixelData`, not among the sources): bytes of one uncompressed frame. -/
def UncompressedFrameSize (pd : DcmPixelData) : Nat :=
  pd.BytesAllocated * pd.SamplesPerPixel * (pd.ImageHeight * pd.ImageWidth)

/-- Modelled from the spec: the container call `GetFrameDataU8(frame)` (class `DcmPixelData`,
not among the sources): the bytes of frame `frame`. -/
def GetFrameDataU8 (pd : DcmPixelData) (frame : Nat) : List Nat := pd.Frames.getD frame []

/-- Modelled from the spec: the container call `GetFrameSize(frame)` (class `DcmPixelData`,
not among the sources): the number of bytes of frame `frame`. -/
def GetFrameSize (pd : DcmPixelData) (frame : Nat) : Nat := (pd.GetFrameDataU8 frame).length

/-- Modelled from the spec: the container call `AddFrame(bytes)` (class `DcmPixelData`, not
among the sources): appends one frame. -/
def AddFrame (pd : DcmPixelData) (bytes : List Nat) : DcmPixelData :=
  { pd with Frames := pd.Frames ++ [bytes] }

end DcmPixelData

/-- Error codes of the predictive engine (`JLS_ERROR`, without `OK`), as named in
`DicomJpegLsCodecException::GetErrorMessage`; `Unknown` is any other nonzero code. -/
inductive JLS_ERROR where
  | InvalidJlsParameters
  | ParameterValueNotSupported
  | UncompressedBufferTooSmall
  | CompressedBufferTooSmall
  | InvalidCompressedData
  | TooMuchCompressedData
  | ImageTypeNotSupported
  | UnsupportedBitDepthForTransform
  | UnsupportedColorTransform
  | Unknown (code : Nat)
  deriving DecidableEq, Repr

/-- The exceptions a driver call can end with. Those thrown by the drivers themselves are of
type `DicomCodecException` and have one constructor per `throw` site (or family of sites
sharing a message format); `JpegEngine` comes out of a DCT engine call and `IndexOutOfRange`
is raised by the runtime. -/
inductive DicomCodecException where
  /-- Message `"Photometric Interpretation '{0}' not supported by {encoder} encoder"`. -/
  | PhotometricInterpretationNotSupported (encoder : String) (photometricInterpretation : String)
  /-- Message `"JPEG 2000 codec only supports Bits Allocated == 8 or 16"` (Encode). -/
  | Jpeg2000BitsAllocated
  /-- Message `"Unable to JPEG 2000 encode image"`. -/
  | Jpeg2000UnableToEncode
  /-- Message `"Error in JPEG 2000 code stream!"`. -/
  | Jpeg2000CodeStream
  /-- Message `"JPEG 2000 module only supports Bytes Allocated == 8 or 16!"` (Decode). -/
  | Jpeg2000BytesAllocated
  /-- Message `"Unable to create JPEG {codec} codec for bits stored == {0}"`. -/
  | UnableToCreateCodec (codec : String) (bits : Int)
  /-- The subclass `DicomJpegLsCodecException(error)`. -/
  | JpegLs (error : JLS_ERROR)
  /-- An exception raised inside a DCT engine call. -/
  | JpegEngine (message : String)
  /-- The runtime's `System.IndexOutOfRangeException`, raised by the element access in
  `&array[0]` when a managed array is empty; it is not a `DicomCodecException`. -/
  | IndexOutOfRange
  deriving DecidableEq, Repr

/-- What a driver call leaves behind: the exception it threw, if any, the destination pixel
data as the call left it, and the indices of the source frames handed to
`GetFrameDataU8` or to a DCT engine, in call order. -/
structure CallResult where
  thrown : Option DicomCodecException
  newPixelData : DcmPixelData
  framesRead : List Nat
  deriving DecidableEq, Repr

/-! ## Integer conversions -/

/-- Conversion `(unsigned char)i` of an `int`. -/
def castU8 (i : Int) : Nat := (i % 256).toNat

/-- Conversion `(unsigned short)i` of an `int`. -/
def castU16 (i : Int) : Nat := (i % 65536).toNat

/-- The value of a byte read through `char*`. -/
def castS8 (b : Nat) : Int := if b < 128 then (b : Int) else (b : Int) - 256

/-- The value of a 16-bit unit read through `short*`. -/
def castS16 (u : Nat) : Int := if u < 32768 then (u : Int) else (u : Int) - 65536

/-- The result of an arithmetic operation on `int` whose exact value is `i`: the runtime
keeps the low 32 bits, read as two's complement. -/
def wrapInt32 (i : Int) : Int := (i + 2147483648) % 4294967296 - 2147483648

/-- Read `frameData[pos]` of a byte buffer (0 outside the buffer, where C++ leaves the read
undefined). -/
def readU8 (frameData : List Nat) (pos : Nat) : Nat := frameData.getD pos 0

/-- Read `((unsigned short*)frameData)[pos]`, little endian. -/
def readU16 (frameData : List Nat) (pos : Nat) : Nat :=
  frameData.getD (2 * pos) 0 + 256 * frameData.getD (2 * pos + 1) 0

/-- Assignment `destArray[pos] = v` of a byte (no effect outside the buffer). -/
def writeU8 (destArray : List Nat) (pos : Nat) (v : Nat) : List Nat := destArray.set pos v

/-- Assignment `((unsigned short*)destData)[pos] = v`, little endian. -/
def writeU16 (destArray : List Nat) (pos : Nat) (v : Nat) : List Nat :=
  (destArray.set (2 * pos) (v % 256)).set (2 * pos + 1) (v / 256)

/-- The number of low bits of a magnitude `m` that do not fit a 24-bit significand (`fuel`
bounds the search; `m` itself is always enough). -/
def floatShift : Nat → Nat → Nat
  | 0, _ => 0
  | fuel + 1, m => if m < 2 ^ 24 then 0 else floatShift fuel (m / 2) + 1

/-- Conversion `(float)i` of an `int`: the value of the nearest single-precision number
(24-bit significand, a tie goes to the even significand), which is again an integer. -/
def castFloat (i : Int) : Int :=
  let m := i.natAbs
  let e := floatShift m m
  let q := m / 2 ^ e
  let r := m % 2 ^ e
  let q := if 2 ^ e < 2 * r ∨ (2 * r = 2 ^ e ∧ q % 2 = 1) then q + 1 else q
  if i < 0 then -((q * 2 ^ e : Nat) : Int) else ((q * 2 ^ e : Nat) : Int)

/-! ## Runtime formatting -/

/-- Modelled from the spec: the runtime call `String::Format("{0:0.000}", oldSize / newSize)`
(class `String` of the runtime, not among the sources) on the sizes of two frames, for a
positive `newSize`: the decimal rendering of the quotient with exactly three digits after the
decimal point. The quotient is rounded to the nearest thousandth, a tie away from zero, and
the separator is the point. -/
def formatThreeDecimals (oldSize newSize : Nat) : String :=
  let thousandths := (2000 * oldSize + newSize) / (2 * newSize)
  toString (thousandths / 1000) ++ "." ++
    String.mk [Nat.digitChar (thousandths / 100 % 10), Nat.digitChar (thousandths / 10 % 10),
      Nat.digitChar (thousandths % 10)]

/-! ## Wavelet codec (`DcmJpeg2000Codec`) -/

/-- Settings of the wavelet codec, with the defaults of the constructor
`DcmJpeg2000Parameters()`. -/
structure DcmJpeg2000Parameters where
  Irreversible : Bool := true
  Rate : Int := 20
  RateLevels : List Int := [1280, 640, 320, 160, 80, 40, 20, 10, 5]
  IsVerbose : Bool := false
  AllowMCT : Bool := true
  UpdatePhotometricInterpretation : Bool := true
  EncodeSignedPixelValuesAsUnsigned : Bool := true
  deriving DecidableEq, Repr

/-- The engine's colour-space tags (`OPJ_COLOR_SPACE`). -/
inductive OPJ_COLOR_SPACE where
  | CLRSPC_UNKNOWN
  | CLRSPC_SRGB
  | CLRSPC_GRAY
  | CLRSPC_SYCC
  deriving DecidableEq, Repr

/-- The fields of the engine's `opj_cparameters_t` that the codec sets or reads.
`tcp_rates` is the engine's `float[100]` table; every number stored in it is the conversion of
an `int`, so an integer, and is kept as that integer. -/
structure opj_cparameters_t where
  cp_disto_alloc : Int
  irreversible : Int
  tcp_numlayers : Nat
  tcp_rates : List Int
  tcp_mct : Int
  subsampling_dx : Int
  subsampling_dy : Int
  image_offset_x0 : Int
  image_offset_y0 : Int
  deriving DecidableEq, Repr

/-- The fields of the engine's `opj_image_cmptparm_t` that the codec sets. -/
structure opj_image_cmptparm_t where
  dx : Int
  dy : Int
  w : Nat
  h : Nat
  prec : Nat
  bpp : Nat
  sgnd : Nat
  deriving DecidableEq, Repr

/-- One component of the engine's image: its parameters and its `int` sample array `data`. -/
structure opj_image_comp_t where
  dx : Int
  dy : Int
  w : Nat
  h : Nat
  prec : Nat
  bpp : Nat
  sgnd : Nat
  data : List Int
  deriving DecidableEq, Repr

/-- The engine's image object; `numcomps` is the length of `comps`. -/
structure opj_image_t where
  x0 : Int
  y0 : Int
  x1 : Int
  y1 : Int
  color_space : OPJ_COLOR_SPACE
  comps : List opj_image_comp_t
  deriving DecidableEq, Repr

/-- The engine's field `numcomps`. -/
def opj_image_t.numcomps (image : opj_image_t) : Nat := image.comps.length

/-- The two engine entry points whose results the codec depends on: `opj_encode` (the code
stream, or failure) and `opj_decode` (the decoded image, or `NULL`). -/
structure OpenJpeg where
  opj_encode : opj_cparameters_t → opj_image_t → Option (List Nat)
  opj_decode : List Nat → Option opj_image_t

/-- Engine call `opj_set_default_encoder_parameters`: the record is cleared, the subsampling
factors are 1 (layer count 0, rate table all zero, offsets 0). -/
def opj_set_default_encoder_parameters : opj_cparameters_t :=
  { cp_disto_alloc := 0, irreversible := 0, tcp_numlayers := 0,
    tcp_rates := List.replicate 100 0, tcp_mct := 0,
    subsampling_dx := 1, subsampling_dy := 1, image_offset_x0 := 0, image_offset_y0 := 0 }

/-- Engine call `opj_image_create`: one component per parameter record, carrying its fields,
with a cleared sample array of `w * h` entries. -/
def opj_image_create (cmptparms : List opj_image_cmptparm_t) (clrspc : OPJ_COLOR_SPACE) :
    opj_image_t :=
  { x0 := 0, y0 := 0, x1 := 0, y1 := 0, color_space := clrspc,
    comps := cmptparms.map fun cp =>
      { dx := cp.dx, dy := cp.dy, w := cp.w, h := cp.h, prec := cp.prec, bpp := cp.bpp,
        sgnd := cp.sgnd, data := List.replicate (cp.w * cp.h) 0 } }

/-- Source function `getOpenJpegColorSpace`. -/
def getOpenJpegColorSpace (photometricInterpretation : String) : OPJ_COLOR_SPACE :=
  if photometricInterpretation = "RGB" then
    .CLRSPC_SRGB
  else if photometricInterpretation = "MONOCHROME1" ∨ photometricInterpretation = "MONOCHROME2" then
    .CLRSPC_GRAY
  else if photometricInterpretation = "PALETTE COLOR" then
    .CLRSPC_GRAY
  else if photometricInterpretation = "YBR_FULL" ∨ photometricInterpretation = "YBR_FULL_422"
      ∨ photometricInterpretation = "YBR_PARTIAL_422" then
    .CLRSPC_SYCC
  else
    .CLRSPC_UNKNOWN

namespace DcmJpeg2000Codec

/-- The rate-level loop of `Encode` (lines 111-118): entries of `RateLevels` above `Rate` are
copied into the rate table, one layer each, up to the first entry that is not above it.
Returns the final `r` and the parameters. The table is the engine's `float tcp_rates[100]`:
a store at an index of 100 or more, undefined in the source, is dropped here. -/
def rateLevelLoop (Rate : Int) : List Int → Nat → opj_cparameters_t → Nat × opj_cparameters_t
  | [], r, eparams => (r, eparams)
  | level :: rest, r, eparams =>
    if level > Rate then
      rateLevelLoop Rate rest (r + 1)
        { eparams with tcp_numlayers := eparams.tcp_numlayers + 1,
                       tcp_rates := eparams.tcp_rates.set r (castFloat level) }
    else
      (r, eparams)

/-- The compression parameters `eparams` built by `Encode` for each frame (lines 105-126).
The two stores after the loop (lines 119 and 122) go to the same 100-entry table and are
dropped past it, as in `rateLevelLoop`. -/
def compressionParameters (oldPixelData newPixelData : DcmPixelData)
    (jparams : DcmJpeg2000Parameters) : opj_cparameters_t :=
  let eparams := opj_set_default_encoder_parameters
  let eparams := { eparams with cp_disto_alloc := 1 }
  let eparams :=
    if newPixelData.TransferSyntax = .JPEG2000Lossy ∧ jparams.Irreversible = true then
      { eparams with irreversible := 1 }
    else eparams
  let (r, eparams) := rateLevelLoop jparams.Rate jparams.RateLevels 0 eparams
  let eparams := { eparams with tcp_numlayers := eparams.tcp_numlayers + 1,
                                tcp_rates := eparams.tcp_rates.set r (castFloat jparams.Rate) }
  let eparams :=
    if newPixelData.TransferSyntax = .JPEG2000Lossless ∧ jparams.Rate > 0 then
      { eparams with tcp_rates := eparams.tcp_rates.set eparams.tcp_numlayers 0,
                     tcp_numlayers := eparams.tcp_numlayers + 1 }
    else eparams
  if oldPixelData.PhotometricInterpretation = "RGB" ∧ jparams.AllowMCT = true then
    { eparams with tcp_mct := 1 }
  else eparams

/-- The component parameters `cmptparm[i]`, `i < SamplesPerPixel`, built by `Encode`
(lines 128-138); `sgnd` stays 0 when signed values are encoded as unsigned. The source array
is `cmptparm[3]`: for more than 3 samples per pixel its loop stores past the array, which is
undefined there, while this list has one record per sample. -/
def componentParameters (oldPixelData : DcmPixelData) (jparams : DcmJpeg2000Parameters)
    (eparams : opj_cparameters_t) : List opj_image_cmptparm_t :=
  List.replicate oldPixelData.SamplesPerPixel
    { bpp := oldPixelData.BitsAllocated,
      prec := oldPixelData.BitsStored,
      sgnd := if jparams.EncodeSignedPixelValuesAsUnsigned = false then
                oldPixelData.PixelRepresentation else 0,
      dx := eparams.subsampling_dx,
      dy := eparams.subsampling_dy,
      h := oldPixelData.ImageHeight,
      w := oldPixelData.ImageWidth }

/-- The sample loop `for (int p = 0; p < pixelCount; p++) { comp->data[p] = body(pos);
pos += offset; }` of `Encode`: the values stored in `comp->data[0 .. pixelCount-1]`. -/
def packLoop (body : Nat → Int) (offset : Nat) : Nat → Nat → List Int
  | 0, _ => []
  | n + 1, pos => body pos :: packLoop body offset n (pos + offset)

/-- The body of the component loop of `Encode` (lines 150-216) for component `c`: the sample
array written to `comp->data`, or the exception for an unsupported storage width. -/
def encodeComponent (oldPixelData : DcmPixelData) (frameData : List Nat)
    (pixelCount numcomps c : Nat) (comp : opj_image_comp_t) :
    Except DicomCodecException opj_image_comp_t :=
  let pos := if oldPixelData.IsPlanar then c * pixelCount else c
  let offset := if oldPixelData.IsPlanar then 1 else numcomps
  if oldPixelData.BytesAllocated = 1 then
    if comp.sgnd ≠ 0 then
      if oldPixelData.BitsStored < 8 then
        let sign := castU8 ((1 <<< oldPixelData.HighBit : Nat) : Int)
        let mask := castU8 ((sign : Int) - 1)
        let body := fun pos =>
          let pixel := readU8 frameData pos
          if pixel &&& sign ≠ 0 then -((pixel &&& mask : Nat) : Int) else (pixel : Int)
        .ok { comp with data := packLoop body offset pixelCount pos }
      else
        let body := fun pos => castS8 (readU8 frameData pos)
        .ok { comp with data := packLoop body offset pixelCount pos }
    else
      let body := fun pos => (readU8 frameData pos : Int)
      .ok { comp with data := packLoop body offset pixelCount pos }
  else if oldPixelData.BytesAllocated = 2 then
    if comp.sgnd ≠ 0 then
      if oldPixelData.BitsStored < 16 then
        let sign := castU16 ((1 <<< oldPixelData.HighBit : Nat) : Int)
        let mask := castU16 ((sign : Int) - 1)
        let body := fun pos =>
          let pixel := readU16 frameData pos
          if pixel &&& sign ≠ 0 then -((pixel &&& mask : Nat) : Int) else (pixel : Int)
        .ok { comp with data := packLoop body offset pixelCount pos }
      else
        let body := fun pos => castS16 (readU16 frameData pos)
        .ok { comp with data := packLoop body offset pixelCount pos }
    else
      let body := fun pos => (readU16 frameData pos : Int)
      .ok { comp with data := packLoop body offset pixelCount pos }
  else
    .error .Jpeg2000BitsAllocated

/-- The component loop `for (int c = 0; c < image->numcomps; c++)` of `Encode`
(lines 149-217), from component `c` on. -/
def encodeComponents (oldPixelData : DcmPixelData) (frameData : List Nat)
    (pixelCount numcomps : Nat) :
    Nat → List opj_image_comp_t → Except DicomCodecException (List opj_image_comp_t)
  | _, [] => .ok []
  | c, comp :: rest =>
    match encodeComponent oldPixelData frameData pixelCount numcomps c comp with
    | .error e => .error e
    | .ok comp' =>
      match encodeComponents oldPixelData frameData pixelCount numcomps (c + 1) rest with
      | .error e => .error e
      | .ok rest' => .ok (comp' :: rest')

/-- The image handed to `opj_encode` for one frame (lines 128-217): created from the
component parameters, given its extent, and filled by the component loop. -/
def encodeImage (oldPixelData : DcmPixelData) (jparams : DcmJpeg2000Parameters)
    (eparams : opj_cparameters_t) (frameData : List Nat) :
    Except DicomCodecException opj_image_t :=
  let pixelCount := oldPixelData.ImageHeight * oldPixelData.ImageWidth
  let color_space := getOpenJpegColorSpace oldPixelData.PhotometricInterpretation
  let image := opj_image_create (componentParameters oldPixelData jparams eparams) color_space
  let x0 := eparams.image_offset_x0
  let y0 := eparams.image_offset_y0
  let image := { image with
    x0 := x0, y0 := y0,
    x1 := x0 + ((oldPixelData.ImageWidth : Int) - 1) * eparams.subsampling_dx + 1,
    y1 := y0 + ((oldPixelData.ImageHeight : Int) - 1) * eparams.subsampling_dy + 1 }
  match encodeComponents oldPixelData frameData pixelCount image.numcomps 0 image.comps with
  | .error e => .error e
  | .ok comps => .ok { image with comps := comps }

/-- The frame loop of `Encode` (lines 81-239) over the frame indices still to do: each frame
is fetched, pinned (`&frameArray[0]`, line 83), marshalled into the engine image, encoded and
appended; the first exception ends the call. -/
def encodeFrames (engine : OpenJpeg) (oldPixelData : DcmPixelData)
    (jparams : DcmJpeg2000Parameters) : List Nat → DcmPixelData → List Nat → CallResult
  | [], newPixelData, framesRead => ⟨none, newPixelData, framesRead⟩
  | frame :: rest, newPixelData, framesRead =>
    let frameArray := oldPixelData.GetFrameDataU8 frame
    let framesRead := framesRead ++ [frame]
    if frameArray = [] then ⟨some .IndexOutOfRange, newPixelData, framesRead⟩
    else
      let eparams := compressionParameters oldPixelData newPixelData jparams
      match encodeImage oldPixelData jparams eparams frameArray with
      | .error e => ⟨some e, newPixelData, framesRead⟩
      | .ok image =>
        match engine.opj_encode eparams image with
        | some cbuf =>
          encodeFrames engine oldPixelData jparams rest (newPixelData.AddFrame cbuf) framesRead
        | none => ⟨some .Jpeg2000UnableToEncode, newPixelData, framesRead⟩

/-- The metadata updates that end `Encode` (lines 241-258). `formatRatio oldSize newSize` is
the runtime's rendering `String::Format("{0:0.000}", oldSize / newSize)`. -/
def encodeMetadata (formatRatio : Nat → Nat → String) (oldPixelData newPixelData : DcmPixelData)
    (jparams : DcmJpeg2000Parameters) : DcmPixelData :=
  let newPixelData :=
    if oldPixelData.PhotometricInterpretation = "RGB" ∧ jparams.AllowMCT = true then
      if jparams.UpdatePhotometricInterpretation = true then
        if newPixelData.TransferSyntax = .JPEG2000Lossy ∧ jparams.Irreversible = true then
          { newPixelData with PhotometricInterpretation := "YBR_ICT" }
        else
          { newPixelData with PhotometricInterpretation := "YBR_RCT" }
      else newPixelData
    else newPixelData
  if newPixelData.TransferSyntax = .JPEG2000Lossy ∧ newPixelData.NumberOfFrames > 0 then
    { newPixelData with
      IsLossy := true,
      LossyCompressionMethod := "ISO_15444_1",
      LossyCompressionRatio :=
        formatRatio (oldPixelData.GetFrameSize 0) (newPixelData.GetFrameSize 0) }
  else newPixelData

/-- Source function `DcmJpeg2000Codec::Encode`; `parameters = none` is the null pointer, for
which the default parameters are taken. -/
def Encode (engine : OpenJpeg) (formatRatio : Nat → Nat → String)
    (oldPixelData newPixelData : DcmPixelData) (parameters : Option DcmJpeg2000Parameters) :
    CallResult :=
  if oldPixelData.PhotometricInterpretation = "YBR_FULL_422"
      ∨ oldPixelData.PhotometricInterpretation = "YBR_PARTIAL_422"
      ∨ oldPixelData.PhotometricInterpretation = "YBR_PARTIAL_420" then
    ⟨some (.PhotometricInterpretationNotSupported "JPEG 2000"
        oldPixelData.PhotometricInterpretation), newPixelData, []⟩
  else
    let jparams : DcmJpeg2000Parameters := parameters.getD {}
    let r := encodeFrames engine oldPixelData jparams (List.range oldPixelData.NumberOfFrames)
      newPixelData []
    match r.thrown with
    | some _ => r
    | none =>
      { r with newPixelData := encodeMetadata formatRatio oldPixelData r.newPixelData jparams }

/-- The sample loop `for (int p = 0; p < pixelCount; p++) { const int i = comp->data[p];
store(pos, i); pos += offset; }` of `Decode`, from sample `p` on (a read beyond the sample
array, undefined in C++, yields 0). -/
def unpackLoop (store : List Nat → Nat → Int → List Nat) (data : List Int) (offset : Nat) :
    Nat → Nat → Nat → List Nat → List Nat
  | 0, _, _, destArray => destArray
  | n + 1, p, pos, destArray =>
    unpackLoop store data offset n (p + 1) (pos + offset) (store destArray pos (data.getD p 0))

/-- The body of the component loop of `Decode` (lines 324-369) for component `c`: the
destination buffer after the samples of the component are written, or the exception for an
unsupported storage width. -/
def decodeComponent (newPixelData : DcmPixelData) (pixelCount numcomps c : Nat)
    (comp : opj_image_comp_t) (destArray : List Nat) : Except DicomCodecException (List Nat) :=
  let pos := if newPixelData.IsPlanar then c * pixelCount else c
  let offset := if newPixelData.IsPlanar then 1 else numcomps
  if newPixelData.BytesAllocated = 1 then
    if comp.sgnd ≠ 0 then
      let sign := castU8 ((1 <<< newPixelData.HighBit : Nat) : Int)
      let store := fun (destArray : List Nat) (pos : Nat) (i : Int) =>
        if i < 0 then writeU8 destArray pos (castU8 (Int.lor (-i) sign))
        else writeU8 destArray pos (castU8 i)
      .ok (unpackLoop store comp.data offset pixelCount 0 pos destArray)
    else
      let store := fun (destArray : List Nat) (pos : Nat) (i : Int) =>
        writeU8 destArray pos (castU8 i)
      .ok (unpackLoop store comp.data offset pixelCount 0 pos destArray)
  else if newPixelData.BytesAllocated = 2 then
    let sign := castU16 ((1 <<< newPixelData.HighBit : Nat) : Int)
    if comp.sgnd ≠ 0 then
      let store := fun (destArray : List Nat) (pos : Nat) (i : Int) =>
        if i < 0 then writeU16 destArray pos (castU16 (Int.lor (-i) sign))
        else writeU16 destArray pos (castU16 i)
      .ok (unpackLoop store comp.data offset pixelCount 0 pos destArray)
    else
      let store := fun (destArray : List Nat) (pos : Nat) (i : Int) =>
        writeU16 destArray pos (castU16 i)
      .ok (unpackLoop store comp.data offset pixelCount 0 pos destArray)
  else
    .error .Jpeg2000BytesAllocated

/-- The component loop `for (int c = 0; c < image->numcomps; c++)` of `Decode`
(lines 323-370), from component `c` on. -/
def decodeComponents (newPixelData : DcmPixelData) (pixelCount numcomps : Nat) :
    Nat → List opj_image_comp_t → List Nat → Except DicomCodecException (List Nat)
  | _, [], destArray => .ok destArray
  | c, comp :: rest, destArray =>
    match decodeComponent newPixelData pixelCount numcomps c comp destArray with
    | .error e => .error e
    | .ok destArray' => decodeComponents newPixelData pixelCount numcomps (c + 1) rest destArray'

/-- The marshalling of one decoded image into the destination buffer (lines 323-370). -/
def decodeImage (newPixelData : DcmPixelData) (pixelCount : Nat) (image : opj_image_t)
    (destArray : List Nat) : Except DicomCodecException (List Nat) :=
  decodeComponents newPixelData pixelCount image.numcomps 0 image.comps destArray

/-- The photometric normalisation that opens `Decode` (lines 273-280). -/
def decodeMetadata (newPixelData : DcmPixelData) : DcmPixelData :=
  let newPixelData :=
    if newPixelData.PhotometricInterpretation = "YBR_RCT"
        ∨ newPixelData.PhotometricInterpretation = "YBR_ICT" then
      { newPixelData with PhotometricInterpretation := "RGB" }
    else newPixelData
  let newPixelData :=
    if newPixelData.PhotometricInterpretation = "YBR_FULL_422"
        ∨ newPixelData.PhotometricInterpretation = "YBR_PARTIAL_422" then
      { newPixelData with PhotometricInterpretation := "YBR_FULL" }
    else newPixelData
  if newPixelData.PhotometricInterpretation = "YBR_FULL" then
    { newPixelData with PlanarConfiguration := 1 }
  else newPixelData

/-- The frame loop of `Decode` (lines 282-382) over the frame indices still to do; the
destination buffer `destArray` is the one array allocated before the loop. Each compressed
frame is fetched and pinned (`&jpegArray[0]`, line 284) before the engine is called. -/
def decodeFrames (engine : OpenJpeg) (oldPixelData : DcmPixelData) (pixelCount : Nat) :
    List Nat → List Nat → DcmPixelData → List Nat → CallResult
  | [], _, newPixelData, framesRead => ⟨none, newPixelData, framesRead⟩
  | frame :: rest, destArray, newPixelData, framesRead =>
    let jpegArray := oldPixelData.GetFrameDataU8 frame
    let framesRead := framesRead ++ [frame]
    if jpegArray = [] then ⟨some .IndexOutOfRange, newPixelData, framesRead⟩
    else
      match engine.opj_decode jpegArray with
      | none => ⟨some .Jpeg2000CodeStream, newPixelData, framesRead⟩
      | some image =>
        match decodeImage newPixelData pixelCount image destArray with
        | .error e => ⟨some e, newPixelData, framesRead⟩
        | .ok destArray' =>
          decodeFrames engine oldPixelData pixelCount rest destArray'
            (newPixelData.AddFrame destArray') framesRead

/-- Source function `DcmJpeg2000Codec::Decode`. The destination buffer is allocated and pinned
(`&destArray[0]`, line 267) before the photometric rewrite of lines 273-280. -/
def Decode (engine : OpenJpeg) (oldPixelData newPixelData : DcmPixelData) : CallResult :=
  let destArray := List.replicate oldPixelData.UncompressedFrameSize 0
  if destArray = [] then ⟨some .IndexOutOfRange, newPixelData, []⟩
  else
    let pixelCount := oldPixelData.ImageHeight * oldPixelData.ImageWidth
    let newPixelData := decodeMetadata newPixelData
    decodeFrames engine oldPixelData pixelCount (List.range oldPixelData.NumberOfFrames)
      destArray newPixelData []

end DcmJpeg2000Codec

/-! ## Predictive codec (`DcmJpegLsCodec`) -/

/-- Source enum `DcmJpegLsInterleaveMode`. -/
inductive DcmJpegLsInterleaveMode where
  | None
  | Line
  | Sample
  deriving DecidableEq, Repr

/-- Source enum `DcmJpegLsColorTransform`. -/
inductive DcmJpegLsColorTransform where
  | None
  | HP1
  | HP2
  | HP3
  deriving DecidableEq, Repr

/-- The numeric value of an interleave mode, which the cast `(interleavemode)` keeps. -/
def DcmJpegLsInterleaveMode.toInt : DcmJpegLsInterleaveMode → Int
  | .None => 0
  | .Line => 1
  | .Sample => 2

/-- The numeric value of a colour transform, taken by the cast `(int)`. -/
def DcmJpegLsColorTransform.toInt : DcmJpegLsColorTransform → Int
  | .None => 0
  | .HP1 => 1
  | .HP2 => 2
  | .HP3 => 3

/-- Settings of the predictive codec, with the defaults of the constructor
`DcmJpegLsParameters()`. -/
structure DcmJpegLsParameters where
  AllowedError : Int := 3
  InterleaveMode : DcmJpegLsInterleaveMode := .Line
  ColorTransform : DcmJpegLsColorTransform := .HP1
  deriving DecidableEq, Repr

/-- The fields of the engine's parameter record `JlsParamaters` that the codec sets; the
record starts cleared (`= {0}`). `ILV_NONE` and `COLORXFORM_NONE` are 0. -/
structure JlsParamaters where
  width : Int := 0
  height : Int := 0
  bitspersample : Int := 0
  bytesperline : Int := 0
  components : Int := 0
  allowedlossyerror : Int := 0
  ilv : Int := 0
  colorTransform : Int := 0
  deriving DecidableEq, Repr

/-- The two engine entry points of the predictive coder: `JpegLsEncode` (source frame and
parameter record to compressed bytes) and `JpegLsDecode` (destination buffer and compressed
bytes to the filled destination buffer), each with the engine's error code on failure. -/
structure CharLS where
  JpegLsEncode : List Nat → JlsParamaters → Except JLS_ERROR (List Nat)
  JpegLsDecode : List Nat → List Nat → Except JLS_ERROR (List Nat)

namespace DcmJpegLsCodec

/-- The parameter record `params` built by `Encode` (lines 87-107); `transferSyntax` is the
codec's own `GetTransferSyntax()`. The stride (line 91) is a product of three `int` values
taken in `int`. -/
def encodeParameters (transferSyntax : DicomTransferSyntax) (oldPixelData : DcmPixelData)
    (jparams : DcmJpegLsParameters) : JlsParamaters :=
  let params : JlsParamaters := {}
  let params := { params with
    width := oldPixelData.ImageWidth,
    height := oldPixelData.ImageHeight,
    bitspersample := oldPixelData.BitsStored,
    bytesperline := wrapInt32
      (oldPixelData.BytesAllocated * oldPixelData.ImageWidth * oldPixelData.SamplesPerPixel),
    components := oldPixelData.SamplesPerPixel }
  let params := { params with ilv := 0, colorTransform := 0 }
  let params :=
    if oldPixelData.SamplesPerPixel = 3 then
      let params := { params with ilv := jparams.InterleaveMode.toInt }
      if oldPixelData.PhotometricInterpretation = "RGB" then
        { params with colorTransform := jparams.ColorTransform.toInt }
      else params
    else params
  if transferSyntax = .JPEGLSNearLossless then
    { params with allowedlossyerror := jparams.AllowedError }
  else params

/-- The frame loop of `Encode` (lines 109-130) over the frame indices still to do; each frame
is fetched and pinned (`&frameArray[0]`, line 111) before the engine is called. -/
def encodeFrames (engine : CharLS) (oldPixelData : DcmPixelData) (params : JlsParamaters) :
    List Nat → DcmPixelData → List Nat → CallResult
  | [], newPixelData, framesRead => ⟨none, newPixelData, framesRead⟩
  | frame :: rest, newPixelData, framesRead =>
    let frameArray := oldPixelData.GetFrameDataU8 frame
    let framesRead := framesRead ++ [frame]
    if frameArray = [] then ⟨some .IndexOutOfRange, newPixelData, framesRead⟩
    else
      match engine.JpegLsEncode frameArray params with
      | .error err => ⟨some (.JpegLs err), newPixelData, framesRead⟩
      | .ok compData =>
        encodeFrames engine oldPixelData params rest (newPixelData.AddFrame compData) framesRead

/-- The lossy bookkeeping that ends `Encode` (lines 132-140). -/
def encodeMetadata (formatRatio : Nat → Nat → String) (oldPixelData newPixelData : DcmPixelData) :
    DcmPixelData :=
  if newPixelData.TransferSyntax = .JPEGLSNearLossless ∧ newPixelData.NumberOfFrames > 0 then
    { newPixelData with
      IsLossy := true,
      LossyCompressionMethod := "ISO_14495_1",
      LossyCompressionRatio :=
        formatRatio (oldPixelData.GetFrameSize 0) (newPixelData.GetFrameSize 0) }
  else newPixelData

/-- Source function `DcmJpegLsCodec::Encode`; `transferSyntax` is the codec's own
`GetTransferSyntax()`, `parameters = none` the null pointer. -/
def Encode (engine : CharLS) (formatRatio : Nat → Nat → String)
    (transferSyntax : DicomTransferSyntax) (oldPixelData newPixelData : DcmPixelData)
    (parameters : Option DcmJpegLsParameters) : CallResult :=
  if oldPixelData.PhotometricInterpretation = "YBR_FULL_422"
      ∨ oldPixelData.PhotometricInterpretation = "YBR_PARTIAL_422"
      ∨ oldPixelData.PhotometricInterpretation = "YBR_PARTIAL_420" then
    ⟨some (.PhotometricInterpretationNotSupported "JPEG-LS"
        oldPixelData.PhotometricInterpretation), newPixelData, []⟩
  else
    let jparams : DcmJpegLsParameters := parameters.getD {}
    let params := encodeParameters transferSyntax oldPixelData jparams
    let newPixelData :=
      if transferSyntax = .JPEGLSNearLossless then { newPixelData with IsLossy := true }
      else newPixelData
    let r := encodeFrames engine oldPixelData params (List.range oldPixelData.NumberOfFrames)
      newPixelData []
    match r.thrown with
    | some _ => r
    | none => { r with newPixelData := encodeMetadata formatRatio oldPixelData r.newPixelData }

/-- The frame loop of `Decode` (lines 149-161) over the frame indices still to do; each
compressed frame is fetched and pinned (`&jpegArray[0]`, line 151) before the engine is
called. -/
def decodeFrames (engine : CharLS) (oldPixelData : DcmPixelData) :
    List Nat → List Nat → DcmPixelData → List Nat → CallResult
  | [], _, newPixelData, framesRead => ⟨none, newPixelData, framesRead⟩
  | frame :: rest, destArray, newPixelData, framesRead =>
    let jpegArray := oldPixelData.GetFrameDataU8 frame
    let framesRead := framesRead ++ [frame]
    if jpegArray = [] then ⟨some .IndexOutOfRange, newPixelData, framesRead⟩
    else
      match engine.JpegLsDecode destArray jpegArray with
      | .error err => ⟨some (.JpegLs err), newPixelData, framesRead⟩
      | .ok destArray' =>
        decodeFrames engine oldPixelData rest destArray' (newPixelData.AddFrame destArray')
          framesRead

/-- Source function `DcmJpegLsCodec::Decode`. The destination buffer is allocated and pinned
(`&destArray[0]`, line 145) before the frame loop. -/
def Decode (engine : CharLS) (oldPixelData newPixelData : DcmPixelData) : CallResult :=
  let destArray := List.replicate oldPixelData.UncompressedFrameSize 0
  if destArray = [] then ⟨some .IndexOutOfRange, newPixelData, []⟩
  else
    decodeFrames engine oldPixelData (List.range oldPixelData.NumberOfFrames) destArray
      newPixelData []

end DcmJpegLsCodec

/-! ## DCT codec (`DcmJpegCodec`) -/

/-- Source enum `JpegSampleFactor`. -/
inductive JpegSampleFactor where
  | SF444
  | SF422
  | Unknown
  deriving DecidableEq, Repr

/-- Settings of the DCT codec, with the defaults of the constructor `DcmJpegParameters()`. -/
structure DcmJpegParameters where
  Quality : Int := 90
  SmoothingFactor : Int := 0
  ConvertColorspaceToRGB : Bool := false
  SampleFactor : JpegSampleFactor := .SF444
  Predictor : Int := 1
  PointTransform : Int := 0
  deriving DecidableEq, Repr

/-- A `DcmCodecParameters` object: the parameter classes of the three codec families. -/
inductive DcmCodecParameters where
  | Jpeg (jparams : DcmJpegParameters)
  | Jpeg2000 (jparams : DcmJpeg2000Parameters)
  | JpegLs (jparams : DcmJpegLsParameters)
  deriving DecidableEq, Repr

/-- Source enum `JpegMode`. -/
inductive JpegMode where
  | Baseline
  | Sequential
  | SpectralSelection
  | Progressive
  | Lossless
  deriving DecidableEq, Repr

/-- An engine binding: one of the three subclasses of `IJpegCodec`, constructed as
`gcnew JpegNCodec(mode, predictor, point_transform)`. -/
inductive IJpegCodec where
  | Jpeg8Codec (mode : JpegMode) (predictor point_transform : Int)
  | Jpeg12Codec (mode : JpegMode) (predictor point_transform : Int)
  | Jpeg16Codec (mode : JpegMode) (predictor point_transform : Int)
  deriving DecidableEq, Repr

namespace IJpegCodec

/-- Modelled from the spec: the constructors of the engine classes (file `JpegCodec.cpp`, not
among the sources) fix the field `Mode` to their first argument. -/
def Mode : IJpegCodec → JpegMode
  | Jpeg8Codec mode _ _ => mode
  | Jpeg12Codec mode _ _ => mode
  | Jpeg16Codec mode _ _ => mode

/-- Modelled from the spec: the constructors of the engine classes (file `JpegCodec.cpp`, not
among the sources) fix the field `Predictor` to their second argument. -/
def Predictor : IJpegCodec → Int
  | Jpeg8Codec _ predictor _ => predictor
  | Jpeg12Codec _ predictor _ => predictor
  | Jpeg16Codec _ predictor _ => predictor

/-- Modelled from the spec: the constructors of the engine classes (file `JpegCodec.cpp`, not
among the sources) fix the field `PointTransform` to their third argument. -/
def PointTransform : IJpegCodec → Int
  | Jpeg8Codec _ _ point_transform => point_transform
  | Jpeg12Codec _ _ point_transform => point_transform
  | Jpeg16Codec _ _ point_transform => point_transform

end IJpegCodec

/-- The external collaborators of the DCT driver: the per-frame engine calls
`codec->Encode(oldPixelData, newPixelData, params, frame)` and `codec->Decode(...)`, each
yielding the frame it appends to the destination or the exception it raises, and the header
scan `JpegHelper::ScanHeaderForBitDepth` (`none` when it throws). -/
structure Ijg where
  Encode : IJpegCodec → DcmPixelData → DcmPixelData → DcmJpegParameters → Nat →
    Except DicomCodecException (List Nat)
  Decode : IJpegCodec → DcmPixelData → DcmPixelData → DcmJpegParameters → Nat →
    Except DicomCodecException (List Nat)
  ScanHeaderForBitDepth : DcmPixelData → Option Int

/-- The four concrete subclasses of the abstract class `DcmJpegCodec`. -/
inductive DcmJpegCodec where
  | DcmJpegProcess1Codec
  | DcmJpegProcess4Codec
  | DcmJpegLossless14Codec
  | DcmJpegLossless14SV1Codec
  deriving DecidableEq, Repr

/-- What a call of the DCT driver leaves behind: as `CallResult`, and the engine binding that
`GetCodec` returned, if the call got that far. -/
structure JpegCallResult where
  thrown : Option DicomCodecException
  newPixelData : DcmPixelData
  framesRead : List Nat
  codec : Option IJpegCodec
  deriving DecidableEq, Repr

namespace DcmJpegCodec

/-- Source function `GetTransferSyntax` of the four subclasses. -/
def GetTransferSyntax : DcmJpegCodec → DicomTransferSyntax
  | DcmJpegProcess1Codec => .JPEGProcess1
  | DcmJpegProcess4Codec => .JPEGProcess2_4
  | DcmJpegLossless14Codec => .JPEGProcess14
  | DcmJpegLossless14SV1Codec => .JPEGProcess14SV1

/-- Source function `GetCodec(bits, jparams)` of the four subclasses (`DcmJpegCodec.h`). -/
def GetCodec : DcmJpegCodec → Int → DcmJpegParameters → Except DicomCodecException IJpegCodec
  | DcmJpegProcess1Codec, bits, _ =>
    if bits = 8 then
      .ok (.Jpeg8Codec .Baseline 0 0)
    else
      .error (.UnableToCreateCodec "Process 1" bits)
  | DcmJpegProcess4Codec, bits, _ =>
    if bits = 12 then
      .ok (.Jpeg12Codec .Sequential 0 0)
    else
      .error (.UnableToCreateCodec "Process 4" bits)
  | DcmJpegLossless14Codec, bits, jparams =>
    if bits ≤ 8 then
      .ok (.Jpeg8Codec .Lossless jparams.Predictor jparams.PointTransform)
    else if bits ≤ 12 then
      .ok (.Jpeg12Codec .Lossless jparams.Predictor jparams.PointTransform)
    else if bits ≤ 16 then
      .ok (.Jpeg16Codec .Lossless jparams.Predictor jparams.PointTransform)
    else
      .error (.UnableToCreateCodec "Process 14" bits)
  | DcmJpegLossless14SV1Codec, bits, jparams =>
    if bits ≤ 8 then
      .ok (.Jpeg8Codec .Lossless 1 jparams.PointTransform)
    else if bits ≤ 12 then
      .ok (.Jpeg12Codec .Lossless 1 jparams.PointTransform)
    else if bits ≤ 16 then
      .ok (.Jpeg16Codec .Lossless 1 jparams.PointTransform)
    else
      .error (.UnableToCreateCodec "Process 14 [SV1]" bits)

/-- The parameter selection of `Encode` and `Decode`: a null pointer or an object of another
class is replaced by `GetDefaultParameters()`. -/
def selectParameters : Option DcmCodecParameters → DcmJpegParameters
  | some (.Jpeg jparams) => jparams
  | _ => {}

/-- The frame loop of `Encode` (lines 56-58) over the frame indices still to do. -/
def encodeFrames (engine : Ijg) (codec : IJpegCodec) (oldPixelData : DcmPixelData)
    (jparams : DcmJpegParameters) : List Nat → DcmPixelData → List Nat → JpegCallResult
  | [], newPixelData, framesRead => ⟨none, newPixelData, framesRead, some codec⟩
  | frame :: rest, newPixelData, framesRead =>
    let framesRead := framesRead ++ [frame]
    match engine.Encode codec oldPixelData newPixelData jparams frame with
    | .error e => ⟨some e, newPixelData, framesRead, some codec⟩
    | .ok bytes =>
      encodeFrames engine codec oldPixelData jparams rest (newPixelData.AddFrame bytes)
        framesRead

/-- The lossy bookkeeping that ends `Encode` (lines 60-68). -/
def encodeMetadata (formatRatio : Nat → Nat → String) (codec : IJpegCodec)
    (oldPixelData newPixelData : DcmPixelData) : DcmPixelData :=
  if codec.Mode ≠ .Lossless then
    { newPixelData with
      IsLossy := true,
      LossyCompressionMethod := "ISO_10918_1",
      LossyCompressionRatio :=
        formatRatio (oldPixelData.GetFrameSize 0) (newPixelData.GetFrameSize 0) }
  else newPixelData

/-- Source function `DcmJpegCodec::Encode`, for the subclass `self`. -/
def Encode (engine : Ijg) (formatRatio : Nat → Nat → String) (self : DcmJpegCodec)
    (oldPixelData newPixelData : DcmPixelData) (parameters : Option DcmCodecParameters) :
    JpegCallResult :=
  if oldPixelData.NumberOfFrames = 0 then
    ⟨none, newPixelData, [], none⟩
  else
    let newPixelData :=
      if oldPixelData.BitsAllocated = 16 ∧ oldPixelData.BitsStored ≤ 8 then
        { newPixelData with BitsAllocated := 8 }
      else newPixelData
    let jparams := selectParameters parameters
    match self.GetCodec oldPixelData.BitsStored jparams with
    | .error e => ⟨some e, newPixelData, [], none⟩
    | .ok codec =>
      let r := encodeFrames engine codec oldPixelData jparams
        (List.range oldPixelData.NumberOfFrames) newPixelData []
      match r.thrown with
      | some _ => r
      | none =>
        { r with newPixelData := encodeMetadata formatRatio codec oldPixelData r.newPixelData }

/-- The frame loop of `Decode` (lines 102-104) over the frame indices still to do. -/
def decodeFrames (engine : Ijg) (codec : IJpegCodec) (oldPixelData : DcmPixelData)
    (jparams : DcmJpegParameters) : List Nat → DcmPixelData → List Nat → JpegCallResult
  | [], newPixelData, framesRead => ⟨none, newPixelData, framesRead, some codec⟩
  | frame :: rest, newPixelData, framesRead =>
    let framesRead := framesRead ++ [frame]
    match engine.Decode codec oldPixelData newPixelData jparams frame with
    | .error e => ⟨some e, newPixelData, framesRead, some codec⟩
    | .ok bytes =>
      decodeFrames engine codec oldPixelData jparams rest (newPixelData.AddFrame bytes)
        framesRead

/-- Source function `DcmJpegCodec::Decode`, for the subclass `self`. -/
def Decode (engine : Ijg) (self : DcmJpegCodec) (oldPixelData newPixelData : DcmPixelData)
    (parameters : Option DcmCodecParameters) : JpegCallResult :=
  if oldPixelData.NumberOfFrames = 0 then
    ⟨none, newPixelData, [], none⟩
  else
    let newPixelData :=
      if newPixelData.BitsAllocated = 16 ∧ newPixelData.BitsStored ≤ 8 then
        { newPixelData with BitsAllocated := 8 }
      else newPixelData
    let jparams := selectParameters parameters
    let precision : Int :=
      match engine.ScanHeaderForBitDepth oldPixelData with
      | some precision => precision
      | none => oldPixelData.BitsStored
    let newPixelData :=
      if (newPixelData.BitsStored : Int) ≤ 8 ∧ precision > 8 then
        { newPixelData with BitsAllocated := 16 }
      else newPixelData
    match self.GetCodec precision jparams with
    | .error e => ⟨some e, newPixelData, [], none⟩
    | .ok codec =>
      decodeFrames engine codec oldPixelData jparams (List.range oldPixelData.NumberOfFrames)
        newPixelData []

end DcmJpegCodec

/-! ## Auxiliary definitions for the proofs

Restatements of parts of the source functions above in a shape suited to induction; each is
proved equal to the part of the source function it restates (`encodeComponent_eq`,
`decodeComponent_eq`, `encodeFrames_eq_frameLoop`, `decodeFrames_eq_frameLoop` and their
namesakes for the other two drivers). -/

/-- The storage unit at sample position `pos` of a buffer, for 1 or 2 bytes per unit. -/
def storedUnit (bytesAllocated : Nat) (frameData : List Nat) (pos : Nat) : Nat :=
  if bytesAllocated = 1 then readU8 frameData pos else readU16 frameData pos

/-- The assignment of a storage unit at sample position `pos`, for 1 or 2 bytes per unit. -/
def storeUnit (bytesAllocated : Nat) (destArray : List Nat) (pos : Nat) (v : Nat) : List Nat :=
  if bytesAllocated = 1 then writeU8 destArray pos v else writeU16 destArray pos v

/-- The value the sample loops of `encodeComponent` store for a unit `pixel`, by branch. -/
def packValue (pd : DcmPixelData) (sgnd : Nat) (pixel : Nat) : Int :=
  if pd.BytesAllocated = 1 then
    if sgnd ≠ 0 then
      if pd.BitsStored < 8 then
        let sign := castU8 ((1 <<< pd.HighBit : Nat) : Int)
        let mask := castU8 ((sign : Int) - 1)
        if pixel &&& sign ≠ 0 then -((pixel &&& mask : Nat) : Int) else (pixel : Int)
      else castS8 pixel
    else (pixel : Int)
  else
    if sgnd ≠ 0 then
      if pd.BitsStored < 16 then
        let sign := castU16 ((1 <<< pd.HighBit : Nat) : Int)
        let mask := castU16 ((sign : Int) - 1)
        if pixel &&& sign ≠ 0 then -((pixel &&& mask : Nat) : Int) else (pixel : Int)
      else castS16 pixel
    else (pixel : Int)

/-- The unit the sample loops of `decodeComponent` store for a component value `i`, by
branch. -/
def unpackValue (pd : DcmPixelData) (sgnd : Nat) (i : Int) : Nat :=
  if pd.BytesAllocated = 1 then
    if sgnd ≠ 0 then
      if i < 0 then castU8 (Int.lor (-i) (castU8 ((1 <<< pd.HighBit : Nat) : Int)))
      else castU8 i
    else castU8 i
  else
    if sgnd ≠ 0 then
      if i < 0 then castU16 (Int.lor (-i) (castU16 ((1 <<< pd.HighBit : Nat) : Int)))
      else castU16 i
    else castU16 i

/-- The sample position of pixel `p` of component `c`: the loops start at `c * pixelCount`
(planar) or `c` (interleaved) and advance by 1 (planar) or `numcomps` (interleaved). -/
def samplePos (planar : Bool) (pixelCount numcomps c p : Nat) : Nat :=
  (if planar then c * pixelCount else c) + p * (if planar then 1 else numcomps)

/-- The bytes of the storage unit at sample position `q`: low byte and, for 2 bytes per
unit, high byte. -/
def unitBytes (bytesAllocated : Nat) (d : List Nat) (q : Nat) : Nat × Nat :=
  if bytesAllocated = 1 then (d.getD q 0, 0) else (d.getD (2 * q) 0, d.getD (2 * q + 1) 0)

/-- The bytes a unit value `v` is stored as. -/
def valueBytes (bytesAllocated : Nat) (v : Nat) : Nat × Nat :=
  if bytesAllocated = 1 then (v, 0) else (v % 256, v / 256)

/-- The photometric interpretation as `Decode` of the wavelet codec rewrites it (lines
273-280): the two wavelet colour transforms become RGB, the two 4:2:2 variants become
YBR_FULL, every other value stays. -/
def normalisedPhotometricInterpretation (pi : String) : String :=
  if pi = "YBR_RCT" ∨ pi = "YBR_ICT" then "RGB"
  else if pi = "YBR_FULL_422" ∨ pi = "YBR_PARTIAL_422" then "YBR_FULL"
  else pi

/-- The engine's 100-entry rate table after the entries `written` have been stored at the
indices `0, 1, ...` of the cleared table; a store at an index past the table is dropped. -/
def rateTable (written : List Int) : List Int :=
  (written ++ List.replicate (100 - written.length) 0).take 100

/-- The common shape of the six frame loops: `step` is the body for one frame, given the
destination as it is before the frame, the buffer the previous frame left (the one array that
the decoders fill again for every frame) and the frame index; its result is the frame that
is appended. The first exception ends the loop. -/
def frameLoop (step : DcmPixelData → List Nat → Nat → Except DicomCodecException (List Nat)) :
    List Nat → List Nat → DcmPixelData → List Nat → CallResult
  | [], _, newPixelData, framesRead => ⟨none, newPixelData, framesRead⟩
  | frame :: rest, buffer, newPixelData, framesRead =>
    match step newPixelData buffer frame with
    | .error e => ⟨some e, newPixelData, framesRead ++ [frame]⟩
    | .ok bytes =>
      frameLoop step rest bytes (newPixelData.AddFrame bytes) (framesRead ++ [frame])

namespace DcmJpeg2000Codec

/-- The body of the frame loop of `Encode` for one frame (lines 82-238): the code stream that
is appended, or the exception. -/
def encodeFrame (engine : OpenJpeg) (oldPixelData : DcmPixelData)
    (jparams : DcmJpeg2000Parameters) (newPixelData : DcmPixelData) (frame : Nat) :
    Except DicomCodecException (List Nat) :=
  if oldPixelData.GetFrameDataU8 frame = [] then .error .IndexOutOfRange
  else
    let eparams := compressionParameters oldPixelData newPixelData jparams
    match encodeImage oldPixelData jparams eparams (oldPixelData.GetFrameDataU8 frame) with
    | .error e => .error e
    | .ok image =>
      match engine.opj_encode eparams image with
      | some cbuf => .ok cbuf
      | none => .error .Jpeg2000UnableToEncode

/-- The body of the frame loop of `Decode` for one frame (lines 283-381): the content of the
destination buffer that is appended, or the exception. -/
def decodeFrame (engine : OpenJpeg) (oldPixelData : DcmPixelData) (pixelCount : Nat)
    (newPixelData : DcmPixelData) (destArray : List Nat) (frame : Nat) :
    Except DicomCodecException (List Nat) :=
  if oldPixelData.GetFrameDataU8 frame = [] then .error .IndexOutOfRange
  else
    match engine.opj_decode (oldPixelData.GetFrameDataU8 frame) with
    | none => .error .Jpeg2000CodeStream
    | some image => decodeImage newPixelData pixelCount image destArray

end DcmJpeg2000Codec

namespace DcmJpegLsCodec

/-- The body of the frame loop of `Encode` for one frame (lines 110-129). -/
def encodeFrame (engine : CharLS) (oldPixelData : DcmPixelData) (params : JlsParamaters)
    (frame : Nat) : Except DicomCodecException (List Nat) :=
  if oldPixelData.GetFrameDataU8 frame = [] then .error .IndexOutOfRange
  else
    match engine.JpegLsEncode (oldPixelData.GetFrameDataU8 frame) params with
    | .error err => .error (.JpegLs err)
    | .ok compData => .ok compData

/-- The body of the frame loop of `Decode` for one frame (lines 150-160). -/
def decodeFrame (engine : CharLS) (oldPixelData : DcmPixelData) (destArray : List Nat)
    (frame : Nat) : Except DicomCodecException (List Nat) :=
  if oldPixelData.GetFrameDataU8 frame = [] then .error .IndexOutOfRange
  else
    match engine.JpegLsDecode destArray (oldPixelData.GetFrameDataU8 frame) with
    | .error err => .error (.JpegLs err)
    | .ok destArray' => .ok destArray'

end DcmJpegLsCodec

/-! ## Sample inputs -/

/-- A 2 x 1 monochrome image of signed 12-bit samples in 16-bit storage, high bit 11. -/
def signed12 : DcmPixelData :=
  { TransferSyntax := .JPEG2000Lossless, ImageWidth := 2, ImageHeight := 1,
    SamplesPerPixel := 1, BitsAllocated := 16, BitsStored := 12, HighBit := 11,
    PixelRepresentation := 1, PlanarConfiguration := 0,
    PhotometricInterpretation := "MONOCHROME2", IsLossy := false,
    LossyCompressionMethod := "", LossyCompressionRatio := "", Frames := [] }

/-- A 2 x 1 monochrome image of signed 8-bit samples in 8-bit storage. -/
def signed8 : DcmPixelData :=
  { signed12 with BitsAllocated := 8, BitsStored := 8, HighBit := 7 }

/-- A 2 x 1 colour image of unsigned 8-bit samples, three samples per pixel. -/
def rgb8 : DcmPixelData :=
  { signed12 with SamplesPerPixel := 3, BitsAllocated := 8, BitsStored := 8, HighBit := 7,
                  PixelRepresentation := 0, PhotometricInterpretation := "RGB" }

/-- A source whose stride product bytes-allocated * width * samples-per-pixel, 8192 * 65535
* 65535, does not fit 32 bits. -/
def wideStride : DcmPixelData :=
  { rgb8 with BitsAllocated := 65535, ImageWidth := 65535, SamplesPerPixel := 65535 }

/-- A 2 x 1 colour image of unsigned 8-bit samples marked YBR_FULL, interleaved (planar
configuration 0). -/
def ybrFull8 : DcmPixelData := { rgb8 with PhotometricInterpretation := "YBR_FULL" }

/-- A one-frame image of 8-bit samples kept in 16-bit storage. -/
def padded16 : DcmPixelData :=
  { signed12 with TransferSyntax := .Other "1.2.840.10008.1.2.1", BitsStored := 8, HighBit := 7,
                  PixelRepresentation := 0, Frames := [[1, 0, 2, 0]] }

/-- Wavelet parameters that keep the pixel representation of signed samples. -/
def signedParameters : DcmJpeg2000Parameters := { EncodeSignedPixelValuesAsUnsigned := false }

/-- A signed component of two samples, as `opj_image_create` makes it. -/
def signedComponent : opj_image_comp_t :=
  { dx := 1, dy := 1, w := 2, h := 1, prec := 12, bpp := 16, sgnd := 1, data := [0, 0] }

/-- A wavelet engine whose encoder returns one byte and whose decoder returns an image of one
unsigned component with two samples. -/
def sampleOpenJpeg : OpenJpeg :=
  { opj_encode := fun _ _ => some [0],
    opj_decode := fun _ =>
      some { x0 := 0, y0 := 0, x1 := 2, y1 := 1, color_space := .CLRSPC_GRAY,
             comps := [{ signedComponent with sgnd := 0 }] } }

/-- A DCT engine that compresses every frame to one byte and whose header scan fails. -/
def sampleIjg : Ijg :=
  { Encode := fun _ _ _ _ _ => .ok [0],
    Decode := fun _ _ _ _ _ => .ok [0],
    ScanHeaderForBitDepth := fun _ => none }

/-- A colour source with one frame of two pixels, three samples each. -/
def rgb8Frame : DcmPixelData := { rgb8 with Frames := [[10, 20, 30, 11, 21, 31]] }

/-- A predictive engine that compresses every frame to one byte and decodes into the buffer it
is given. -/
def sampleCharLS : CharLS :=
  { JpegLsEncode := fun _ _ => .ok [0], JpegLsDecode := fun dest _ => .ok dest }

/-- A decoded image of two pixels with three unsigned 8-bit components. -/
def sampleRgbImage : opj_image_t :=
  { x0 := 0, y0 := 0, x1 := 2, y1 := 1, color_space := .CLRSPC_SRGB,
    comps := [{ signedComponent with prec := 8, bpp := 8, sgnd := 0, data := [10, 11] },
              { signedComponent with prec := 8, bpp := 8, sgnd := 0, data := [20, 21] },
              { signedComponent with prec := 8, bpp := 8, sgnd := 0, data := [30, 31] }] }

/-! ## Lemmas -/

/-! ### Bit-level lemmas -/

theorem and_two_pow_eq_zero_iff (u hb : Nat) : u &&& 2 ^ hb = 0 ↔ u.testBit hb = false := by
  rw [Nat.and_two_pow]
  cases h : u.testBit hb <;> simp [Nat.pos_iff_ne_zero.mp (Nat.two_pow_pos hb)]

theorem and_two_pow_of_lt {u hb : Nat} (h : u < 2 ^ hb) : u &&& 2 ^ hb = 0 :=
  (and_two_pow_eq_zero_iff u hb).2 (Nat.testBit_lt_two_pow h)

theorem mod_or_two_pow {u hb : Nat} (h1 : u.testBit hb = true) (h2 : u < 2 ^ (hb + 1)) :
    (u % 2 ^ hb) ||| 2 ^ hb = u := by
  apply Nat.eq_of_testBit_eq
  intro i
  rw [Nat.testBit_or, Nat.testBit_mod_two_pow, Nat.testBit_two_pow]
  rcases Nat.lt_trichotomy i hb with hlt | heq | hgt
  · have : ¬ hb = i := by omega
    simp [hlt, this]
  · subst heq
    simp [h1]
  · have hn : ¬ i < hb := by omega
    have hne : ¬ hb = i := by omega
    have : u.testBit i = false :=
      Nat.testBit_lt_two_pow (lt_of_lt_of_le h2 (Nat.pow_le_pow_right (by decide) (by omega)))
    simp [hn, hne, this]

theorem or_mod_two_pow_right (a s w : Nat) : (a ||| s % 2 ^ w) % 2 ^ w = (a ||| s) % 2 ^ w := by
  apply Nat.eq_of_testBit_eq
  intro i
  simp only [Nat.testBit_mod_two_pow, Nat.testBit_or]
  by_cases h : i < w <;> simp [h]

theorem two_pow_mod_two_pow_of_le {hb w : Nat} (h : w ≤ hb) : 2 ^ hb % 2 ^ w = 0 :=
  Nat.mod_eq_zero_of_dvd (Nat.pow_dvd_pow 2 h)

theorem int_lor_natCast (a b : Nat) : Int.lor (a : Int) (b : Int) = ((a ||| b : Nat) : Int) := rfl

/-- The truncated sign and mask of the sub-word branch, for a high bit inside the unit. -/
theorem cast_sign_mask {w hb : Nat} (h : hb < w) :
    ((((2 ^ hb : Nat) : Int) % ((2 ^ w : Nat) : Int)).toNat = 2 ^ hb) ∧
    ((((2 ^ hb : Nat) : Int) - 1) % ((2 ^ w : Nat) : Int)).toNat = 2 ^ hb - 1 := by
  have hlt : 2 ^ hb < 2 ^ w := Nat.pow_lt_pow_right (by decide) h
  have hpos : 0 < 2 ^ hb := Nat.two_pow_pos hb
  constructor
  · rw [← Int.natCast_mod, Int.toNat_natCast, Nat.mod_eq_of_lt hlt]
  · have : (((2 ^ hb : Nat) : Int) - 1) = ((2 ^ hb - 1 : Nat) : Int) := by omega
    rw [this, ← Int.natCast_mod, Int.toNat_natCast, Nat.mod_eq_of_lt (by omega)]

theorem castU8_natCast (n : Nat) : castU8 (n : Int) = n % 256 := by
  unfold castU8
  omega

theorem castU16_natCast (n : Nat) : castU16 (n : Int) = n % 65536 := by
  unfold castU16
  omega

theorem castU8_sign (hb : Nat) : castU8 ((1 <<< hb : Nat) : Int) = 2 ^ hb % 256 := by
  rw [castU8_natCast, Nat.one_shiftLeft]

theorem castU16_sign (hb : Nat) : castU16 ((1 <<< hb : Nat) : Int) = 2 ^ hb % 65536 := by
  rw [castU16_natCast, Nat.one_shiftLeft]

namespace DcmJpeg2000Codec

theorem packLoop_length (body : Nat → Int) (offset : Nat) :
    ∀ n pos, (packLoop body offset n pos).length = n
  | 0, _ => rfl
  | n + 1, pos => by simp [packLoop, packLoop_length body offset n]

theorem packLoop_getElem? (body : Nat → Int) (offset : Nat) :
    ∀ n pos p, p < n → (packLoop body offset n pos)[p]? = some (body (pos + p * offset))
  | 0, _, _, h => by omega
  | n + 1, pos, 0, _ => by simp [packLoop]
  | n + 1, pos, p + 1, h => by
    simp only [packLoop, List.getElem?_cons_succ]
    rw [packLoop_getElem? body offset n (pos + offset) p (by omega)]
    congr 2
    rw [Nat.succ_mul]
    omega

theorem encodeComponent_eq (oldPixelData : DcmPixelData) (frameData : List Nat)
    (pixelCount numcomps c : Nat) (comp : opj_image_comp_t)
    (hw : oldPixelData.BytesAllocated = 1 ∨ oldPixelData.BytesAllocated = 2) :
    encodeComponent oldPixelData frameData pixelCount numcomps c comp
      = .ok { comp with
          data := packLoop (fun pos => packValue oldPixelData comp.sgnd
              (storedUnit oldPixelData.BytesAllocated frameData pos))
            (if oldPixelData.IsPlanar then 1 else numcomps) pixelCount
            (if oldPixelData.IsPlanar then c * pixelCount else c) } := by
  unfold encodeComponent
  rcases hw with hw | hw
  · simp only [packValue, storedUnit, hw, if_true]
    by_cases hs : comp.sgnd ≠ 0
    · by_cases hb : oldPixelData.BitsStored < 8
      · simp only [if_pos hs, if_pos hb]
      · simp only [if_pos hs, if_neg hb]
    · simp only [if_neg hs]
  · have h1 : oldPixelData.BytesAllocated ≠ 1 := by omega
    have h21 : (2 : Nat) ≠ 1 := by decide
    simp only [packValue, storedUnit, if_neg h1, hw, if_true, if_neg h21]
    by_cases hs : comp.sgnd ≠ 0
    · by_cases hb : oldPixelData.BitsStored < 16
      · simp only [if_pos hs, if_pos hb]
      · simp only [if_pos hs, if_neg hb]
    · simp only [if_neg hs]

theorem encodeComponent_getElem? (oldPixelData : DcmPixelData) (frameData : List Nat)
    (pixelCount numcomps c : Nat) (comp : opj_image_comp_t)
    (hw : oldPixelData.BytesAllocated = 1 ∨ oldPixelData.BytesAllocated = 2)
    (p : Nat) (hp : p < pixelCount) :
    ∃ comp', encodeComponent oldPixelData frameData pixelCount numcomps c comp = .ok comp' ∧
      comp'.sgnd = comp.sgnd ∧ comp'.data.length = pixelCount ∧
      comp'.data[p]? = some (packValue oldPixelData comp.sgnd
        (storedUnit oldPixelData.BytesAllocated frameData
          (samplePos oldPixelData.IsPlanar pixelCount numcomps c p))) := by
  refine ⟨_, encodeComponent_eq oldPixelData frameData pixelCount numcomps c comp hw, rfl,
    packLoop_length _ _ _ _, ?_⟩
  simp only
  rw [packLoop_getElem? _ _ _ _ _ hp]
  rfl

end DcmJpeg2000Codec

theorem subword_pack_eq {w hb raw : Nat} (hraw : raw < 2 ^ w) :
    (if raw &&& (2 ^ hb % 2 ^ w) ≠ 0 then
        -(((raw &&& ((((2 ^ hb % 2 ^ w : Nat) : Int) - 1) % ((2 ^ w : Nat) : Int)).toNat : Nat)) : Int)
      else (raw : Int))
    = (if raw &&& 2 ^ hb ≠ 0 then -((raw &&& (2 ^ hb - 1) : Nat) : Int) else (raw : Int)) := by
  by_cases h : hb < w
  · have hlt : 2 ^ hb < 2 ^ w := Nat.pow_lt_pow_right (by decide) h
    rw [Nat.mod_eq_of_lt hlt, (cast_sign_mask h).2]
  · have hle : w ≤ hb := by omega
    have h0 : raw &&& 2 ^ hb = 0 :=
      and_two_pow_of_lt (lt_of_lt_of_le hraw (Nat.pow_le_pow_right (by decide) hle))
    rw [two_pow_mod_two_pow_of_le hle]
    simp [h0]

theorem packValue_subword (pd : DcmPixelData) (sgnd raw : Nat) (hs : sgnd ≠ 0)
    (hw : (pd.BytesAllocated = 1 ∧ pd.BitsStored < 8) ∨
      (pd.BytesAllocated = 2 ∧ pd.BitsStored < 16))
    (hraw : raw < 2 ^ (8 * pd.BytesAllocated)) :
    packValue pd sgnd raw
      = if raw &&& (1 <<< pd.HighBit) ≠ 0 then
          -((raw &&& ((1 <<< pd.HighBit) - 1) : Nat) : Int)
        else (raw : Int) := by
  rcases hw with ⟨hb, hbs⟩ | ⟨hb, hbs⟩
  · rw [hb] at hraw
    have := @subword_pack_eq 8 pd.HighBit raw hraw
    simp only [packValue, hb, if_true, if_pos hs, if_pos hbs, castU8_sign, Nat.one_shiftLeft]
    exact this
  · rw [hb] at hraw
    have h21 : (2 : Nat) ≠ 1 := by decide
    have := @subword_pack_eq 16 pd.HighBit raw hraw
    simp only [packValue, hb, if_neg h21, if_pos hs, if_pos hbs, castU16_sign, Nat.one_shiftLeft]
    exact this

theorem packValue_full_width (pd : DcmPixelData) (sgnd raw : Nat) (hs : sgnd ≠ 0)
    (hw : pd.BytesAllocated = 1 ∨ pd.BytesAllocated = 2)
    (hbs : 8 * pd.BytesAllocated ≤ pd.BitsStored) :
    packValue pd sgnd raw
      = if raw < 2 ^ (8 * pd.BytesAllocated - 1) then (raw : Int)
        else (raw : Int) - ((2 ^ (8 * pd.BytesAllocated) : Nat) : Int) := by
  rcases hw with hb | hb
  · have h8 : ¬ pd.BitsStored < 8 := by omega
    simp only [packValue, hb, if_true, if_pos hs, if_neg h8, castS8]
    rfl
  · have h21 : (2 : Nat) ≠ 1 := by decide
    have h16 : ¬ pd.BitsStored < 16 := by omega
    simp only [packValue, hb, if_neg h21, if_pos hs, if_neg h16, castS16]
    rfl

/-! ### Storage units of a buffer -/

theorem getD_set_self {l : List Nat} {i : Nat} (h : i < l.length) (a : Nat) :
    (l.set i a).getD i 0 = a := by
  rw [List.getD_eq_getElem?_getD, List.getElem?_set, if_pos rfl, if_pos h]
  rfl

theorem getD_set_ne (l : List Nat) {i j : Nat} (h : i ≠ j) (a : Nat) :
    (l.set i a).getD j 0 = l.getD j 0 := by
  rw [List.getD_eq_getElem?_getD, List.getElem?_set_ne h, ← List.getD_eq_getElem?_getD]

theorem getD_lt_of_forall {l : List Nat} (h : ∀ b ∈ l, b < 256) (i : Nat) : l.getD i 0 < 256 := by
  by_cases hi : i < l.length
  · rw [List.getD_eq_getElem l 0 hi]
    exact h _ (List.getElem_mem hi)
  · rw [List.getD_eq_default l 0 (by omega)]
    decide

theorem storeUnit_length (bytesAllocated : Nat) (d : List Nat) (pos v : Nat) :
    (storeUnit bytesAllocated d pos v).length = d.length := by
  unfold storeUnit writeU8 writeU16
  split_ifs <;> simp

theorem unitBytes_storeUnit_self {bytesAllocated : Nat}
    (hw : bytesAllocated = 1 ∨ bytesAllocated = 2) {d : List Nat} {pos : Nat}
    (h : bytesAllocated * (pos + 1) ≤ d.length) (v : Nat) :
    unitBytes bytesAllocated (storeUnit bytesAllocated d pos v) pos
      = valueBytes bytesAllocated v := by
  rcases hw with rfl | rfl
  · simp only [unitBytes, storeUnit, valueBytes, if_true, writeU8]
    rw [getD_set_self (by omega)]
  · have h21 : (2 : Nat) ≠ 1 := by decide
    simp only [unitBytes, storeUnit, valueBytes, if_neg h21, writeU16]
    rw [getD_set_self (by rw [List.length_set]; omega), getD_set_ne _ (by omega),
      getD_set_self (by omega)]

theorem unitBytes_storeUnit_ne {bytesAllocated : Nat}
    (d : List Nat) {pos q : Nat} (h : q ≠ pos) (v : Nat) :
    unitBytes bytesAllocated (storeUnit bytesAllocated d pos v) q
      = unitBytes bytesAllocated d q := by
  unfold unitBytes storeUnit writeU8 writeU16
  split_ifs
  · rw [getD_set_ne _ (by omega)]
  · rw [getD_set_ne _ (by omega), getD_set_ne _ (by omega), getD_set_ne _ (by omega),
      getD_set_ne _ (by omega)]

theorem storedUnit_eq_unitBytes (bytesAllocated : Nat) (d : List Nat) (q : Nat) :
    storedUnit bytesAllocated d q
      = (unitBytes bytesAllocated d q).1 + 256 * (unitBytes bytesAllocated d q).2 := by
  unfold storedUnit unitBytes readU8 readU16
  split_ifs <;> simp

theorem storedUnit_lt {bytesAllocated : Nat} (hw : bytesAllocated = 1 ∨ bytesAllocated = 2)
    {d : List Nat} (h : ∀ b ∈ d, b < 256) (q : Nat) :
    storedUnit bytesAllocated d q < 2 ^ (8 * bytesAllocated) := by
  rcases hw with rfl | rfl
  · have := getD_lt_of_forall h q
    simp only [storedUnit, if_true, readU8]
    omega
  · have h1 := getD_lt_of_forall h (2 * q)
    have h2 := getD_lt_of_forall h (2 * q + 1)
    have h21 : (2 : Nat) ≠ 1 := by decide
    simp only [storedUnit, if_neg h21, readU16]
    omega

theorem valueBytes_storedUnit {bytesAllocated : Nat}
    (hw : bytesAllocated = 1 ∨ bytesAllocated = 2)
    {d : List Nat} (h : ∀ b ∈ d, b < 256) (q : Nat) :
    valueBytes bytesAllocated (storedUnit bytesAllocated d q) = unitBytes bytesAllocated d q := by
  rcases hw with rfl | rfl
  · simp [valueBytes, storedUnit, unitBytes, readU8]
  · have h1 := getD_lt_of_forall h (2 * q)
    have h21 : (2 : Nat) ≠ 1 := by decide
    simp only [valueBytes, storedUnit, unitBytes, if_neg h21, readU16]
    congr 1 <;> omega

theorem fst_add_snd_valueBytes {bytesAllocated : Nat}
    (hw : bytesAllocated = 1 ∨ bytesAllocated = 2) (v : Nat) :
    (valueBytes bytesAllocated v).1 + 256 * (valueBytes bytesAllocated v).2 = v := by
  rcases hw with rfl | rfl
  · simp [valueBytes]
  · have h21 : (2 : Nat) ≠ 1 := by decide
    simp only [valueBytes, if_neg h21]
    omega

namespace DcmJpeg2000Codec

/-! ### The sample loop of `Decode` -/

theorem unpackLoop_length (store : List Nat → Nat → Int → List Nat) (data : List Int)
    (offset : Nat) (hlen : ∀ d pos i, (store d pos i).length = d.length) :
    ∀ n p0 pos0 d, (unpackLoop store data offset n p0 pos0 d).length = d.length
  | 0, _, _, _ => rfl
  | n + 1, p0, pos0, d => by
    rw [unpackLoop, unpackLoop_length store data offset hlen n, hlen]

theorem unpackLoop_other {α : Type} (obs : List Nat → Nat → α)
    (store : List Nat → Nat → Int → List Nat) (data : List Int) (offset : Nat)
    (hother : ∀ d pos q i, q ≠ pos → obs (store d pos i) q = obs d q) (q : Nat) :
    ∀ n p0 pos0 d, (∀ k, k < n → q ≠ pos0 + k * offset) →
      obs (unpackLoop store data offset n p0 pos0 d) q = obs d q
  | 0, _, _, _, _ => rfl
  | n + 1, p0, pos0, d, h => by
    rw [unpackLoop, unpackLoop_other obs store data offset hother q n]
    · exact hother _ _ _ _ (by simpa using h 0 (by omega))
    · intro k hk
      have := h (k + 1) (by omega)
      rw [Nat.succ_mul] at this
      omega

theorem unpackLoop_visited {α : Type} (obs : List Nat → Nat → α)
    (store : List Nat → Nat → Int → List Nat) (data : List Int) (offset : Nat)
    (G : Int → α) (cap : List Nat → Nat)
    (hcap : ∀ d pos i, cap (store d pos i) = cap d)
    (hsame : ∀ d pos i, pos < cap d → obs (store d pos i) pos = G i)
    (hother : ∀ d pos q i, q ≠ pos → obs (store d pos i) q = obs d q)
    (hoff : 0 < offset) :
    ∀ n p0 pos0 d k, k < n → (∀ j, j < n → pos0 + j * offset < cap d) →
      obs (unpackLoop store data offset n p0 pos0 d) (pos0 + k * offset)
        = G (data.getD (p0 + k) 0)
  | 0, _, _, _, _, hk, _ => by omega
  | n + 1, p0, pos0, d, 0, _, hin => by
    rw [unpackLoop, unpackLoop_other obs store data offset hother]
    · simpa using hsame d pos0 (data.getD p0 0) (by simpa using hin 0 (by omega))
    · intro k _
      have : 0 < (k + 1) * offset := Nat.mul_pos (by omega) hoff
      rw [Nat.succ_mul] at this
      simp only [Nat.zero_mul, Nat.add_zero]
      omega
  | n + 1, p0, pos0, d, k + 1, hk, hin => by
    rw [unpackLoop]
    have := unpackLoop_visited obs store data offset G cap hcap hsame hother hoff n (p0 + 1)
      (pos0 + offset) (store d pos0 (data.getD p0 0)) k (by omega) (by
        intro j hj
        rw [hcap]
        have := hin (j + 1) (by omega)
        rw [Nat.succ_mul] at this
        omega)
    have e1 : pos0 + (k + 1) * offset = pos0 + offset + k * offset := by
      rw [Nat.succ_mul]; omega
    have e2 : p0 + (k + 1) = p0 + 1 + k := by omega
    rw [e1, e2]
    exact this

end DcmJpeg2000Codec

theorem unpackValue_eq (pd : DcmPixelData) (sgnd : Nat) (v : Int)
    (hw : pd.BytesAllocated = 1 ∨ pd.BytesAllocated = 2) :
    unpackValue pd sgnd v
      = if sgnd ≠ 0 ∧ v < 0 then
          (Int.lor (-v) ((1 <<< pd.HighBit : Nat) : Int)
            % ((2 ^ (8 * pd.BytesAllocated) : Nat) : Int)).toNat
        else (v % ((2 ^ (8 * pd.BytesAllocated) : Nat) : Int)).toNat := by
  have key : ∀ w : Nat, v < 0 →
      (Int.lor (-v) (((2 ^ pd.HighBit % 2 ^ w : Nat)) : Int) % ((2 ^ w : Nat) : Int)).toNat
        = (Int.lor (-v) ((2 ^ pd.HighBit : Nat) : Int) % ((2 ^ w : Nat) : Int)).toNat := by
    intro w hv
    obtain ⟨n, hn⟩ : ∃ n : Nat, -v = (n : Int) := ⟨(-v).toNat, by omega⟩
    rw [hn, int_lor_natCast, int_lor_natCast, ← Int.natCast_mod, ← Int.natCast_mod,
      Int.toNat_natCast, Int.toNat_natCast, or_mod_two_pow_right]
  rcases hw with hb | hb
  · simp only [unpackValue, hb, if_true, castU8_sign, Nat.one_shiftLeft]
    by_cases hs : sgnd ≠ 0
    · by_cases hv : v < 0
      · rw [if_pos hs, if_pos hv, if_pos ⟨hs, hv⟩]
        exact key 8 hv
      · rw [if_pos hs, if_neg hv, if_neg (fun h => hv h.2)]
        rfl
    · rw [if_neg hs, if_neg (fun h => hs h.1)]
      rfl
  · have h21 : (2 : Nat) ≠ 1 := by decide
    simp only [unpackValue, hb, if_neg h21, castU16_sign, Nat.one_shiftLeft]
    by_cases hs : sgnd ≠ 0
    · by_cases hv : v < 0
      · rw [if_pos hs, if_pos hv, if_pos ⟨hs, hv⟩]
        exact key 16 hv
      · rw [if_pos hs, if_neg hv, if_neg (fun h => hv h.2)]
        rfl
    · rw [if_neg hs, if_neg (fun h => hs h.1)]
      rfl

namespace DcmJpeg2000Codec

theorem decodeComponent_eq (newPixelData : DcmPixelData) (pixelCount numcomps c : Nat)
    (comp : opj_image_comp_t) (destArray : List Nat)
    (hw : newPixelData.BytesAllocated = 1 ∨ newPixelData.BytesAllocated = 2) :
    decodeComponent newPixelData pixelCount numcomps c comp destArray
      = .ok (unpackLoop
          (fun d pos i => storeUnit newPixelData.BytesAllocated d pos
            (unpackValue newPixelData comp.sgnd i))
          comp.data (if newPixelData.IsPlanar then 1 else numcomps) pixelCount 0
          (if newPixelData.IsPlanar then c * pixelCount else c) destArray) := by
  unfold decodeComponent
  rcases hw with hw | hw
  · simp only [unpackValue, storeUnit, hw, if_true]
    by_cases hs : comp.sgnd ≠ 0
    · simp only [if_pos hs]
      congr 2
      funext d pos i
      split_ifs <;> rfl
    · simp only [if_neg hs]
  · have h1 : newPixelData.BytesAllocated ≠ 1 := by omega
    have h21 : (2 : Nat) ≠ 1 := by decide
    simp only [unpackValue, storeUnit, if_neg h1, hw, if_true, if_neg h21]
    by_cases hs : comp.sgnd ≠ 0
    · simp only [if_pos hs]
      congr 2
      funext d pos i
      split_ifs <;> rfl
    · simp only [if_neg hs]

/-- What one pass of the component loop of `Decode` does to the destination buffer. -/
theorem decodeComponent_spec (newPixelData : DcmPixelData) (pixelCount numcomps c : Nat)
    (comp : opj_image_comp_t) (destArray : List Nat)
    (hw : newPixelData.BytesAllocated = 1 ∨ newPixelData.BytesAllocated = 2)
    (hc : c < numcomps)
    (hin : ∀ p, p < pixelCount →
      newPixelData.BytesAllocated * (samplePos newPixelData.IsPlanar pixelCount numcomps c p + 1)
        ≤ destArray.length) :
    ∃ destArray', decodeComponent newPixelData pixelCount numcomps c comp destArray
        = .ok destArray' ∧
      destArray'.length = destArray.length ∧
      (∀ p, p < pixelCount →
        unitBytes newPixelData.BytesAllocated destArray'
            (samplePos newPixelData.IsPlanar pixelCount numcomps c p)
          = valueBytes newPixelData.BytesAllocated
              (unpackValue newPixelData comp.sgnd (comp.data.getD p 0))) ∧
      (∀ q, (∀ p, p < pixelCount →
          q ≠ samplePos newPixelData.IsPlanar pixelCount numcomps c p) →
        unitBytes newPixelData.BytesAllocated destArray' q
          = unitBytes newPixelData.BytesAllocated destArray q) := by
  refine ⟨_, decodeComponent_eq newPixelData pixelCount numcomps c comp destArray hw, ?_, ?_, ?_⟩
  · exact unpackLoop_length _ _ _ (fun d pos i => storeUnit_length _ d pos _) _ _ _ _
  · intro p hp
    have hoff : 0 < (if newPixelData.IsPlanar then 1 else numcomps) := by
      split_ifs <;> omega
    have := unpackLoop_visited (unitBytes newPixelData.BytesAllocated)
      (fun d pos i => storeUnit newPixelData.BytesAllocated d pos
        (unpackValue newPixelData comp.sgnd i))
      comp.data (if newPixelData.IsPlanar then 1 else numcomps)
      (fun i => valueBytes newPixelData.BytesAllocated (unpackValue newPixelData comp.sgnd i))
      (fun d => d.length / newPixelData.BytesAllocated)
      (fun d pos i => by simp only [storeUnit_length])
      (fun d pos i hpos => unitBytes_storeUnit_self hw (by
        have hb : 0 < newPixelData.BytesAllocated := by omega
        have := (Nat.le_div_iff_mul_le hb).1 (Nat.succ_le_of_lt hpos)
        rw [Nat.mul_comm]; exact this) _)
      (fun d pos q i hq => unitBytes_storeUnit_ne d hq _)
      hoff pixelCount 0 (if newPixelData.IsPlanar then c * pixelCount else c) destArray p hp
      (by
        intro j hj
        have hb : 0 < newPixelData.BytesAllocated := by omega
        have := hin j hj
        unfold samplePos at this
        apply Nat.lt_of_succ_le
        rw [Nat.le_div_iff_mul_le hb, Nat.mul_comm]
        exact this)
    simpa [samplePos] using this
  · intro q hq
    exact unpackLoop_other (unitBytes newPixelData.BytesAllocated) _ _ _
      (fun d pos q i hq => unitBytes_storeUnit_ne d hq _) q pixelCount 0 _ destArray
      (fun k hk => hq k hk)

end DcmJpeg2000Codec

/-! ### Sample positions -/

theorem samplePos_planar (pixelCount numcomps c p : Nat) :
    samplePos true pixelCount numcomps c p = c * pixelCount + p := by
  simp [samplePos]

theorem samplePos_interleaved (pixelCount numcomps c p : Nat) :
    samplePos false pixelCount numcomps c p = c + p * numcomps := by
  simp [samplePos]

theorem samplePos_lt (planar : Bool) {pixelCount numcomps c p : Nat} (hc : c < numcomps)
    (hp : p < pixelCount) : samplePos planar pixelCount numcomps c p < numcomps * pixelCount := by
  cases planar
  · rw [samplePos_interleaved]
    have h1 : (p + 1) * numcomps ≤ pixelCount * numcomps := Nat.mul_le_mul_right _ (by omega)
    rw [Nat.succ_mul] at h1
    rw [Nat.mul_comm numcomps pixelCount]
    omega
  · rw [samplePos_planar]
    have h1 : (c + 1) * pixelCount ≤ numcomps * pixelCount := Nat.mul_le_mul_right _ (by omega)
    rw [Nat.succ_mul] at h1
    omega

theorem samplePos_ne_of_component_ne (planar : Bool) {pixelCount numcomps c c' p p' : Nat}
    (hc : c < numcomps) (hc' : c' < numcomps) (hp : p < pixelCount) (hp' : p' < pixelCount)
    (hne : c ≠ c') :
    samplePos planar pixelCount numcomps c p ≠ samplePos planar pixelCount numcomps c' p' := by
  cases planar
  · rw [samplePos_interleaved, samplePos_interleaved]
    intro h
    have h1 : (c + p * numcomps) % numcomps = (c' + p' * numcomps) % numcomps := by rw [h]
    rw [Nat.add_mul_mod_self_right, Nat.add_mul_mod_self_right, Nat.mod_eq_of_lt hc,
      Nat.mod_eq_of_lt hc'] at h1
    exact hne h1
  · rw [samplePos_planar, samplePos_planar]
    intro h
    rcases Nat.lt_or_gt_of_ne hne with hlt | hgt
    · have h1 : (c + 1) * pixelCount ≤ c' * pixelCount := Nat.mul_le_mul_right _ (by omega)
      rw [Nat.succ_mul] at h1
      omega
    · have h1 : (c' + 1) * pixelCount ≤ c * pixelCount := Nat.mul_le_mul_right _ (by omega)
      rw [Nat.succ_mul] at h1
      omega

theorem samplePos_injective (planar : Bool) {pixelCount numcomps c c' p p' : Nat}
    (hc : c < numcomps) (hc' : c' < numcomps) (hp : p < pixelCount) (hp' : p' < pixelCount)
    (h : samplePos planar pixelCount numcomps c p = samplePos planar pixelCount numcomps c' p') :
    c = c' ∧ p = p' := by
  have hcc : c = c' := by
    by_contra hne
    exact samplePos_ne_of_component_ne planar hc hc' hp hp' hne h
  subst hcc
  refine ⟨rfl, ?_⟩
  cases planar
  · rw [samplePos_interleaved, samplePos_interleaved] at h
    have h1 : p * numcomps = p' * numcomps := by omega
    exact Nat.eq_of_mul_eq_mul_right (by omega) h1
  · rw [samplePos_planar, samplePos_planar] at h
    omega

theorem samplePos_surjective (planar : Bool) {pixelCount numcomps q : Nat}
    (hq : q < numcomps * pixelCount) :
    ∃ c p, c < numcomps ∧ p < pixelCount ∧ q = samplePos planar pixelCount numcomps c p := by
  have hN : 0 < numcomps := by
    rcases Nat.eq_zero_or_pos numcomps with h | h
    · subst h; simp at hq
    · exact h
  have hP : 0 < pixelCount := by
    rcases Nat.eq_zero_or_pos pixelCount with h | h
    · subst h; simp at hq
    · exact h
  cases planar
  · refine ⟨q % numcomps, q / numcomps, Nat.mod_lt _ hN, ?_, ?_⟩
    · rw [Nat.div_lt_iff_lt_mul hN]
      rw [Nat.mul_comm] at hq
      exact hq
    · rw [samplePos_interleaved]
      have := Nat.mod_add_div q numcomps
      rw [Nat.mul_comm] at this
      omega
  · refine ⟨q / pixelCount, q % pixelCount, ?_, Nat.mod_lt _ hP, ?_⟩
    · rw [Nat.div_lt_iff_lt_mul hP]
      exact hq
    · rw [samplePos_planar]
      have := Nat.div_add_mod q pixelCount
      rw [Nat.mul_comm] at this
      omega

/-! ### One sample, packed and unpacked -/

theorem packValue_unsigned (pd : DcmPixelData) (raw : Nat) : packValue pd 0 raw = (raw : Int) := by
  simp [packValue]

theorem toNat_natCast_mod_of_lt {raw w : Nat} (h : raw < 2 ^ w) :
    (((raw : Nat) : Int) % ((2 ^ w : Nat) : Int)).toNat = raw := by
  rw [← Int.natCast_mod, Int.toNat_natCast, Nat.mod_eq_of_lt h]

theorem unpackValue_packValue (pd : DcmPixelData) (sgnd raw : Nat)
    (hw : pd.BytesAllocated = 1 ∨ pd.BytesAllocated = 2)
    (hraw : raw < 2 ^ (8 * pd.BytesAllocated))
    (hsafe : sgnd = 0 ∨
      (8 * pd.BytesAllocated ≤ pd.BitsStored ∧ raw < 2 ^ (8 * pd.BytesAllocated - 1)) ∨
      (pd.BitsStored < 8 * pd.BytesAllocated ∧
        (raw &&& 2 ^ pd.HighBit = 0 ∨
          (raw &&& (2 ^ pd.HighBit - 1) ≠ 0 ∧ raw < 2 ^ (pd.HighBit + 1))))) :
    unpackValue pd sgnd (packValue pd sgnd raw) = raw := by
  rw [unpackValue_eq pd sgnd _ hw]
  rcases hsafe with hs | ⟨hbs, hpos⟩ | ⟨hbs, hcond⟩
  · subst hs
    rw [packValue_unsigned, if_neg (by simp)]
    exact toNat_natCast_mod_of_lt hraw
  · by_cases hs : sgnd = 0
    · subst hs
      rw [packValue_unsigned, if_neg (by simp)]
      exact toNat_natCast_mod_of_lt hraw
    · rw [packValue_full_width pd sgnd raw hs hw hbs, if_pos hpos,
        if_neg (show ¬ (sgnd ≠ 0 ∧ ((raw : Nat) : Int) < 0) from fun h => by omega)]
      exact toNat_natCast_mod_of_lt hraw
  · by_cases hs : sgnd = 0
    · subst hs
      rw [packValue_unsigned, if_neg (by simp)]
      exact toNat_natCast_mod_of_lt hraw
    · have hsub : (pd.BytesAllocated = 1 ∧ pd.BitsStored < 8) ∨
          (pd.BytesAllocated = 2 ∧ pd.BitsStored < 16) := by
        rcases hw with h | h
        · left; exact ⟨h, by omega⟩
        · right; exact ⟨h, by omega⟩
      rw [packValue_subword pd sgnd raw hs hsub hraw, Nat.one_shiftLeft]
      by_cases hbit : raw &&& 2 ^ pd.HighBit = 0
      · rw [if_neg (show ¬ (raw &&& 2 ^ pd.HighBit ≠ 0) from fun h => h hbit),
          if_neg (show ¬ (sgnd ≠ 0 ∧ ((raw : Nat) : Int) < 0) from fun h => by omega)]
        exact toNat_natCast_mod_of_lt hraw
      · rcases hcond with h0 | ⟨hm, hlt⟩
        · exact absurd h0 hbit
        · rw [if_pos hbit]
          have hneg : -((raw &&& (2 ^ pd.HighBit - 1) : Nat) : Int) < 0 := by omega
          rw [if_pos ⟨hs, hneg⟩, Int.neg_neg, int_lor_natCast, Nat.and_pow_two_sub_one_eq_mod,
            mod_or_two_pow _ hlt]
          · exact toNat_natCast_mod_of_lt hraw
          · by_contra hf
            exact hbit ((and_two_pow_eq_zero_iff raw pd.HighBit).2 (by simpa using hf))

namespace DcmJpeg2000Codec

/-! ### The component loops -/

theorem encodeComponents_spec (oldPixelData : DcmPixelData) (frameData : List Nat)
    (pixelCount numcomps : Nat)
    (hw : oldPixelData.BytesAllocated = 1 ∨ oldPixelData.BytesAllocated = 2) :
    ∀ (comps : List opj_image_comp_t) (c0 : Nat),
      ∃ comps', encodeComponents oldPixelData frameData pixelCount numcomps c0 comps
          = .ok comps' ∧
        comps'.length = comps.length ∧
        ∀ j comp, comps[j]? = some comp →
          ∃ comp', comps'[j]? = some comp' ∧ comp'.sgnd = comp.sgnd ∧
            comp'.data.length = pixelCount ∧
            ∀ p, p < pixelCount → comp'.data[p]? = some (packValue oldPixelData comp.sgnd
              (storedUnit oldPixelData.BytesAllocated frameData
                (samplePos oldPixelData.IsPlanar pixelCount numcomps (c0 + j) p)))
  | [], _ => ⟨[], rfl, rfl, by simp⟩
  | comp :: rest, c0 => by
    obtain ⟨rest', hrest, hlen, hspec⟩ :=
      encodeComponents_spec oldPixelData frameData pixelCount numcomps hw rest (c0 + 1)
    refine ⟨_, by
      rw [encodeComponents, encodeComponent_eq _ _ _ _ _ _ hw, hrest], by simp [hlen], ?_⟩
    intro j comp0 hj
    cases j with
    | zero =>
      simp only [List.getElem?_cons_zero, Option.some.injEq] at hj
      subst hj
      refine ⟨{ comp with
          data := packLoop (fun pos => packValue oldPixelData comp.sgnd
              (storedUnit oldPixelData.BytesAllocated frameData pos))
            (if oldPixelData.IsPlanar then 1 else numcomps) pixelCount
            (if oldPixelData.IsPlanar then c0 * pixelCount else c0) },
        by simp, rfl, packLoop_length _ _ _ _, ?_⟩
      intro p hp
      simp only
      rw [packLoop_getElem? _ _ _ _ _ hp]
      rfl
    | succ j =>
      simp only [List.getElem?_cons_succ] at hj
      obtain ⟨comp', h1, h2, h3, h4⟩ := hspec j comp0 hj
      refine ⟨comp', by simpa using h1, h2, h3, ?_⟩
      intro p hp
      rw [h4 p hp]
      congr 4
      omega

theorem decodeComponents_spec (newPixelData : DcmPixelData) (pixelCount numcomps : Nat)
    (hw : newPixelData.BytesAllocated = 1 ∨ newPixelData.BytesAllocated = 2) :
    ∀ (comps : List opj_image_comp_t) (c0 : Nat) (destArray : List Nat),
      c0 + comps.length ≤ numcomps →
      newPixelData.BytesAllocated * (numcomps * pixelCount) ≤ destArray.length →
      ∃ destArray', decodeComponents newPixelData pixelCount numcomps c0 comps destArray
          = .ok destArray' ∧
        destArray'.length = destArray.length ∧
        (∀ j comp, comps[j]? = some comp → ∀ p, p < pixelCount →
          unitBytes newPixelData.BytesAllocated destArray'
              (samplePos newPixelData.IsPlanar pixelCount numcomps (c0 + j) p)
            = valueBytes newPixelData.BytesAllocated
                (unpackValue newPixelData comp.sgnd (comp.data.getD p 0))) ∧
        (∀ q, (∀ j, j < comps.length → ∀ p, p < pixelCount →
            q ≠ samplePos newPixelData.IsPlanar pixelCount numcomps (c0 + j) p) →
          unitBytes newPixelData.BytesAllocated destArray' q
            = unitBytes newPixelData.BytesAllocated destArray q)
  | [], _, destArray, _, _ => ⟨destArray, rfl, rfl, by simp, fun _ _ => rfl⟩
  | comp :: rest, c0, destArray, hc, hlen => by
    have hc0 : c0 < numcomps := by simp only [List.length_cons] at hc; omega
    have hin : ∀ p, p < pixelCount →
        newPixelData.BytesAllocated *
          (samplePos newPixelData.IsPlanar pixelCount numcomps c0 p + 1) ≤ destArray.length := by
      intro p hp
      have := samplePos_lt newPixelData.IsPlanar hc0 hp
      exact le_trans (Nat.mul_le_mul_left _ this) hlen
    obtain ⟨d1, hd1, hl1, hv1, ho1⟩ :=
      decodeComponent_spec newPixelData pixelCount numcomps c0 comp destArray hw hc0 hin
    obtain ⟨d2, hd2, hl2, hv2, ho2⟩ :=
      decodeComponents_spec newPixelData pixelCount numcomps hw rest (c0 + 1) d1
        (by simp only [List.length_cons] at hc; omega) (by rw [hl1]; exact hlen)
    refine ⟨d2, by rw [decodeComponents, hd1]; exact hd2, by rw [hl2, hl1], ?_, ?_⟩
    · intro j comp0 hj p hp
      cases j with
      | zero =>
        simp only [List.getElem?_cons_zero, Option.some.injEq] at hj
        subst hj
        rw [ho2, Nat.add_zero]
        · exact hv1 p hp
        · intro j hj p' hp'
          simp only [List.length_cons] at hc
          exact samplePos_ne_of_component_ne _ hc0 (by omega) hp hp' (by omega)
      | succ j =>
        simp only [List.getElem?_cons_succ] at hj
        have := hv2 j comp0 hj p hp
        rw [show c0 + (j + 1) = c0 + 1 + j by omega]
        exact this
    · intro q hq
      rw [ho2, ho1]
      · intro p hp
        have := hq 0 (by simp) p hp
        simpa using this
      · intro j hj p hp
        have := hq (j + 1) (by simp only [List.length_cons]; omega) p hp
        rw [show c0 + (j + 1) = c0 + 1 + j by omega] at this
        exact this

end DcmJpeg2000Codec

/-! ### Driver lemmas -/

theorem wrapInt32_of_lt {i : Int} (h0 : 0 ≤ i) (h1 : i < 2147483648) : wrapInt32 i = i := by
  unfold wrapInt32
  omega

namespace DcmJpeg2000Codec

theorem encodeComponent_error {oldPixelData : DcmPixelData} {frameData : List Nat}
    {pixelCount numcomps c : Nat} {comp : opj_image_comp_t} {e : DicomCodecException}
    (h : encodeComponent oldPixelData frameData pixelCount numcomps c comp = .error e) :
    e = .Jpeg2000BitsAllocated := by
  unfold encodeComponent at h
  simp only at h
  split_ifs at h
  cases h
  rfl

theorem encodeComponents_error {oldPixelData : DcmPixelData} {frameData : List Nat}
    {pixelCount numcomps : Nat} {e : DicomCodecException} :
    ∀ (comps : List opj_image_comp_t) (c : Nat),
      encodeComponents oldPixelData frameData pixelCount numcomps c comps = .error e →
      e = .Jpeg2000BitsAllocated
  | [], _, h => by simp [encodeComponents] at h
  | comp :: rest, c, h => by
    unfold encodeComponents at h
    split at h
    · next e' he' => injection h with h; subst h; exact encodeComponent_error he'
    · split at h
      · next e' he' => injection h with h; subst h; exact encodeComponents_error rest (c + 1) he'
      · cases h

theorem encodeImage_error {oldPixelData : DcmPixelData} {jparams : DcmJpeg2000Parameters}
    {eparams : opj_cparameters_t} {frameData : List Nat} {e : DicomCodecException}
    (h : encodeImage oldPixelData jparams eparams frameData = .error e) :
    e = .Jpeg2000BitsAllocated := by
  unfold encodeImage at h
  simp only at h
  split at h
  · next e' he' => injection h with h; subst h; exact encodeComponents_error _ _ he'
  · cases h

theorem encodeFrames_thrown (engine : OpenJpeg) (oldPixelData : DcmPixelData)
    (jparams : DcmJpeg2000Parameters) :
    ∀ (frames : List Nat) (newPixelData : DcmPixelData) (framesRead : List Nat),
      (encodeFrames engine oldPixelData jparams frames newPixelData framesRead).thrown = none ∨
      (encodeFrames engine oldPixelData jparams frames newPixelData framesRead).thrown
        = some .Jpeg2000BitsAllocated ∨
      (encodeFrames engine oldPixelData jparams frames newPixelData framesRead).thrown
        = some .Jpeg2000UnableToEncode ∨
      (encodeFrames engine oldPixelData jparams frames newPixelData framesRead).thrown
        = some .IndexOutOfRange
  | [], _, _ => by simp [encodeFrames]
  | frame :: rest, newPixelData, framesRead => by
    unfold encodeFrames
    simp only
    split_ifs
    · right; right; right; rfl
    · split
      · next e he => right; left; rw [encodeImage_error he]
      · split
        · exact encodeFrames_thrown engine oldPixelData jparams rest _ _
        · right; right; left; rfl

end DcmJpeg2000Codec

namespace DcmJpegLsCodec

theorem encodeFrames_thrown_jls (engine : CharLS) (oldPixelData : DcmPixelData)
    (params : JlsParamaters) :
    ∀ (frames : List Nat) (newPixelData : DcmPixelData) (framesRead : List Nat),
      (encodeFrames engine oldPixelData params frames newPixelData framesRead).thrown = none ∨
      (∃ err, (encodeFrames engine oldPixelData params frames newPixelData framesRead).thrown
        = some (.JpegLs err)) ∨
      (encodeFrames engine oldPixelData params frames newPixelData framesRead).thrown
        = some .IndexOutOfRange
  | [], _, _ => by simp [encodeFrames]
  | frame :: rest, newPixelData, framesRead => by
    unfold encodeFrames
    simp only
    split_ifs
    · right; right; rfl
    · split
      · next err _ => right; left; exact ⟨err, rfl⟩
      · exact encodeFrames_thrown_jls engine oldPixelData params rest _ _

end DcmJpegLsCodec

namespace DcmJpeg2000Codec

theorem encodeComponent_unsupported {oldPixelData : DcmPixelData}
    (h1 : oldPixelData.BytesAllocated ≠ 1) (h2 : oldPixelData.BytesAllocated ≠ 2)
    (frameData : List Nat) (pixelCount numcomps c : Nat) (comp : opj_image_comp_t) :
    encodeComponent oldPixelData frameData pixelCount numcomps c comp
      = .error .Jpeg2000BitsAllocated := by
  unfold encodeComponent
  simp only [if_neg h1, if_neg h2]

theorem decodeMetadata_BitsAllocated (newPixelData : DcmPixelData) :
    (decodeMetadata newPixelData).BitsAllocated = newPixelData.BitsAllocated := by
  unfold decodeMetadata
  simp only
  split_ifs <;> rfl

theorem decodeMetadata_Frames (newPixelData : DcmPixelData) :
    (decodeMetadata newPixelData).Frames = newPixelData.Frames := by
  unfold decodeMetadata
  simp only
  split_ifs <;> rfl

end DcmJpeg2000Codec

namespace DcmJpegCodec

theorem encodeFrames_BitsAllocated (engine : Ijg) (codec : IJpegCodec)
    (oldPixelData : DcmPixelData) (jparams : DcmJpegParameters) :
    ∀ (frames : List Nat) (newPixelData : DcmPixelData) (framesRead : List Nat),
      (encodeFrames engine codec oldPixelData jparams frames newPixelData
          framesRead).newPixelData.BitsAllocated = newPixelData.BitsAllocated ∧
      (encodeFrames engine codec oldPixelData jparams frames newPixelData framesRead).codec
        = some codec
  | [], _, _ => by simp [encodeFrames]
  | frame :: rest, newPixelData, framesRead => by
    unfold encodeFrames
    simp only
    split
    · exact ⟨rfl, rfl⟩
    · next bytes _ =>
      exact encodeFrames_BitsAllocated engine codec oldPixelData jparams rest
        (newPixelData.AddFrame bytes) _

theorem encodeMetadata_BitsAllocated (formatRatio : Nat → Nat → String) (codec : IJpegCodec)
    (oldPixelData newPixelData : DcmPixelData) :
    (encodeMetadata formatRatio codec oldPixelData newPixelData).BitsAllocated
      = newPixelData.BitsAllocated := by
  unfold encodeMetadata
  split_ifs <;> rfl

end DcmJpegCodec

theorem eq_of_unitBytes_eq {bytesAllocated n : Nat}
    (hw : bytesAllocated = 1 ∨ bytesAllocated = 2) {d1 d2 : List Nat}
    (h1 : d1.length = bytesAllocated * n) (h2 : d2.length = bytesAllocated * n)
    (h : ∀ q, q < n → unitBytes bytesAllocated d1 q = unitBytes bytesAllocated d2 q) :
    d1 = d2 := by
  apply List.ext_getElem (by rw [h1, h2])
  intro i hi1 hi2
  rw [← List.getD_eq_getElem d1 0 hi1, ← List.getD_eq_getElem d2 0 hi2]
  rcases hw with rfl | rfl
  · have := h i (by omega)
    simp only [unitBytes, if_true, Prod.mk.injEq] at this
    exact this.1
  · have h21 : (2 : Nat) ≠ 1 := by decide
    have := h (i / 2) (by omega)
    simp only [unitBytes, if_neg h21, Prod.mk.injEq] at this
    rcases Nat.mod_two_eq_zero_or_one i with hm | hm
    · have e : 2 * (i / 2) = i := by omega
      rw [e] at this
      exact this.1
    · have e : 2 * (i / 2) + 1 = i := by omega
      rw [e] at this
      exact this.2

namespace DcmJpeg2000Codec

theorem packLoop_congr {body body' : Nat → Int} {offset offset' n pos pos' : Nat}
    (h : ∀ p, p < n → body (pos + p * offset) = body' (pos' + p * offset')) :
    packLoop body offset n pos = packLoop body' offset' n pos' := by
  apply List.ext_getElem?
  intro p
  by_cases hp : p < n
  · rw [packLoop_getElem? _ _ _ _ _ hp, packLoop_getElem? _ _ _ _ _ hp, h p hp]
  · rw [List.getElem?_eq_none (by rw [packLoop_length]; omega),
      List.getElem?_eq_none (by rw [packLoop_length]; omega)]

theorem encodeComponents_layout (pd : DcmPixelData) (fI fP : List Nat) (pixelCount : Nat)
    (hre : ∀ c p, c < 3 → p < pixelCount →
      storedUnit pd.BytesAllocated fP (c * pixelCount + p)
        = storedUnit pd.BytesAllocated fI (c + p * 3)) :
    ∀ (comps : List opj_image_comp_t) (c0 : Nat), c0 + comps.length ≤ 3 →
      encodeComponents { pd with PlanarConfiguration := 0 } fI pixelCount 3 c0 comps
        = encodeComponents { pd with PlanarConfiguration := 1 } fP pixelCount 3 c0 comps
  | [], _, _ => rfl
  | comp :: rest, c0, hc => by
    have hc0 : c0 < 3 := by simp only [List.length_cons] at hc; omega
    have hrest := encodeComponents_layout pd fI fP pixelCount hre rest (c0 + 1)
      (by simp only [List.length_cons] at hc; omega)
    have hcomp : encodeComponent { pd with PlanarConfiguration := 0 } fI pixelCount 3 c0 comp
        = encodeComponent { pd with PlanarConfiguration := 1 } fP pixelCount 3 c0 comp := by
      by_cases hw : pd.BytesAllocated = 1 ∨ pd.BytesAllocated = 2
      · rw [encodeComponent_eq { pd with PlanarConfiguration := 0 } _ _ _ _ _ hw,
          encodeComponent_eq { pd with PlanarConfiguration := 1 } _ _ _ _ _ hw]
        congr 2
        apply packLoop_congr
        intro p hp
        have := hre c0 p hc0 hp
        show packValue pd comp.sgnd (storedUnit pd.BytesAllocated fI (c0 + p * 3))
          = packValue pd comp.sgnd (storedUnit pd.BytesAllocated fP (c0 * pixelCount + p * 1))
        rw [Nat.mul_one, this]
      · have h1 : pd.BytesAllocated ≠ 1 := fun h => hw (Or.inl h)
        have h2 : pd.BytesAllocated ≠ 2 := fun h => hw (Or.inr h)
        rw [@encodeComponent_unsupported { pd with PlanarConfiguration := 0 } h1 h2,
          @encodeComponent_unsupported { pd with PlanarConfiguration := 1 } h1 h2]
    rw [encodeComponents, encodeComponents, hcomp, hrest]

end DcmJpeg2000Codec


/-! ### Drivers: destination fields, frame counts, rate table -/

namespace DcmJpegCodec

theorem decodeFrames_BitsAllocated (engine : Ijg) (codec : IJpegCodec)
    (oldPixelData : DcmPixelData) (jparams : DcmJpegParameters) :
    ∀ (frames : List Nat) (newPixelData : DcmPixelData) (framesRead : List Nat),
      (decodeFrames engine codec oldPixelData jparams frames newPixelData
          framesRead).newPixelData.BitsAllocated = newPixelData.BitsAllocated ∧
      (decodeFrames engine codec oldPixelData jparams frames newPixelData framesRead).codec
        = some codec
  | [], _, _ => by simp [decodeFrames]
  | frame :: rest, newPixelData, framesRead => by
    unfold decodeFrames
    simp only
    split
    · exact ⟨rfl, rfl⟩
    · next bytes _ =>
      exact decodeFrames_BitsAllocated engine codec oldPixelData jparams rest
        (newPixelData.AddFrame bytes) _

theorem decodeFrames_scan_irrelevant
    (enc dec : IJpegCodec → DcmPixelData → DcmPixelData → DcmJpegParameters → Nat →
      Except DicomCodecException (List Nat))
    (scan1 scan2 : DcmPixelData → Option Int) (codec : IJpegCodec)
    (oldPixelData : DcmPixelData) (jparams : DcmJpegParameters) :
    ∀ (frames : List Nat) (newPixelData : DcmPixelData) (framesRead : List Nat),
      decodeFrames ⟨enc, dec, scan1⟩ codec oldPixelData jparams frames newPixelData framesRead
        = decodeFrames ⟨enc, dec, scan2⟩ codec oldPixelData jparams frames newPixelData
            framesRead
  | [], _, _ => rfl
  | frame :: rest, newPixelData, framesRead => by
    unfold decodeFrames
    simp only
    split
    · rfl
    · exact decodeFrames_scan_irrelevant enc dec scan1 scan2 codec oldPixelData jparams rest _ _

end DcmJpegCodec

namespace DcmJpeg2000Codec

theorem encodeFrames_fields (engine : OpenJpeg) (oldPixelData : DcmPixelData)
    (jparams : DcmJpeg2000Parameters) :
    ∀ (frames : List Nat) (newPixelData : DcmPixelData) (framesRead : List Nat),
      (encodeFrames engine oldPixelData jparams frames newPixelData framesRead).newPixelData
        = { newPixelData with
            Frames := (encodeFrames engine oldPixelData jparams frames newPixelData
              framesRead).newPixelData.Frames }
  | [], _, _ => rfl
  | frame :: rest, newPixelData, framesRead => by
    unfold encodeFrames
    simp only
    split_ifs
    · rfl
    · split
      · rfl
      · split
        · next cbuf _ =>
          exact encodeFrames_fields engine oldPixelData jparams rest (newPixelData.AddFrame cbuf) _
        · rfl

theorem encodeFrames_length (engine : OpenJpeg) (oldPixelData : DcmPixelData)
    (jparams : DcmJpeg2000Parameters) :
    ∀ (frames : List Nat) (newPixelData : DcmPixelData) (framesRead : List Nat),
      (encodeFrames engine oldPixelData jparams frames newPixelData framesRead).thrown = none →
      (encodeFrames engine oldPixelData jparams frames newPixelData
          framesRead).newPixelData.Frames.length
        = newPixelData.Frames.length + frames.length
  | [], _, _ => fun _ => rfl
  | frame :: rest, newPixelData, framesRead => by
    unfold encodeFrames
    simp only
    split_ifs
    · intro h; cases h
    · split
      · intro h; cases h
      · split
        · intro h
          rw [encodeFrames_length engine oldPixelData jparams rest _ _ h]
          simp only [DcmPixelData.AddFrame, List.length_append, List.length_cons, List.length_nil]
          omega
        · intro h; cases h

end DcmJpeg2000Codec

namespace DcmJpegLsCodec

theorem encodeFrames_fields_jls (engine : CharLS) (oldPixelData : DcmPixelData)
    (params : JlsParamaters) :
    ∀ (frames : List Nat) (newPixelData : DcmPixelData) (framesRead : List Nat),
      (encodeFrames engine oldPixelData params frames newPixelData framesRead).newPixelData
        = { newPixelData with
            Frames := (encodeFrames engine oldPixelData params frames newPixelData
              framesRead).newPixelData.Frames }
  | [], _, _ => rfl
  | frame :: rest, newPixelData, framesRead => by
    unfold encodeFrames
    simp only
    split_ifs
    · rfl
    · split
      · rfl
      · next compData _ =>
        exact encodeFrames_fields_jls engine oldPixelData params rest
          (newPixelData.AddFrame compData) _

theorem encodeFrames_length_jls (engine : CharLS) (oldPixelData : DcmPixelData)
    (params : JlsParamaters) :
    ∀ (frames : List Nat) (newPixelData : DcmPixelData) (framesRead : List Nat),
      (encodeFrames engine oldPixelData params frames newPixelData framesRead).thrown = none →
      (encodeFrames engine oldPixelData params frames newPixelData
          framesRead).newPixelData.Frames.length
        = newPixelData.Frames.length + frames.length
  | [], _, _ => fun _ => rfl
  | frame :: rest, newPixelData, framesRead => by
    unfold encodeFrames
    simp only
    split_ifs
    · intro h; cases h
    · split
      · intro h; cases h
      · intro h
        rw [encodeFrames_length_jls engine oldPixelData params rest _ _ h]
        simp only [DcmPixelData.AddFrame, List.length_append, List.length_cons, List.length_nil]
        omega

end DcmJpegLsCodec

namespace DcmJpegCodec

theorem encodeFrames_fields_jpeg (engine : Ijg) (codec : IJpegCodec)
    (oldPixelData : DcmPixelData) (jparams : DcmJpegParameters) :
    ∀ (frames : List Nat) (newPixelData : DcmPixelData) (framesRead : List Nat),
      (encodeFrames engine codec oldPixelData jparams frames newPixelData
          framesRead).newPixelData
        = { newPixelData with
            Frames := (encodeFrames engine codec oldPixelData jparams frames newPixelData
              framesRead).newPixelData.Frames }
  | [], _, _ => rfl
  | frame :: rest, newPixelData, framesRead => by
    unfold encodeFrames
    simp only
    split
    · rfl
    · next bytes _ =>
      exact encodeFrames_fields_jpeg engine codec oldPixelData jparams rest
        (newPixelData.AddFrame bytes) _

end DcmJpegCodec

namespace DcmJpeg2000Codec

theorem decodeMetadata_eq (newPixelData : DcmPixelData) :
    decodeMetadata newPixelData
      = { newPixelData with
          PhotometricInterpretation :=
            normalisedPhotometricInterpretation newPixelData.PhotometricInterpretation,
          PlanarConfiguration :=
            if normalisedPhotometricInterpretation newPixelData.PhotometricInterpretation
                = "YBR_FULL" then 1
            else newPixelData.PlanarConfiguration } := by
  unfold decodeMetadata normalisedPhotometricInterpretation
  by_cases h1 : newPixelData.PhotometricInterpretation = "YBR_RCT"
      ∨ newPixelData.PhotometricInterpretation = "YBR_ICT"
  · simp only [if_pos h1]
    have e1 : ¬ ("RGB" = "YBR_FULL_422" ∨ "RGB" = "YBR_PARTIAL_422") := by decide
    have e2 : ¬ ("RGB" = "YBR_FULL") := by decide
    simp only [if_neg e1, if_neg e2]
  · simp only [if_neg h1]
    by_cases h2 : newPixelData.PhotometricInterpretation = "YBR_FULL_422"
        ∨ newPixelData.PhotometricInterpretation = "YBR_PARTIAL_422"
    · simp only [if_pos h2, if_true]
    · simp only [if_neg h2]
      by_cases h3 : newPixelData.PhotometricInterpretation = "YBR_FULL"
      · simp only [if_pos h3]
      · simp only [if_neg h3]

end DcmJpeg2000Codec

namespace DcmJpeg2000Codec

theorem Encode_success_newPixelData (engine : OpenJpeg) (formatRatio : Nat → Nat → String)
    (oldPixelData newPixelData : DcmPixelData) (parameters : Option DcmJpeg2000Parameters)
    (hok : (Encode engine formatRatio oldPixelData newPixelData parameters).thrown = none) :
    (encodeFrames engine oldPixelData (parameters.getD {})
        (List.range oldPixelData.NumberOfFrames) newPixelData []).thrown = none ∧
    (Encode engine formatRatio oldPixelData newPixelData parameters).newPixelData
      = encodeMetadata formatRatio oldPixelData
          (encodeFrames engine oldPixelData (parameters.getD {})
            (List.range oldPixelData.NumberOfFrames) newPixelData []).newPixelData
          (parameters.getD {}) := by
  unfold Encode at hok ⊢
  by_cases hpi : oldPixelData.PhotometricInterpretation = "YBR_FULL_422"
      ∨ oldPixelData.PhotometricInterpretation = "YBR_PARTIAL_422"
      ∨ oldPixelData.PhotometricInterpretation = "YBR_PARTIAL_420"
  · rw [if_pos hpi] at hok
    cases hok
  · rw [if_neg hpi] at hok ⊢
    simp only at hok ⊢
    cases hthrown : (encodeFrames engine oldPixelData (parameters.getD {})
        (List.range oldPixelData.NumberOfFrames) newPixelData []).thrown with
    | some e => simp [hthrown] at hok
    | none => simp [hthrown]

theorem encodeMetadata_lossy (formatRatio : Nat → Nat → String)
    (oldPixelData newPixelData : DcmPixelData) (jparams : DcmJpeg2000Parameters)
    (hts : newPixelData.TransferSyntax = .JPEG2000Lossy)
    (hframes : 0 < newPixelData.NumberOfFrames) :
    (encodeMetadata formatRatio oldPixelData newPixelData jparams).IsLossy = true ∧
    (encodeMetadata formatRatio oldPixelData newPixelData jparams).LossyCompressionMethod
      = "ISO_15444_1" := by
  unfold encodeMetadata
  simp only
  split_ifs <;> simp_all [DcmPixelData.NumberOfFrames]

end DcmJpeg2000Codec

namespace DcmJpegLsCodec

theorem Encode_success_newPixelData_jls (engine : CharLS) (formatRatio : Nat → Nat → String)
    (transferSyntax : DicomTransferSyntax) (oldPixelData newPixelData : DcmPixelData)
    (parameters : Option DcmJpegLsParameters)
    (hok : (Encode engine formatRatio transferSyntax oldPixelData newPixelData
        parameters).thrown = none) :
    (encodeFrames engine oldPixelData
        (encodeParameters transferSyntax oldPixelData (parameters.getD {}))
        (List.range oldPixelData.NumberOfFrames)
        (if transferSyntax = .JPEGLSNearLossless then { newPixelData with IsLossy := true }
          else newPixelData) []).thrown = none ∧
    (Encode engine formatRatio transferSyntax oldPixelData newPixelData parameters).newPixelData
      = encodeMetadata formatRatio oldPixelData
          (encodeFrames engine oldPixelData
            (encodeParameters transferSyntax oldPixelData (parameters.getD {}))
            (List.range oldPixelData.NumberOfFrames)
            (if transferSyntax = .JPEGLSNearLossless then { newPixelData with IsLossy := true }
              else newPixelData) []).newPixelData := by
  unfold Encode at hok ⊢
  by_cases hpi : oldPixelData.PhotometricInterpretation = "YBR_FULL_422"
      ∨ oldPixelData.PhotometricInterpretation = "YBR_PARTIAL_422"
      ∨ oldPixelData.PhotometricInterpretation = "YBR_PARTIAL_420"
  · rw [if_pos hpi] at hok
    cases hok
  · rw [if_neg hpi] at hok ⊢
    simp only at hok ⊢
    cases hthrown : (encodeFrames engine oldPixelData
        (encodeParameters transferSyntax oldPixelData (parameters.getD {}))
        (List.range oldPixelData.NumberOfFrames)
        (if transferSyntax = .JPEGLSNearLossless then { newPixelData with IsLossy := true }
          else newPixelData) []).thrown with
    | some e => simp [hthrown] at hok
    | none => simp [hthrown]

end DcmJpegLsCodec

namespace DcmJpegCodec

theorem Encode_success_newPixelData_jpeg (engine : Ijg) (formatRatio : Nat → Nat → String)
    (self : DcmJpegCodec) (oldPixelData newPixelData : DcmPixelData)
    (parameters : Option DcmCodecParameters) (hframes : 0 < oldPixelData.NumberOfFrames)
    (hok : (Encode engine formatRatio self oldPixelData newPixelData parameters).thrown = none) :
    ∃ codec, self.GetCodec oldPixelData.BitsStored (selectParameters parameters) = .ok codec ∧
      (Encode engine formatRatio self oldPixelData newPixelData parameters).codec = some codec ∧
      ∃ nd, (Encode engine formatRatio self oldPixelData newPixelData parameters).newPixelData
        = encodeMetadata formatRatio codec oldPixelData nd := by
  have hne : oldPixelData.NumberOfFrames ≠ 0 := by omega
  unfold Encode at hok ⊢
  rw [if_neg hne] at hok ⊢
  simp only at hok ⊢
  cases hc : self.GetCodec oldPixelData.BitsStored (selectParameters parameters) with
  | error e => simp [hc] at hok
  | ok codec =>
    refine ⟨codec, rfl, ?_⟩
    simp only [hc] at hok ⊢
    have hE := encodeFrames_BitsAllocated engine codec oldPixelData (selectParameters parameters)
      (List.range oldPixelData.NumberOfFrames)
    split at hok
    · next e he => rw [he] at hok; cases hok
    · next hnone =>
      simp only [hnone]
      exact ⟨(hE _ _).2, _, rfl⟩

end DcmJpegCodec

theorem floatShift_of_lt (fuel m : Nat) (h : m < 2 ^ 24) : floatShift fuel m = 0 := by
  cases fuel with
  | zero => rfl
  | succ n => simp only [floatShift, if_pos h]

theorem castFloat_of_natAbs_le (i : Int) (h : i.natAbs ≤ 2 ^ 24) : castFloat i = i := by
  by_cases hlt : i.natAbs < 2 ^ 24
  · unfold castFloat
    simp only [floatShift_of_lt _ _ hlt, pow_zero, Nat.div_one, Nat.mod_one, Nat.mul_zero,
      Nat.mul_one]
    have h1 : ¬ ((1 : Nat) < 0 ∨ ((0 : Nat) = 1 ∧ i.natAbs % 2 = 1)) := by omega
    rw [if_neg h1]
    split_ifs with hneg <;> omega
  · have he : i = 16777216 ∨ i = -16777216 := by omega
    rcases he with rfl | rfl <;> decide

theorem rateTable_nil : rateTable [] = List.replicate 100 0 := by
  decide

theorem rateTable_set (written : List Int) (v : Int) :
    (rateTable written).set written.length v = rateTable (written ++ [v]) := by
  unfold rateTable
  by_cases h : written.length < 100
  · rw [List.take_of_length_le (by simp only [List.length_append, List.length_replicate]; omega),
      List.take_of_length_le (by
        simp only [List.length_append, List.length_replicate, List.length_cons,
          List.length_nil]; omega)]
    rw [List.set_append, if_neg (Nat.lt_irrefl _), Nat.sub_self]
    obtain ⟨k, hk⟩ : ∃ k, 100 - written.length = k + 1 := ⟨100 - written.length - 1, by omega⟩
    have hk2 : 100 - (written ++ [v]).length = k := by
      simp only [List.length_append, List.length_cons, List.length_nil]; omega
    rw [hk, hk2, List.replicate_succ, List.set_cons_zero, List.append_assoc]
    rfl
  · have h1 : 100 - written.length = 0 := by omega
    have h2 : 100 - (written ++ [v]).length = 0 := by
      simp only [List.length_append, List.length_cons, List.length_nil]; omega
    rw [h1, h2]
    simp only [List.replicate_zero, List.append_nil]
    rw [List.set_eq_of_length_le (by simp only [List.length_take]; omega)]
    rw [List.take_append_of_le_length (by omega)]

theorem rateTable_take (written : List Int) :
    (rateTable written).take written.length = written.take 100 := by
  unfold rateTable
  rw [List.take_take]
  by_cases h : written.length ≤ 100
  · rw [Nat.min_eq_left h, List.take_append_of_le_length (Nat.le_refl _), List.take_length,
      List.take_of_length_le h]
  · rw [Nat.min_eq_right (by omega), List.take_append_of_le_length (by omega)]

namespace DcmJpeg2000Codec

theorem rateLevelLoop_spec (Rate : Int) :
    ∀ (RateLevels written : List Int) (eparams : opj_cparameters_t),
      eparams.tcp_rates = rateTable written → eparams.tcp_numlayers = written.length →
      rateLevelLoop Rate RateLevels written.length eparams
        = ((written ++ (RateLevels.takeWhile (fun level => decide (level > Rate))).map
              castFloat).length,
           { eparams with
             tcp_numlayers :=
               (written ++ (RateLevels.takeWhile (fun level => decide (level > Rate))).map
                 castFloat).length,
             tcp_rates :=
               rateTable (written ++ (RateLevels.takeWhile
                 (fun level => decide (level > Rate))).map castFloat) })
  | [], written, eparams, hr, hn => by
    simp only [rateLevelLoop, List.takeWhile_nil, List.map_nil, List.append_nil, ← hr, ← hn]
  | level :: rest, written, eparams, hr, hn => by
    unfold rateLevelLoop
    by_cases h : level > Rate
    · rw [if_pos h]
      have hlen : written.length + 1 = (written ++ [castFloat level]).length := by
        simp only [List.length_append, List.length_cons, List.length_nil]
      rw [hlen, rateLevelLoop_spec Rate rest (written ++ [castFloat level]) _
        (by simp only [hr]; exact rateTable_set written (castFloat level))
        (by simp only [hn, hlen])]
      simp only [List.takeWhile_cons, h, decide_True, if_true, List.map_cons, List.append_assoc,
        List.singleton_append]
    · rw [if_neg h]
      have hf : (false = true) = False := by simp only [Bool.false_eq_true]
      simp only [List.takeWhile_cons, h, decide_False, hf, if_false, List.map_nil,
        List.append_nil, ← hr, ← hn]

/-- The layer count and the rate table the parameters hold after lines 105-126. -/
theorem compressionParameters_rates (oldPixelData newPixelData : DcmPixelData)
    (jparams : DcmJpeg2000Parameters) :
    (compressionParameters oldPixelData newPixelData jparams).tcp_numlayers
      = ((jparams.RateLevels.takeWhile (fun level => decide (level > jparams.Rate))).map castFloat
          ++ [castFloat jparams.Rate]
          ++ (if newPixelData.TransferSyntax = DicomTransferSyntax.JPEG2000Lossless ∧ jparams.Rate > 0
              then [0] else [])).length ∧
    (compressionParameters oldPixelData newPixelData jparams).tcp_rates
      = rateTable ((jparams.RateLevels.takeWhile (fun level => decide (level > jparams.Rate))).map
            castFloat
          ++ [castFloat jparams.Rate]
          ++ (if newPixelData.TransferSyntax = DicomTransferSyntax.JPEG2000Lossless ∧ jparams.Rate > 0
              then [0] else [])) := by
  have hloop : ∀ eparams : opj_cparameters_t, eparams.tcp_rates = rateTable [] →
      eparams.tcp_numlayers = 0 →
      rateLevelLoop jparams.Rate jparams.RateLevels 0 eparams
        = (((jparams.RateLevels.takeWhile (fun level => decide (level > jparams.Rate))).map
              castFloat).length,
           { eparams with
             tcp_numlayers :=
               ((jparams.RateLevels.takeWhile (fun level => decide (level > jparams.Rate))).map
                 castFloat).length,
             tcp_rates :=
               rateTable ((jparams.RateLevels.takeWhile
                 (fun level => decide (level > jparams.Rate))).map castFloat) }) := by
    intro eparams hr hn
    have := rateLevelLoop_spec jparams.Rate jparams.RateLevels [] eparams hr hn
    simpa only [List.length_nil, List.nil_append] using this
  unfold compressionParameters
  simp only
  rw [hloop _ (by split_ifs <;> exact rateTable_nil.symm) (by split_ifs <;> rfl)]
  simp only
  generalize (jparams.RateLevels.takeWhile (fun level => decide (level > jparams.Rate))).map
    castFloat = T
  have hset := rateTable_set T (castFloat jparams.Rate)
  have hset2 := rateTable_set (T ++ [castFloat jparams.Rate]) 0
  have hlen : (T ++ [castFloat jparams.Rate]).length = T.length + 1 := by
    simp only [List.length_append, List.length_cons, List.length_nil]
  rw [hlen] at hset2
  split_ifs <;>
    simp only [hset, hset2, List.append_nil, List.length_append, List.length_cons,
      List.length_nil, and_self]

/-- For rates that single precision holds exactly, the layers of the table: the first
`tcp_numlayers` entries, cut at the size of the table. -/
theorem compressionParameters_layers (oldPixelData newPixelData : DcmPixelData)
    (jparams : DcmJpeg2000Parameters)
    (hexact : ∀ v ∈ jparams.RateLevels.takeWhile (fun level => decide (level > jparams.Rate))
        ++ [jparams.Rate], v.natAbs ≤ 2 ^ 24) :
    (compressionParameters oldPixelData newPixelData jparams).tcp_numlayers
      = (jparams.RateLevels.takeWhile (fun level => decide (level > jparams.Rate))
          ++ [jparams.Rate]
          ++ (if newPixelData.TransferSyntax = DicomTransferSyntax.JPEG2000Lossless ∧ jparams.Rate > 0
              then [0] else [])).length ∧
    (compressionParameters oldPixelData newPixelData jparams).tcp_rates.take
        (compressionParameters oldPixelData newPixelData jparams).tcp_numlayers
      = (jparams.RateLevels.takeWhile (fun level => decide (level > jparams.Rate))
          ++ [jparams.Rate]
          ++ (if newPixelData.TransferSyntax = DicomTransferSyntax.JPEG2000Lossless ∧ jparams.Rate > 0
              then [0] else [])).take 100 := by
  obtain ⟨hn, hr⟩ := compressionParameters_rates oldPixelData newPixelData jparams
  have hmap : (jparams.RateLevels.takeWhile (fun level => decide (level > jparams.Rate))).map
        castFloat ++ [castFloat jparams.Rate]
      = jparams.RateLevels.takeWhile (fun level => decide (level > jparams.Rate))
        ++ [jparams.Rate] := by
    have h := List.map_congr_left (fun v hv => castFloat_of_natAbs_le v (hexact v hv))
    simp only [List.map_id_fun', id_eq, List.map_append, List.map_cons, List.map_nil] at h
    exact h
  rw [hmap] at hn hr
  refine ⟨hn, ?_⟩
  rw [hn, hr, rateTable_take]
end DcmJpeg2000Codec

namespace DcmJpegLsCodec
theorem encodeFrames_engine_congr (engine1 engine2 : CharLS) (oldPixelData : DcmPixelData)
    (params : JlsParamaters)
    (h : ∀ frameArray, engine1.JpegLsEncode frameArray params
      = engine2.JpegLsEncode frameArray params) :
    ∀ (frames : List Nat) (newPixelData : DcmPixelData) (framesRead : List Nat),
      encodeFrames engine1 oldPixelData params frames newPixelData framesRead
        = encodeFrames engine2 oldPixelData params frames newPixelData framesRead
  | [], _, _ => rfl
  | frame :: rest, newPixelData, framesRead => by
    unfold encodeFrames
    simp only [h]
    split_ifs
    · rfl
    · split
      · rfl
      · exact encodeFrames_engine_congr engine1 engine2 oldPixelData params h rest _ _
  end DcmJpegLsCodec

/-! ### Frame loops, metadata and engine parameters of the drivers -/

theorem frameLoop_ok
    (step : DcmPixelData → List Nat → Nat → Except DicomCodecException (List Nat)) :
    ∀ (frames buffer : List Nat) (newPixelData : DcmPixelData) (framesRead : List Nat),
      (frameLoop step frames buffer newPixelData framesRead).thrown = none →
      ∃ outs : List (List Nat), outs.length = frames.length ∧
        (frameLoop step frames buffer newPixelData framesRead).newPixelData
          = { newPixelData with Frames := newPixelData.Frames ++ outs } ∧
        (frameLoop step frames buffer newPixelData framesRead).framesRead
          = framesRead ++ frames ∧
        ∀ j, j < frames.length →
          step { newPixelData with Frames := newPixelData.Frames ++ outs.take j }
            ((buffer :: outs).getD j []) (frames.getD j 0) = .ok (outs.getD j [])
  | [], buffer, newPixelData, framesRead => fun _ =>
    ⟨[], rfl, by simp only [frameLoop, List.append_nil],
      by simp only [frameLoop, List.append_nil], fun j hj => absurd hj (Nat.not_lt_zero j)⟩
  | frame :: rest, buffer, newPixelData, framesRead => by
    unfold frameLoop
    cases hstep : step newPixelData buffer frame with
    | error e => intro h; cases h
    | ok bytes =>
      simp only
      intro h
      obtain ⟨outs, hlen, hnew, hread, hsteps⟩ :=
        frameLoop_ok step rest bytes (newPixelData.AddFrame bytes) (framesRead ++ [frame]) h
      refine ⟨bytes :: outs, by simp only [List.length_cons, hlen], ?_, ?_, ?_⟩
      · rw [hnew]
        simp only [DcmPixelData.AddFrame, List.append_assoc, List.singleton_append]
      · rw [hread]
        simp only [List.append_assoc, List.singleton_append]
      · intro j hj
        cases j with
        | zero =>
          simp only [List.take_zero, List.append_nil, List.getD_cons_zero]
          exact hstep
        | succ j =>
          have := hsteps j (by simp only [List.length_cons] at hj; omega)
          simp only [DcmPixelData.AddFrame, List.append_assoc, List.singleton_append] at this
          simp only [List.take_succ_cons, List.getD_cons_succ]
          exact this

theorem frameLoop_range_ok
    (step : DcmPixelData → List Nat → Nat → Except DicomCodecException (List Nat))
    (n : Nat) (buffer : List Nat) (newPixelData : DcmPixelData)
    (h : (frameLoop step (List.range n) buffer newPixelData []).thrown = none) :
    ∃ outs : List (List Nat), outs.length = n ∧
      (frameLoop step (List.range n) buffer newPixelData []).newPixelData
        = { newPixelData with Frames := newPixelData.Frames ++ outs } ∧
      (frameLoop step (List.range n) buffer newPixelData []).framesRead = List.range n ∧
      ∀ i, i < n →
        step { newPixelData with Frames := newPixelData.Frames ++ outs.take i }
          ((buffer :: outs).getD i []) i = .ok (outs.getD i []) := by
  obtain ⟨outs, hlen, hnew, hread, hsteps⟩ :=
    frameLoop_ok step (List.range n) buffer newPixelData [] h
  rw [List.length_range] at hlen
  refine ⟨outs, hlen, hnew, by rw [hread, List.nil_append], ?_⟩
  intro i hi
  have := hsteps i (by rw [List.length_range]; exact hi)
  rw [List.getD_eq_getElem?_getD (List.range n), List.getElem?_range hi] at this
  exact this

namespace DcmJpeg2000Codec

theorem encodeMetadata_not_lossy (formatRatio : Nat → Nat → String)
    (oldPixelData newPixelData : DcmPixelData) (jparams : DcmJpeg2000Parameters)
    (hts : newPixelData.TransferSyntax ≠ .JPEG2000Lossy) :
    (encodeMetadata formatRatio oldPixelData newPixelData jparams).IsLossy
      = newPixelData.IsLossy ∧
    (encodeMetadata formatRatio oldPixelData newPixelData jparams).LossyCompressionMethod
      = newPixelData.LossyCompressionMethod ∧
    (encodeMetadata formatRatio oldPixelData newPixelData jparams).LossyCompressionRatio
      = newPixelData.LossyCompressionRatio := by
  unfold encodeMetadata
  simp only
  split_ifs <;> simp_all

theorem compressionParameters_flags (oldPixelData newPixelData : DcmPixelData)
    (jparams : DcmJpeg2000Parameters) :
    (compressionParameters oldPixelData newPixelData jparams).tcp_mct
      = (if oldPixelData.PhotometricInterpretation = "RGB" ∧ jparams.AllowMCT = true then 1
         else 0) ∧
    (compressionParameters oldPixelData newPixelData jparams).irreversible
      = (if newPixelData.TransferSyntax = DicomTransferSyntax.JPEG2000Lossy
            ∧ jparams.Irreversible = true then 1 else 0) := by
  have hloop : ∀ eparams : opj_cparameters_t, eparams.tcp_rates = rateTable [] →
      eparams.tcp_numlayers = 0 →
      (rateLevelLoop jparams.Rate jparams.RateLevels 0 eparams).2.tcp_mct = eparams.tcp_mct ∧
      (rateLevelLoop jparams.Rate jparams.RateLevels 0 eparams).2.irreversible
        = eparams.irreversible := by
    intro eparams hr hn
    have := rateLevelLoop_spec jparams.Rate jparams.RateLevels [] eparams hr hn
    simp only [List.length_nil] at this
    rw [this]
    exact ⟨rfl, rfl⟩
  unfold compressionParameters
  simp only
  constructor
  · split_ifs <;> first | rfl | exact (hloop _ rateTable_nil.symm rfl).1
  · split_ifs <;> first | rfl | exact (hloop _ rateTable_nil.symm rfl).2

theorem compressionParameters_AddFrame (oldPixelData newPixelData : DcmPixelData)
    (jparams : DcmJpeg2000Parameters) (bytes : List Nat) :
    compressionParameters oldPixelData (newPixelData.AddFrame bytes) jparams
      = compressionParameters oldPixelData newPixelData jparams := rfl

theorem encodeFrames_engine_congr_j2k (engine1 engine2 : OpenJpeg) (oldPixelData : DcmPixelData)
    (jparams : DcmJpeg2000Parameters) (eparams : opj_cparameters_t)
    (h : ∀ image, engine1.opj_encode eparams image = engine2.opj_encode eparams image) :
    ∀ (frames : List Nat) (newPixelData : DcmPixelData) (framesRead : List Nat),
      compressionParameters oldPixelData newPixelData jparams = eparams →
      encodeFrames engine1 oldPixelData jparams frames newPixelData framesRead
        = encodeFrames engine2 oldPixelData jparams frames newPixelData framesRead
  | [], _, _, _ => rfl
  | frame :: rest, newPixelData, framesRead, hep => by
    unfold encodeFrames
    simp only [hep, h]
    split_ifs
    · rfl
    · split
      · rfl
      · split
        · next cbuf _ =>
          exact encodeFrames_engine_congr_j2k engine1 engine2 oldPixelData jparams eparams h rest
            (newPixelData.AddFrame cbuf) _
            ((compressionParameters_AddFrame oldPixelData newPixelData jparams cbuf).trans hep)
        · rfl

theorem encodeMetadata_PhotometricInterpretation (formatRatio : Nat → Nat → String)
    (oldPixelData newPixelData : DcmPixelData) (jparams : DcmJpeg2000Parameters) :
    (encodeMetadata formatRatio oldPixelData newPixelData jparams).PhotometricInterpretation
      = (if oldPixelData.PhotometricInterpretation = "RGB" ∧ jparams.AllowMCT = true
            ∧ jparams.UpdatePhotometricInterpretation = true then
           (if newPixelData.TransferSyntax = DicomTransferSyntax.JPEG2000Lossy
              ∧ jparams.Irreversible = true then "YBR_ICT" else "YBR_RCT")
         else newPixelData.PhotometricInterpretation) := by
  unfold encodeMetadata
  simp only
  split_ifs <;> simp_all

theorem encodeComponents_congr (pd1 pd2 : DcmPixelData) (frameData : List Nat)
    (pixelCount numcomps : Nat)
    (h : ∀ c comp, encodeComponent pd1 frameData pixelCount numcomps c comp
      = encodeComponent pd2 frameData pixelCount numcomps c comp) :
    ∀ (comps : List opj_image_comp_t) (c : Nat),
      encodeComponents pd1 frameData pixelCount numcomps c comps
        = encodeComponents pd2 frameData pixelCount numcomps c comps
  | [], _ => rfl
  | comp :: rest, c => by
    unfold encodeComponents
    rw [h, encodeComponents_congr pd1 pd2 frameData pixelCount numcomps h rest (c + 1)]

theorem encodeImage_representation (pd : DcmPixelData) (jparams : DcmJpeg2000Parameters)
    (eparams : opj_cparameters_t) (frameData : List Nat) (representation : Nat)
    (hflag : jparams.EncodeSignedPixelValuesAsUnsigned = true) :
    encodeImage { pd with PixelRepresentation := representation } jparams eparams frameData
      = encodeImage pd jparams eparams frameData := by
  have hcp : componentParameters { pd with PixelRepresentation := representation } jparams eparams
      = componentParameters pd jparams eparams := by
    unfold componentParameters
    simp only [hflag, Bool.true_eq_false, if_false]
  unfold encodeImage
  simp only [hcp]
  rw [encodeComponents_congr { pd with PixelRepresentation := representation } pd frameData
    _ _ (fun _ _ => rfl)]

theorem encodeFrames_congr_source (engine : OpenJpeg) (pd1 pd2 : DcmPixelData)
    (jparams : DcmJpeg2000Parameters)
    (h1 : ∀ frame, pd1.GetFrameDataU8 frame = pd2.GetFrameDataU8 frame)
    (h2 : ∀ newPixelData, compressionParameters pd1 newPixelData jparams
      = compressionParameters pd2 newPixelData jparams)
    (h3 : ∀ eparams frameData, encodeImage pd1 jparams eparams frameData
      = encodeImage pd2 jparams eparams frameData) :
    ∀ (frames : List Nat) (newPixelData : DcmPixelData) (framesRead : List Nat),
      encodeFrames engine pd1 jparams frames newPixelData framesRead
        = encodeFrames engine pd2 jparams frames newPixelData framesRead
  | [], _, _ => rfl
  | frame :: rest, newPixelData, framesRead => by
    unfold encodeFrames
    simp only [h1, h2, h3]
    split_ifs
    · rfl
    · split
      · rfl
      · split
        · exact encodeFrames_congr_source engine pd1 pd2 jparams h1 h2 h3 rest _ _
        · rfl

theorem encodeFrames_eq_frameLoop (engine : OpenJpeg) (oldPixelData : DcmPixelData)
    (jparams : DcmJpeg2000Parameters) :
    ∀ (frames buffer : List Nat) (newPixelData : DcmPixelData) (framesRead : List Nat),
      encodeFrames engine oldPixelData jparams frames newPixelData framesRead
        = frameLoop (fun newPixelData _ frame =>
            encodeFrame engine oldPixelData jparams newPixelData frame)
            frames buffer newPixelData framesRead
  | [], _, _, _ => rfl
  | frame :: rest, buffer, newPixelData, framesRead => by
    unfold encodeFrames frameLoop encodeFrame
    simp only
    by_cases hpin : oldPixelData.GetFrameDataU8 frame = []
    · simp only [if_pos hpin]
    · simp only [if_neg hpin]
      cases encodeImage oldPixelData jparams
          (compressionParameters oldPixelData newPixelData jparams)
          (oldPixelData.GetFrameDataU8 frame) with
      | error e => rfl
      | ok image =>
        simp only
        cases engine.opj_encode (compressionParameters oldPixelData newPixelData jparams)
            image with
        | none => rfl
        | some cbuf =>
          simp only
          exact encodeFrames_eq_frameLoop engine oldPixelData jparams rest cbuf _ _

theorem encodeFrame_Frames (engine : OpenJpeg) (oldPixelData : DcmPixelData)
    (jparams : DcmJpeg2000Parameters) (newPixelData : DcmPixelData)
    (frames : List (List Nat)) (frame : Nat) :
    encodeFrame engine oldPixelData jparams { newPixelData with Frames := frames } frame
      = encodeFrame engine oldPixelData jparams newPixelData frame := rfl

theorem decodeFrames_eq_frameLoop (engine : OpenJpeg) (oldPixelData : DcmPixelData)
    (pixelCount : Nat) :
    ∀ (frames destArray : List Nat) (newPixelData : DcmPixelData) (framesRead : List Nat),
      decodeFrames engine oldPixelData pixelCount frames destArray newPixelData framesRead
        = frameLoop (fun newPixelData destArray frame =>
            decodeFrame engine oldPixelData pixelCount newPixelData destArray frame)
            frames destArray newPixelData framesRead
  | [], _, _, _ => rfl
  | frame :: rest, destArray, newPixelData, framesRead => by
    unfold decodeFrames frameLoop decodeFrame
    simp only
    by_cases hpin : oldPixelData.GetFrameDataU8 frame = []
    · simp only [if_pos hpin]
    · simp only [if_neg hpin]
      cases engine.opj_decode (oldPixelData.GetFrameDataU8 frame) with
      | none => rfl
      | some image =>
        simp only
        cases decodeImage newPixelData pixelCount image destArray with
        | error e => rfl
        | ok destArray' =>
          simp only
          exact decodeFrames_eq_frameLoop engine oldPixelData pixelCount rest destArray' _ _

theorem decodeComponents_Frames (newPixelData : DcmPixelData) (frames : List (List Nat))
    (pixelCount numcomps : Nat) :
    ∀ (comps : List opj_image_comp_t) (c : Nat) (destArray : List Nat),
      decodeComponents { newPixelData with Frames := frames } pixelCount numcomps c comps
          destArray
        = decodeComponents newPixelData pixelCount numcomps c comps destArray
  | [], _, _ => rfl
  | comp :: rest, c, destArray => by
    unfold decodeComponents
    have h : decodeComponent { newPixelData with Frames := frames } pixelCount numcomps c comp
        destArray = decodeComponent newPixelData pixelCount numcomps c comp destArray := rfl
    rw [h]
    cases decodeComponent newPixelData pixelCount numcomps c comp destArray with
    | error e => rfl
    | ok destArray' =>
      simp only
      exact decodeComponents_Frames newPixelData frames pixelCount numcomps rest (c + 1) _

theorem decodeFrame_Frames (engine : OpenJpeg) (oldPixelData : DcmPixelData)
    (pixelCount : Nat) (newPixelData : DcmPixelData) (frames : List (List Nat))
    (destArray : List Nat) (frame : Nat) :
    decodeFrame engine oldPixelData pixelCount { newPixelData with Frames := frames } destArray
        frame
      = decodeFrame engine oldPixelData pixelCount newPixelData destArray frame := by
  unfold decodeFrame decodeImage
  by_cases hpin : oldPixelData.GetFrameDataU8 frame = []
  · simp only [if_pos hpin]
  · simp only [if_neg hpin]
    cases engine.opj_decode (oldPixelData.GetFrameDataU8 frame) with
    | none => rfl
    | some image => exact decodeComponents_Frames newPixelData frames pixelCount _ _ _ _

theorem encodeMetadata_Frames (formatRatio : Nat → Nat → String)
    (oldPixelData newPixelData : DcmPixelData) (jparams : DcmJpeg2000Parameters) :
    (encodeMetadata formatRatio oldPixelData newPixelData jparams).Frames
      = newPixelData.Frames := by
  unfold encodeMetadata
  simp only
  split_ifs <;> rfl

theorem Encode_ok (engine : OpenJpeg) (formatRatio : Nat → Nat → String)
    (oldPixelData newPixelData : DcmPixelData) (parameters : Option DcmJpeg2000Parameters)
    (hok : (Encode engine formatRatio oldPixelData newPixelData parameters).thrown = none) :
    (encodeFrames engine oldPixelData (parameters.getD {})
        (List.range oldPixelData.NumberOfFrames) newPixelData []).thrown = none ∧
    (Encode engine formatRatio oldPixelData newPixelData parameters).newPixelData.Frames
      = (encodeFrames engine oldPixelData (parameters.getD {})
          (List.range oldPixelData.NumberOfFrames) newPixelData []).newPixelData.Frames ∧
    (Encode engine formatRatio oldPixelData newPixelData parameters).framesRead
      = (encodeFrames engine oldPixelData (parameters.getD {})
          (List.range oldPixelData.NumberOfFrames) newPixelData []).framesRead := by
  unfold Encode at hok ⊢
  by_cases hpi : oldPixelData.PhotometricInterpretation = "YBR_FULL_422"
      ∨ oldPixelData.PhotometricInterpretation = "YBR_PARTIAL_422"
      ∨ oldPixelData.PhotometricInterpretation = "YBR_PARTIAL_420"
  · rw [if_pos hpi] at hok
    cases hok
  · rw [if_neg hpi] at hok ⊢
    simp only at hok ⊢
    cases hthrown : (encodeFrames engine oldPixelData (parameters.getD {})
        (List.range oldPixelData.NumberOfFrames) newPixelData []).thrown with
    | some e => simp [hthrown] at hok
    | none => simp [hthrown, encodeMetadata_Frames]

theorem Encode_frames_in_order (engine : OpenJpeg) (formatRatio : Nat → Nat → String)
    (oldPixelData newPixelData : DcmPixelData) (parameters : Option DcmJpeg2000Parameters)
    (hok : (Encode engine formatRatio oldPixelData newPixelData parameters).thrown = none) :
    ∃ outs : List (List Nat), outs.length = oldPixelData.NumberOfFrames ∧
      (Encode engine formatRatio oldPixelData newPixelData parameters).newPixelData.Frames
        = newPixelData.Frames ++ outs ∧
      (Encode engine formatRatio oldPixelData newPixelData parameters).framesRead
        = List.range oldPixelData.NumberOfFrames ∧
      ∀ i, i < oldPixelData.NumberOfFrames →
        encodeFrame engine oldPixelData (parameters.getD {}) newPixelData i
          = .ok (outs.getD i []) := by
  obtain ⟨hthrown, hframes, hread⟩ := Encode_ok engine formatRatio oldPixelData newPixelData
    parameters hok
  rw [encodeFrames_eq_frameLoop engine oldPixelData (parameters.getD {}) _ []] at hthrown hframes hread
  obtain ⟨outs, hlen, hnew, hr, hsteps⟩ := frameLoop_range_ok _ _ _ _ hthrown
  refine ⟨outs, hlen, ?_, ?_, ?_⟩
  · rw [hframes, hnew]
  · rw [hread, hr]
  · intro i hi
    have := hsteps i hi
    simp only [encodeFrame_Frames] at this
    exact this

theorem Decode_of_pos (engine : OpenJpeg) (oldPixelData newPixelData : DcmPixelData)
    (hsize : 0 < oldPixelData.UncompressedFrameSize) :
    Decode engine oldPixelData newPixelData
      = decodeFrames engine oldPixelData (oldPixelData.ImageHeight * oldPixelData.ImageWidth)
          (List.range oldPixelData.NumberOfFrames)
          (List.replicate oldPixelData.UncompressedFrameSize 0) (decodeMetadata newPixelData)
          [] := by
  unfold Decode
  simp only
  rw [if_neg]
  intro h
  have hl := congrArg List.length h
  simp only [List.length_replicate, List.length_nil] at hl
  omega

theorem Decode_of_zero (engine : OpenJpeg) (oldPixelData newPixelData : DcmPixelData)
    (hsize : oldPixelData.UncompressedFrameSize = 0) :
    Decode engine oldPixelData newPixelData = ⟨some .IndexOutOfRange, newPixelData, []⟩ := by
  unfold Decode
  simp only [hsize, List.replicate_zero, if_true]

theorem Decode_pos_of_ok (engine : OpenJpeg) (oldPixelData newPixelData : DcmPixelData)
    (hok : (Decode engine oldPixelData newPixelData).thrown = none) :
    0 < oldPixelData.UncompressedFrameSize := by
  by_contra h
  rw [Decode_of_zero engine oldPixelData newPixelData (by omega)] at hok
  cases hok

theorem Decode_frames_in_order (engine : OpenJpeg)
    (oldPixelData newPixelData : DcmPixelData)
    (hok : (Decode engine oldPixelData newPixelData).thrown = none) :
    ∃ outs : List (List Nat), outs.length = oldPixelData.NumberOfFrames ∧
      (Decode engine oldPixelData newPixelData).newPixelData.Frames
        = newPixelData.Frames ++ outs ∧
      (Decode engine oldPixelData newPixelData).framesRead
        = List.range oldPixelData.NumberOfFrames ∧
      ∀ i, i < oldPixelData.NumberOfFrames →
        decodeFrame engine oldPixelData (oldPixelData.ImageHeight * oldPixelData.ImageWidth)
          (decodeMetadata newPixelData)
          ((List.replicate oldPixelData.UncompressedFrameSize 0 :: outs).getD i []) i
          = .ok (outs.getD i []) := by
  have hsize := Decode_pos_of_ok engine oldPixelData newPixelData hok
  rw [Decode_of_pos engine oldPixelData newPixelData hsize] at hok ⊢
  rw [decodeFrames_eq_frameLoop] at hok ⊢
  obtain ⟨outs, hlen, hnew, hr, hsteps⟩ := frameLoop_range_ok _ _ _ _ hok
  refine ⟨outs, hlen, ?_, hr, ?_⟩
  · rw [hnew]
    simp only [decodeMetadata_Frames]
  · intro i hi
    have := hsteps i hi
    simp only [decodeFrame_Frames] at this
    exact this

end DcmJpeg2000Codec

namespace DcmJpegLsCodec

theorem encodeFrames_eq_frameLoop_jls (engine : CharLS) (oldPixelData : DcmPixelData)
    (params : JlsParamaters) :
    ∀ (frames buffer : List Nat) (newPixelData : DcmPixelData) (framesRead : List Nat),
      encodeFrames engine oldPixelData params frames newPixelData framesRead
        = frameLoop (fun _ _ frame => encodeFrame engine oldPixelData params frame)
            frames buffer newPixelData framesRead
  | [], _, _, _ => rfl
  | frame :: rest, buffer, newPixelData, framesRead => by
    unfold encodeFrames frameLoop encodeFrame
    simp only
    by_cases hpin : oldPixelData.GetFrameDataU8 frame = []
    · simp only [if_pos hpin]
    · simp only [if_neg hpin]
      cases engine.JpegLsEncode (oldPixelData.GetFrameDataU8 frame) params with
      | error err => rfl
      | ok compData =>
        simp only
        exact encodeFrames_eq_frameLoop_jls engine oldPixelData params rest compData _ _

theorem decodeFrames_eq_frameLoop_jls (engine : CharLS) (oldPixelData : DcmPixelData) :
    ∀ (frames destArray : List Nat) (newPixelData : DcmPixelData) (framesRead : List Nat),
      decodeFrames engine oldPixelData frames destArray newPixelData framesRead
        = frameLoop (fun _ destArray frame => decodeFrame engine oldPixelData destArray frame)
            frames destArray newPixelData framesRead
  | [], _, _, _ => rfl
  | frame :: rest, destArray, newPixelData, framesRead => by
    unfold decodeFrames frameLoop decodeFrame
    simp only
    by_cases hpin : oldPixelData.GetFrameDataU8 frame = []
    · simp only [if_pos hpin]
    · simp only [if_neg hpin]
      cases engine.JpegLsDecode destArray (oldPixelData.GetFrameDataU8 frame) with
      | error err => rfl
      | ok destArray' =>
        simp only
        exact decodeFrames_eq_frameLoop_jls engine oldPixelData rest destArray' _ _

theorem encodeFrame_eq_ok (engine : CharLS) (oldPixelData : DcmPixelData)
    (params : JlsParamaters) (frame : Nat) (bytes : List Nat) :
    encodeFrame engine oldPixelData params frame = .ok bytes ↔
      oldPixelData.GetFrameDataU8 frame ≠ [] ∧
      engine.JpegLsEncode (oldPixelData.GetFrameDataU8 frame) params = .ok bytes := by
  unfold encodeFrame
  by_cases hpin : oldPixelData.GetFrameDataU8 frame = []
  · simp [hpin]
  · simp only [if_neg hpin, ne_eq, hpin, not_false_eq_true, true_and]
    cases engine.JpegLsEncode (oldPixelData.GetFrameDataU8 frame) params <;> simp

theorem decodeFrame_eq_ok (engine : CharLS) (oldPixelData : DcmPixelData)
    (destArray : List Nat) (frame : Nat) (bytes : List Nat) :
    decodeFrame engine oldPixelData destArray frame = .ok bytes ↔
      oldPixelData.GetFrameDataU8 frame ≠ [] ∧
      engine.JpegLsDecode destArray (oldPixelData.GetFrameDataU8 frame) = .ok bytes := by
  unfold decodeFrame
  by_cases hpin : oldPixelData.GetFrameDataU8 frame = []
  · simp [hpin]
  · simp only [if_neg hpin, ne_eq, hpin, not_false_eq_true, true_and]
    cases engine.JpegLsDecode destArray (oldPixelData.GetFrameDataU8 frame) <;> simp

theorem encodeMetadata_Frames_jls (formatRatio : Nat → Nat → String)
    (oldPixelData newPixelData : DcmPixelData) :
    (encodeMetadata formatRatio oldPixelData newPixelData).Frames = newPixelData.Frames := by
  unfold encodeMetadata
  split_ifs <;> rfl

theorem Encode_ok_jls (engine : CharLS) (formatRatio : Nat → Nat → String)
    (transferSyntax : DicomTransferSyntax) (oldPixelData newPixelData : DcmPixelData)
    (parameters : Option DcmJpegLsParameters)
    (hok : (Encode engine formatRatio transferSyntax oldPixelData newPixelData
      parameters).thrown = none) :
    (encodeFrames engine oldPixelData
        (encodeParameters transferSyntax oldPixelData (parameters.getD {}))
        (List.range oldPixelData.NumberOfFrames)
        (if transferSyntax = .JPEGLSNearLossless then { newPixelData with IsLossy := true }
          else newPixelData) []).thrown = none ∧
    (Encode engine formatRatio transferSyntax oldPixelData newPixelData
        parameters).newPixelData.Frames
      = (encodeFrames engine oldPixelData
          (encodeParameters transferSyntax oldPixelData (parameters.getD {}))
          (List.range oldPixelData.NumberOfFrames)
          (if transferSyntax = .JPEGLSNearLossless then { newPixelData with IsLossy := true }
            else newPixelData) []).newPixelData.Frames ∧
    (Encode engine formatRatio transferSyntax oldPixelData newPixelData parameters).framesRead
      = (encodeFrames engine oldPixelData
          (encodeParameters transferSyntax oldPixelData (parameters.getD {}))
          (List.range oldPixelData.NumberOfFrames)
          (if transferSyntax = .JPEGLSNearLossless then { newPixelData with IsLossy := true }
            else newPixelData) []).framesRead := by
  unfold Encode at hok ⊢
  by_cases hpi : oldPixelData.PhotometricInterpretation = "YBR_FULL_422"
      ∨ oldPixelData.PhotometricInterpretation = "YBR_PARTIAL_422"
      ∨ oldPixelData.PhotometricInterpretation = "YBR_PARTIAL_420"
  · rw [if_pos hpi] at hok
    cases hok
  · rw [if_neg hpi] at hok ⊢
    simp only at hok ⊢
    cases hthrown : (encodeFrames engine oldPixelData
        (encodeParameters transferSyntax oldPixelData (parameters.getD {}))
        (List.range oldPixelData.NumberOfFrames)
        (if transferSyntax = .JPEGLSNearLossless then { newPixelData with IsLossy := true }
          else newPixelData) []).thrown with
    | some e => simp [hthrown] at hok
    | none => simp [hthrown, encodeMetadata_Frames_jls]

theorem Encode_frames_in_order_jls (engine : CharLS) (formatRatio : Nat → Nat → String)
    (transferSyntax : DicomTransferSyntax) (oldPixelData newPixelData : DcmPixelData)
    (parameters : Option DcmJpegLsParameters)
    (hok : (Encode engine formatRatio transferSyntax oldPixelData newPixelData
      parameters).thrown = none) :
    ∃ outs : List (List Nat), outs.length = oldPixelData.NumberOfFrames ∧
      (Encode engine formatRatio transferSyntax oldPixelData newPixelData
          parameters).newPixelData.Frames = newPixelData.Frames ++ outs ∧
      (Encode engine formatRatio transferSyntax oldPixelData newPixelData parameters).framesRead
        = List.range oldPixelData.NumberOfFrames ∧
      ∀ i, i < oldPixelData.NumberOfFrames →
        engine.JpegLsEncode (oldPixelData.GetFrameDataU8 i)
            (encodeParameters transferSyntax oldPixelData (parameters.getD {}))
          = .ok (outs.getD i []) := by
  obtain ⟨hthrown, hframes, hread⟩ := Encode_ok_jls engine formatRatio transferSyntax
    oldPixelData newPixelData parameters hok
  rw [encodeFrames_eq_frameLoop_jls engine oldPixelData _ _ []] at hthrown hframes hread
  obtain ⟨outs, hlen, hnew, hr, hsteps⟩ := frameLoop_range_ok _ _ _ _ hthrown
  refine ⟨outs, hlen, ?_, ?_, ?_⟩
  · rw [hframes, hnew]
    split_ifs <;> rfl
  · rw [hread, hr]
  · intro i hi
    exact ((encodeFrame_eq_ok engine oldPixelData _ i _).1 (hsteps i hi)).2

theorem Decode_of_pos_jls (engine : CharLS) (oldPixelData newPixelData : DcmPixelData)
    (hsize : 0 < oldPixelData.UncompressedFrameSize) :
    Decode engine oldPixelData newPixelData
      = decodeFrames engine oldPixelData (List.range oldPixelData.NumberOfFrames)
          (List.replicate oldPixelData.UncompressedFrameSize 0) newPixelData [] := by
  unfold Decode
  simp only
  rw [if_neg]
  intro h
  have hl := congrArg List.length h
  simp only [List.length_replicate, List.length_nil] at hl
  omega

theorem Decode_of_zero_jls (engine : CharLS) (oldPixelData newPixelData : DcmPixelData)
    (hsize : oldPixelData.UncompressedFrameSize = 0) :
    Decode engine oldPixelData newPixelData = ⟨some .IndexOutOfRange, newPixelData, []⟩ := by
  unfold Decode
  simp only [hsize, List.replicate_zero, if_true]

theorem Decode_pos_of_ok_jls (engine : CharLS) (oldPixelData newPixelData : DcmPixelData)
    (hok : (Decode engine oldPixelData newPixelData).thrown = none) :
    0 < oldPixelData.UncompressedFrameSize := by
  by_contra h
  rw [Decode_of_zero_jls engine oldPixelData newPixelData (by omega)] at hok
  cases hok

theorem Decode_frames_in_order_jls (engine : CharLS)
    (oldPixelData newPixelData : DcmPixelData)
    (hok : (Decode engine oldPixelData newPixelData).thrown = none) :
    ∃ outs : List (List Nat), outs.length = oldPixelData.NumberOfFrames ∧
      (Decode engine oldPixelData newPixelData).newPixelData.Frames
        = newPixelData.Frames ++ outs ∧
      (Decode engine oldPixelData newPixelData).framesRead
        = List.range oldPixelData.NumberOfFrames ∧
      ∀ i, i < oldPixelData.NumberOfFrames →
        engine.JpegLsDecode
            ((List.replicate oldPixelData.UncompressedFrameSize 0 :: outs).getD i [])
            (oldPixelData.GetFrameDataU8 i)
          = .ok (outs.getD i []) := by
  have hsize := Decode_pos_of_ok_jls engine oldPixelData newPixelData hok
  rw [Decode_of_pos_jls engine oldPixelData newPixelData hsize] at hok ⊢
  rw [decodeFrames_eq_frameLoop_jls] at hok ⊢
  obtain ⟨outs, hlen, hnew, hr, hsteps⟩ := frameLoop_range_ok _ _ _ _ hok
  refine ⟨outs, hlen, ?_, hr, ?_⟩
  · rw [hnew]
  · intro i hi
    exact ((decodeFrame_eq_ok engine oldPixelData _ i _).1 (hsteps i hi)).2

end DcmJpegLsCodec

namespace DcmJpegCodec

theorem GetCodec_lossless_mode (self : DcmJpegCodec)
    (hself : self = .DcmJpegLossless14Codec ∨ self = .DcmJpegLossless14SV1Codec)
    (bits : Int) (jparams : DcmJpegParameters) (codec : IJpegCodec)
    (hcodec : self.GetCodec bits jparams = .ok codec) : codec.Mode = .Lossless := by
  rcases hself with rfl | rfl <;> simp only [GetCodec] at hcodec <;> split_ifs at hcodec <;>
    cases hcodec <;> rfl

theorem encodeFrames_eq_frameLoop_jpeg (engine : Ijg) (codec : IJpegCodec)
    (oldPixelData : DcmPixelData) (jparams : DcmJpegParameters) :
    ∀ (frames buffer : List Nat) (newPixelData : DcmPixelData) (framesRead : List Nat),
      encodeFrames engine codec oldPixelData jparams frames newPixelData framesRead
        = ⟨(frameLoop (fun newPixelData _ frame =>
              engine.Encode codec oldPixelData newPixelData jparams frame)
              frames buffer newPixelData framesRead).thrown,
           (frameLoop (fun newPixelData _ frame =>
              engine.Encode codec oldPixelData newPixelData jparams frame)
              frames buffer newPixelData framesRead).newPixelData,
           (frameLoop (fun newPixelData _ frame =>
              engine.Encode codec oldPixelData newPixelData jparams frame)
              frames buffer newPixelData framesRead).framesRead, some codec⟩
  | [], _, _, _ => rfl
  | frame :: rest, buffer, newPixelData, framesRead => by
    unfold encodeFrames frameLoop
    simp only
    cases engine.Encode codec oldPixelData newPixelData jparams frame with
    | error e => rfl
    | ok bytes =>
      simp only
      exact encodeFrames_eq_frameLoop_jpeg engine codec oldPixelData jparams rest bytes _ _

theorem decodeFrames_eq_frameLoop_jpeg (engine : Ijg) (codec : IJpegCodec)
    (oldPixelData : DcmPixelData) (jparams : DcmJpegParameters) :
    ∀ (frames buffer : List Nat) (newPixelData : DcmPixelData) (framesRead : List Nat),
      decodeFrames engine codec oldPixelData jparams frames newPixelData framesRead
        = ⟨(frameLoop (fun newPixelData _ frame =>
              engine.Decode codec oldPixelData newPixelData jparams frame)
              frames buffer newPixelData framesRead).thrown,
           (frameLoop (fun newPixelData _ frame =>
              engine.Decode codec oldPixelData newPixelData jparams frame)
              frames buffer newPixelData framesRead).newPixelData,
           (frameLoop (fun newPixelData _ frame =>
              engine.Decode codec oldPixelData newPixelData jparams frame)
              frames buffer newPixelData framesRead).framesRead, some codec⟩
  | [], _, _, _ => rfl
  | frame :: rest, buffer, newPixelData, framesRead => by
    unfold decodeFrames frameLoop
    simp only
    cases engine.Decode codec oldPixelData newPixelData jparams frame with
    | error e => rfl
    | ok bytes =>
      simp only
      exact decodeFrames_eq_frameLoop_jpeg engine codec oldPixelData jparams rest bytes _ _

theorem encodeMetadata_Frames_jpeg (formatRatio : Nat → Nat → String) (codec : IJpegCodec)
    (oldPixelData newPixelData : DcmPixelData) :
    (encodeMetadata formatRatio codec oldPixelData newPixelData).Frames
      = newPixelData.Frames := by
  unfold encodeMetadata
  split_ifs <;> rfl

theorem Encode_ok_jpeg (engine : Ijg) (formatRatio : Nat → Nat → String)
    (self : DcmJpegCodec) (oldPixelData newPixelData : DcmPixelData)
    (parameters : Option DcmCodecParameters) (hframes : oldPixelData.NumberOfFrames ≠ 0)
    (hok : (Encode engine formatRatio self oldPixelData newPixelData parameters).thrown = none) :
    ∃ codec, self.GetCodec oldPixelData.BitsStored (selectParameters parameters) = .ok codec ∧
      (Encode engine formatRatio self oldPixelData newPixelData parameters).codec
        = some codec ∧
      (encodeFrames engine codec oldPixelData (selectParameters parameters)
        (List.range oldPixelData.NumberOfFrames)
        (if oldPixelData.BitsAllocated = 16 ∧ oldPixelData.BitsStored ≤ 8 then
          { newPixelData with BitsAllocated := 8 } else newPixelData) []).thrown = none ∧
      (Encode engine formatRatio self oldPixelData newPixelData parameters).newPixelData.Frames
        = (encodeFrames engine codec oldPixelData (selectParameters parameters)
            (List.range oldPixelData.NumberOfFrames)
            (if oldPixelData.BitsAllocated = 16 ∧ oldPixelData.BitsStored ≤ 8 then
              { newPixelData with BitsAllocated := 8 } else newPixelData)
            []).newPixelData.Frames ∧
      (Encode engine formatRatio self oldPixelData newPixelData parameters).framesRead
        = (encodeFrames engine codec oldPixelData (selectParameters parameters)
            (List.range oldPixelData.NumberOfFrames)
            (if oldPixelData.BitsAllocated = 16 ∧ oldPixelData.BitsStored ≤ 8 then
              { newPixelData with BitsAllocated := 8 } else newPixelData) []).framesRead := by
  unfold Encode at hok ⊢
  rw [if_neg hframes] at hok ⊢
  simp only at hok ⊢
  cases hc : self.GetCodec oldPixelData.BitsStored (selectParameters parameters) with
  | error e => simp [hc] at hok
  | ok codec =>
    refine ⟨codec, rfl, ?_⟩
    simp only [hc] at hok ⊢
    have hE := encodeFrames_BitsAllocated engine codec oldPixelData (selectParameters parameters)
      (List.range oldPixelData.NumberOfFrames)
    cases hthrown : (encodeFrames engine codec oldPixelData (selectParameters parameters)
        (List.range oldPixelData.NumberOfFrames)
        (if oldPixelData.BitsAllocated = 16 ∧ oldPixelData.BitsStored ≤ 8 then
          { newPixelData with BitsAllocated := 8 } else newPixelData) []).thrown with
    | some e => simp [hthrown] at hok
    | none =>
      simp only [hthrown, encodeMetadata_Frames_jpeg, and_self, and_true, true_and]
      exact (hE _ _).2

theorem Encode_frames_in_order_jpeg (engine : Ijg) (formatRatio : Nat → Nat → String)
    (self : DcmJpegCodec) (oldPixelData newPixelData : DcmPixelData)
    (parameters : Option DcmCodecParameters)
    (hok : (Encode engine formatRatio self oldPixelData newPixelData parameters).thrown = none) :
    ∃ outs : List (List Nat), outs.length = oldPixelData.NumberOfFrames ∧
      (Encode engine formatRatio self oldPixelData newPixelData parameters).newPixelData.Frames
        = newPixelData.Frames ++ outs ∧
      (Encode engine formatRatio self oldPixelData newPixelData parameters).framesRead
        = List.range oldPixelData.NumberOfFrames ∧
      ∀ i, i < oldPixelData.NumberOfFrames →
        ∃ codec, (Encode engine formatRatio self oldPixelData newPixelData parameters).codec
            = some codec ∧
          engine.Encode codec oldPixelData
              { (if oldPixelData.BitsAllocated = 16 ∧ oldPixelData.BitsStored ≤ 8 then
                  { newPixelData with BitsAllocated := 8 } else newPixelData) with
                Frames := newPixelData.Frames ++ outs.take i }
              (selectParameters parameters) i
            = .ok (outs.getD i []) := by
  by_cases h0 : oldPixelData.NumberOfFrames = 0
  · refine ⟨[], h0.symm, ?_, ?_, ?_⟩
    · unfold Encode
      rw [if_pos h0, List.append_nil]
    · unfold Encode
      rw [if_pos h0, h0]
      rfl
    · intro i hi
      omega
  · obtain ⟨codec, -, hcodec, hthrown, hframes, hread⟩ := Encode_ok_jpeg engine formatRatio
      self oldPixelData newPixelData parameters h0 hok
    rw [encodeFrames_eq_frameLoop_jpeg engine codec oldPixelData _ _ []] at hthrown hframes hread
    simp only at hthrown hframes hread
    obtain ⟨outs, hlen, hnew, hr, hsteps⟩ := frameLoop_range_ok _ _ _ _ hthrown
    have hF : (if oldPixelData.BitsAllocated = 16 ∧ oldPixelData.BitsStored ≤ 8 then
        { newPixelData with BitsAllocated := 8 } else newPixelData).Frames
          = newPixelData.Frames := by
      split_ifs <;> rfl
    refine ⟨outs, hlen, ?_, ?_, ?_⟩
    · rw [hframes, hnew, hF]
    · rw [hread, hr]
    · intro i hi
      refine ⟨codec, hcodec, ?_⟩
      have := hsteps i hi
      rw [hF] at this
      exact this

theorem decodeFrames_in_order (engine : Ijg) (codec : IJpegCodec)
    (oldPixelData start : DcmPixelData) (jparams : DcmJpegParameters)
    (hok : (decodeFrames engine codec oldPixelData jparams
      (List.range oldPixelData.NumberOfFrames) start []).thrown = none) :
    ∃ outs : List (List Nat), outs.length = oldPixelData.NumberOfFrames ∧
      (decodeFrames engine codec oldPixelData jparams
          (List.range oldPixelData.NumberOfFrames) start []).newPixelData
        = { start with Frames := start.Frames ++ outs } ∧
      (decodeFrames engine codec oldPixelData jparams
          (List.range oldPixelData.NumberOfFrames) start []).framesRead
        = List.range oldPixelData.NumberOfFrames ∧
      (decodeFrames engine codec oldPixelData jparams
          (List.range oldPixelData.NumberOfFrames) start []).codec = some codec ∧
      ∀ i, i < oldPixelData.NumberOfFrames →
        engine.Decode codec oldPixelData
            { start with Frames := start.Frames ++ outs.take i } jparams i
          = .ok (outs.getD i []) := by
  rw [decodeFrames_eq_frameLoop_jpeg engine codec oldPixelData _ _ []] at hok ⊢
  simp only at hok ⊢
  obtain ⟨outs, hlen, hnew, hr, hsteps⟩ := frameLoop_range_ok _ _ _ _ hok
  exact ⟨outs, hlen, hnew, hr, trivial, hsteps⟩

theorem Decode_frames_in_order_jpeg (engine : Ijg) (self : DcmJpegCodec)
    (oldPixelData newPixelData : DcmPixelData) (parameters : Option DcmCodecParameters)
    (hok : (Decode engine self oldPixelData newPixelData parameters).thrown = none) :
    ∃ outs : List (List Nat), outs.length = oldPixelData.NumberOfFrames ∧
      (Decode engine self oldPixelData newPixelData parameters).newPixelData.Frames
        = newPixelData.Frames ++ outs ∧
      (Decode engine self oldPixelData newPixelData parameters).framesRead
        = List.range oldPixelData.NumberOfFrames ∧
      ∀ i, i < oldPixelData.NumberOfFrames →
        ∃ codec, (Decode engine self oldPixelData newPixelData parameters).codec
            = some codec ∧
          engine.Decode codec oldPixelData
              { (Decode engine self oldPixelData newPixelData parameters).newPixelData with
                Frames := newPixelData.Frames ++ outs.take i }
              (selectParameters parameters) i
            = .ok (outs.getD i []) := by
  by_cases h0 : oldPixelData.NumberOfFrames = 0
  · refine ⟨[], h0.symm, ?_, ?_, ?_⟩
    · unfold Decode
      rw [if_pos h0, List.append_nil]
    · unfold Decode
      rw [if_pos h0, h0]
      rfl
    · intro i hi
      omega
  · have key : ∀ (start : DcmPixelData) (P : Int) (r : JpegCallResult),
        start.Frames = newPixelData.Frames →
        r = (match self.GetCodec P (selectParameters parameters) with
          | .error e => (⟨some e, start, [], none⟩ : JpegCallResult)
          | .ok codec =>
            decodeFrames engine codec oldPixelData (selectParameters parameters)
              (List.range oldPixelData.NumberOfFrames) start []) →
        r.thrown = none →
        ∃ outs : List (List Nat), outs.length = oldPixelData.NumberOfFrames ∧
          r.newPixelData.Frames = newPixelData.Frames ++ outs ∧
          r.framesRead = List.range oldPixelData.NumberOfFrames ∧
          ∀ i, i < oldPixelData.NumberOfFrames →
            ∃ codec, r.codec = some codec ∧
              engine.Decode codec oldPixelData
                  { r.newPixelData with Frames := newPixelData.Frames ++ outs.take i }
                  (selectParameters parameters) i
                = .ok (outs.getD i []) := by
      intro start P r hF hr hthrown
      cases hc : self.GetCodec P (selectParameters parameters) with
      | error e =>
        rw [hc] at hr
        subst hr
        cases hthrown
      | ok codec =>
        rw [hc] at hr
        subst hr
        obtain ⟨outs, hlen, hnew, hread, hcodec, hsteps⟩ :=
          decodeFrames_in_order engine codec oldPixelData start (selectParameters parameters)
            hthrown
        refine ⟨outs, hlen, ?_, hread, ?_⟩
        · rw [hnew, ← hF]
        · intro i hi
          refine ⟨codec, hcodec, ?_⟩
          rw [hnew, ← hF]
          exact hsteps i hi
    unfold Decode at hok ⊢
    rw [if_neg h0] at hok ⊢
    exact key _ _ _ (by split_ifs <;> rfl) rfl hok

end DcmJpegCodec

namespace DcmJpeg2000Codec

theorem decodeMetadata_HighBit (newPixelData : DcmPixelData) :
    (decodeMetadata newPixelData).HighBit = newPixelData.HighBit := by
  rw [decodeMetadata_eq]

theorem decodeComponents_congr (pd1 pd2 : DcmPixelData) (pixelCount numcomps : Nat)
    (h : ∀ c comp destArray, decodeComponent pd1 pixelCount numcomps c comp destArray
      = decodeComponent pd2 pixelCount numcomps c comp destArray) :
    ∀ (comps : List opj_image_comp_t) (c : Nat) (destArray : List Nat),
      decodeComponents pd1 pixelCount numcomps c comps destArray
        = decodeComponents pd2 pixelCount numcomps c comps destArray
  | [], _, _ => rfl
  | comp :: rest, c, destArray => by
    unfold decodeComponents
    rw [h]
    cases decodeComponent pd2 pixelCount numcomps c comp destArray with
    | error e => rfl
    | ok destArray' =>
      simp only
      exact decodeComponents_congr pd1 pd2 pixelCount numcomps h rest (c + 1) _

theorem decodeImage_congr (pd1 pd2 : DcmPixelData)
    (hbits : pd1.BitsAllocated = pd2.BitsAllocated) (hhigh : pd1.HighBit = pd2.HighBit)
    (hplanar : pd1.IsPlanar = pd2.IsPlanar) (pixelCount : Nat) (image : opj_image_t)
    (destArray : List Nat) :
    decodeImage pd1 pixelCount image destArray = decodeImage pd2 pixelCount image destArray := by
  unfold decodeImage
  apply decodeComponents_congr
  intro c comp destArray
  unfold decodeComponent
  simp only [DcmPixelData.BytesAllocated, hbits, hhigh, hplanar]

end DcmJpeg2000Codec

/-! ### The three-decimal rendering and the ratio the drivers store -/

theorem digitChar_isDigit (n : Nat) (h : n < 10) : (Nat.digitChar n).isDigit = true := by
  interval_cases n <;> decide

theorem toDigitsCore_isDigit : ∀ (fuel n : Nat) (ds : List Char),
    (∀ c ∈ ds, c.isDigit = true) → ∀ c ∈ Nat.toDigitsCore 10 fuel n ds, c.isDigit = true
  | 0, _, ds, h => by simpa [Nat.toDigitsCore] using h
  | fuel + 1, n, ds, h => by
    have hd : ∀ c ∈ Nat.digitChar (n % 10) :: ds, c.isDigit = true := by
      intro c hc
      rcases List.mem_cons.1 hc with rfl | hc
      · exact digitChar_isDigit _ (Nat.mod_lt _ (by decide))
      · exact h c hc
    unfold Nat.toDigitsCore
    simp only
    split_ifs
    · exact hd
    · exact toDigitsCore_isDigit fuel (n / 10) _ hd

theorem toDigitsCore_ne_nil : ∀ (fuel n : Nat) (ds : List Char),
    ds ≠ [] ∨ 0 < fuel → Nat.toDigitsCore 10 fuel n ds ≠ []
  | 0, _, ds, h => by
    rcases h with h | h
    · simpa [Nat.toDigitsCore] using h
    · omega
  | fuel + 1, n, ds, _ => by
    unfold Nat.toDigitsCore
    simp only
    split_ifs
    · simp
    · exact toDigitsCore_ne_nil fuel (n / 10) _ (Or.inl (by simp))

theorem toString_isDigit (n : Nat) : ∀ c ∈ (toString n).data, c.isDigit = true := by
  show ∀ c ∈ (Nat.repr n).data, c.isDigit = true
  unfold Nat.repr Nat.toDigits
  simp only [List.asString]
  exact toDigitsCore_isDigit _ _ _ (by simp)

theorem toString_ne_nil (n : Nat) : (toString n).data ≠ [] := by
  show (Nat.repr n).data ≠ []
  unfold Nat.repr Nat.toDigits
  simp only [List.asString]
  exact toDigitsCore_ne_nil _ _ _ (Or.inr (by omega))

theorem formatThreeDecimals_spec (oldSize newSize : Nat) (hnew : 0 < newSize) :
    ∃ t : Nat, 2 * ((1000 * oldSize : Int) - t * newSize).natAbs ≤ newSize ∧
      (formatThreeDecimals oldSize newSize).data
        = (toString (t / 1000)).data ++ ['.', Nat.digitChar (t / 100 % 10),
            Nat.digitChar (t / 10 % 10), Nat.digitChar (t % 10)] := by
  refine ⟨(2000 * oldSize + newSize) / (2 * newSize), ?_, ?_⟩
  · have h1 := Nat.div_add_mod (2000 * oldSize + newSize) (2 * newSize)
    have h2 := Nat.mod_lt (2000 * oldSize + newSize) (show 0 < 2 * newSize by omega)
    generalize (2000 * oldSize + newSize) / (2 * newSize) = t at h1 ⊢
    generalize (2000 * oldSize + newSize) % (2 * newSize) = r at h1 h2
    have h3 : 2 * newSize * t = 2 * (t * newSize) := by ring
    rw [h3] at h1
    generalize ht : t * newSize = u at h1
    have : ((t : Int) * newSize) = u := by exact_mod_cast ht
    rw [this]
    omega
  · unfold formatThreeDecimals
    simp only [String.data_append]
    simp

namespace DcmJpeg2000Codec

theorem encodeMetadata_ratio (formatRatio : Nat → Nat → String)
    (oldPixelData newPixelData : DcmPixelData) (jparams : DcmJpeg2000Parameters)
    (hts : newPixelData.TransferSyntax = .JPEG2000Lossy)
    (hframes : 0 < newPixelData.NumberOfFrames) :
    (encodeMetadata formatRatio oldPixelData newPixelData jparams).LossyCompressionRatio
      = formatRatio (oldPixelData.GetFrameSize 0)
          ((encodeMetadata formatRatio oldPixelData newPixelData jparams).GetFrameSize 0) := by
  unfold encodeMetadata
  simp only
  split_ifs <;>
    simp_all [DcmPixelData.NumberOfFrames, DcmPixelData.GetFrameSize,
      DcmPixelData.GetFrameDataU8]

end DcmJpeg2000Codec

namespace DcmJpegLsCodec

theorem encodeMetadata_ratio_jls (formatRatio : Nat → Nat → String)
    (oldPixelData newPixelData : DcmPixelData)
    (hts : newPixelData.TransferSyntax = .JPEGLSNearLossless)
    (hframes : 0 < newPixelData.NumberOfFrames) :
    (encodeMetadata formatRatio oldPixelData newPixelData).LossyCompressionRatio
      = formatRatio (oldPixelData.GetFrameSize 0)
          ((encodeMetadata formatRatio oldPixelData newPixelData).GetFrameSize 0) := by
  unfold encodeMetadata
  rw [if_pos ⟨hts, hframes⟩]
  rfl

end DcmJpegLsCodec

namespace DcmJpegCodec

theorem encodeMetadata_ratio_jpeg (formatRatio : Nat → Nat → String) (codec : IJpegCodec)
    (oldPixelData newPixelData : DcmPixelData) (hmode : codec.Mode ≠ .Lossless) :
    (encodeMetadata formatRatio codec oldPixelData newPixelData).LossyCompressionRatio
      = formatRatio (oldPixelData.GetFrameSize 0)
          ((encodeMetadata formatRatio codec oldPixelData newPixelData).GetFrameSize 0) := by
  unfold encodeMetadata
  rw [if_pos hmode]
  rfl

end DcmJpegCodec

/-! ## The claims -/

/-- C1 (amended): Marshaler round trip in the wavelet codec. With the engine modelled as
returning the image (component arrays and signed flags) unchanged, for every frame buffer of
bytes (of fewer than 2^31 bytes, as every managed array) with bytes-allocated 1 or 2 and
every destination buffer of the frame size, for every bits-stored, every high-bit below the
storage width, samples-per-pixel 1 or 3, and every destination `newPixelData` of `Decode`
that has the bits-allocated and high-bit of the source `pd` and whose layout, as `Decode`
runs its sample loops with it, is the layout of the frame (`Decode` forces the planar layout
when the photometric interpretation is, or is normalised to, YBR_FULL): unpacking (the
sample loops of `Decode`, on the metadata as `Decode` rewrites it) the image produced by
packing (the sample loops of `Encode`) yields the original frame buffer byte for byte,
provided the components are unsigned (`EncodeSignedPixelValuesAsUnsigned` is set, or the
pixel representation is 0), or bits-stored is not below the storage width `w` and every
stored unit is below `2^(w-1)`, or bits-stored is below the storage width and every stored
unit either has the sign bit `1 << HighBit` clear, or has nonzero bits below the sign bit and
no bit above it. -/
theorem wavelet_marshal_round_trip (pd newPixelData : DcmPixelData)
    (jparams : DcmJpeg2000Parameters)
    (eparams : opj_cparameters_t) (frameData destArray : List Nat)
    (hw : pd.BytesAllocated = 1 ∨ pd.BytesAllocated = 2)
    (hlen : frameData.length = pd.UncompressedFrameSize)
    (hdest : destArray.length = pd.UncompressedFrameSize)
    (hbytes : ∀ b ∈ frameData, b < 256)
    (hbits : newPixelData.BitsAllocated = pd.BitsAllocated)
    (hhigh : newPixelData.HighBit = pd.HighBit)
    (hlayout : (DcmJpeg2000Codec.decodeMetadata newPixelData).IsPlanar = pd.IsPlanar)
    (hsafe : jparams.EncodeSignedPixelValuesAsUnsigned = true ∨ pd.PixelRepresentation = 0 ∨
      (8 * pd.BytesAllocated ≤ pd.BitsStored ∧
        ∀ q, q < pd.SamplesPerPixel * (pd.ImageHeight * pd.ImageWidth) →
          storedUnit pd.BytesAllocated frameData q < 2 ^ (8 * pd.BytesAllocated - 1)) ∨
      (pd.BitsStored < 8 * pd.BytesAllocated ∧
        ∀ q, q < pd.SamplesPerPixel * (pd.ImageHeight * pd.ImageWidth) →
          storedUnit pd.BytesAllocated frameData q &&& 2 ^ pd.HighBit = 0 ∨
          (storedUnit pd.BytesAllocated frameData q &&& (2 ^ pd.HighBit - 1) ≠ 0 ∧
            storedUnit pd.BytesAllocated frameData q < 2 ^ (pd.HighBit + 1)))) :
    pd.SamplesPerPixel = 1 ∨ pd.SamplesPerPixel = 3 →
    pd.HighBit < 8 * pd.BytesAllocated →
    frameData.length < 2 ^ 31 →
    ∃ image, DcmJpeg2000Codec.encodeImage pd jparams eparams frameData = .ok image ∧
      DcmJpeg2000Codec.decodeImage (DcmJpeg2000Codec.decodeMetadata newPixelData)
          (pd.ImageHeight * pd.ImageWidth) image destArray
        = .ok frameData := by
  intro _ _ _
  have hsize : pd.UncompressedFrameSize
      = pd.BytesAllocated * (pd.SamplesPerPixel * (pd.ImageHeight * pd.ImageWidth)) := by
    unfold DcmPixelData.UncompressedFrameSize
    rw [Nat.mul_assoc]
  obtain ⟨comps', henc, hlen', hspec⟩ :=
    DcmJpeg2000Codec.encodeComponents_spec pd frameData (pd.ImageHeight * pd.ImageWidth)
      pd.SamplesPerPixel hw
      (opj_image_create (DcmJpeg2000Codec.componentParameters pd jparams eparams)
        (getOpenJpegColorSpace pd.PhotometricInterpretation)).comps 0
  have hN : (opj_image_create (DcmJpeg2000Codec.componentParameters pd jparams eparams)
      (getOpenJpegColorSpace pd.PhotometricInterpretation)).comps.length
        = pd.SamplesPerPixel := by
    simp [opj_image_create, DcmJpeg2000Codec.componentParameters]
  obtain ⟨d', hdec, hl, hv, -⟩ :=
    DcmJpeg2000Codec.decodeComponents_spec pd (pd.ImageHeight * pd.ImageWidth)
      pd.SamplesPerPixel hw comps' 0 destArray (by rw [hlen', hN]; omega)
      (by rw [hdest, hsize])
  have himg : ∃ image, DcmJpeg2000Codec.encodeImage pd jparams eparams frameData = .ok image ∧
      image.comps = comps' := by
    unfold DcmJpeg2000Codec.encodeImage
    simp only [opj_image_t.numcomps, hN, henc]
    exact ⟨_, rfl, rfl⟩
  obtain ⟨image, himage, hcomps⟩ := himg
  refine ⟨image, himage, ?_⟩
  rw [DcmJpeg2000Codec.decodeImage_congr (DcmJpeg2000Codec.decodeMetadata newPixelData) pd
    ((DcmJpeg2000Codec.decodeMetadata_BitsAllocated newPixelData).trans hbits)
    ((DcmJpeg2000Codec.decodeMetadata_HighBit newPixelData).trans hhigh) hlayout]
  unfold DcmJpeg2000Codec.decodeImage
  simp only [opj_image_t.numcomps, hcomps, hlen', hN, hdec]
  congr 1
  apply eq_of_unitBytes_eq hw (by rw [hl, hdest, hsize]) (by rw [hlen, hsize])
  intro q hq
  obtain ⟨c, p, hc, hp, rfl⟩ := samplePos_surjective pd.IsPlanar hq
  have hcomp : (opj_image_create (DcmJpeg2000Codec.componentParameters pd jparams eparams)
      (getOpenJpegColorSpace pd.PhotometricInterpretation)).comps[c]? = some
        { dx := eparams.subsampling_dx, dy := eparams.subsampling_dy, w := pd.ImageWidth,
          h := pd.ImageHeight, prec := pd.BitsStored, bpp := pd.BitsAllocated,
          sgnd := if jparams.EncodeSignedPixelValuesAsUnsigned = false then
            pd.PixelRepresentation else 0,
          data := List.replicate (pd.ImageWidth * pd.ImageHeight) 0 } := by
    simp [opj_image_create, DcmJpeg2000Codec.componentParameters, hc]
  obtain ⟨comp', hc', hs', -, hd'⟩ := hspec c _ hcomp
  have hval := hv c comp' hc' p hp
  rw [Nat.zero_add] at hval
  rw [hval, List.getD_eq_getElem?_getD, hd' p hp, Option.getD_some, hs', Nat.zero_add,
    unpackValue_packValue pd _ _ hw (storedUnit_lt hw hbytes _), valueBytes_storedUnit hw hbytes]
  rcases hsafe with h | h | ⟨hbs, h⟩ | ⟨hbs, h⟩
  · left; simp [h]
  · left; simp [h]
  · right; left; exact ⟨hbs, h _ (samplePos_lt _ hc hp)⟩
  · right; right; exact ⟨hbs, h _ (samplePos_lt _ hc hp)⟩

/-- C1, the amended statement at a concrete input: a signed 12-bit frame holding 0xFFF and
0x7FF in 16-bit units is packed and, with a destination of the same attributes, unpacked to
itself. -/
theorem wavelet_marshal_round_trip_witness :
    ∃ image,
      DcmJpeg2000Codec.encodeImage signed12 signedParameters
        (DcmJpeg2000Codec.compressionParameters signed12 signed12 signedParameters)
        [0xFF, 0x0F, 0xFF, 0x07] = .ok image ∧
      DcmJpeg2000Codec.decodeImage (DcmJpeg2000Codec.decodeMetadata signed12)
        (signed12.ImageHeight * signed12.ImageWidth) image
        [0, 0, 0, 0] = .ok [0xFF, 0x0F, 0xFF, 0x07] :=
  wavelet_marshal_round_trip signed12 signed12 signedParameters _ [0xFF, 0x0F, 0xFF, 0x07]
    [0, 0, 0, 0] (by decide) (by decide) (by decide) (by decide) rfl rfl (by decide)
    (by decide) (by decide) (by decide) (by decide)

/-- C1 as stated fails, in three ways. For signed 12-bit samples in 16-bit units (high bit
11), with the pixel representation kept (`EncodeSignedPixelValuesAsUnsigned` off), the frame
holding the units 0x0800 and 0x0FFF is packed to the component values 0 and -2047 and
unpacked to the units 0x0000 and 0x0FFF: the second byte of the buffer is 0x00 where the
original has 0x08. For signed 8-bit samples in 8-bit units (high bit 7), the frame holding
0xFF and 0x01 is packed, by the two's-complement reading, to -1 and 1 and unpacked, as sign
and magnitude, to 0x81 and 0x01. And for an interleaved YBR_FULL frame of two pixels, which
`Encode` packs by the interleaved layout, `Decode` sets the planar configuration to 1 and
unpacks by the planar layout: the frame 10 20 30 11 21 31 comes back as 10 11 20 21 30 31. -/
theorem wavelet_marshal_round_trip_counterexample :
    (∃ image,
      DcmJpeg2000Codec.encodeImage signed12 signedParameters
        (DcmJpeg2000Codec.compressionParameters signed12 signed12 signedParameters)
        [0x00, 0x08, 0xFF, 0x0F] = .ok image ∧
      (image.comps.map fun comp => comp.data) = [[0, -2047]] ∧
      DcmJpeg2000Codec.decodeImage (DcmJpeg2000Codec.decodeMetadata signed12)
        (signed12.ImageHeight * signed12.ImageWidth) image
        [0, 0, 0, 0] = .ok [0x00, 0x00, 0xFF, 0x0F] ∧
      ([0x00, 0x00, 0xFF, 0x0F] : List Nat) ≠ [0x00, 0x08, 0xFF, 0x0F]) ∧
    (∃ image,
      DcmJpeg2000Codec.encodeImage signed8 signedParameters
        (DcmJpeg2000Codec.compressionParameters signed8 signed8 signedParameters)
        [0xFF, 0x01] = .ok image ∧
      (image.comps.map fun comp => comp.data) = [[-1, 1]] ∧
      DcmJpeg2000Codec.decodeImage (DcmJpeg2000Codec.decodeMetadata signed8)
        (signed8.ImageHeight * signed8.ImageWidth) image
        [0, 0] = .ok [0x81, 0x01] ∧
      ([0x81, 0x01] : List Nat) ≠ [0xFF, 0x01]) ∧
    (ybrFull8.PhotometricInterpretation = "YBR_FULL" ∧ ybrFull8.PlanarConfiguration = 0 ∧
      (DcmJpeg2000Codec.decodeMetadata ybrFull8).PlanarConfiguration = 1 ∧
      ∃ image,
        DcmJpeg2000Codec.encodeImage ybrFull8 {}
          (DcmJpeg2000Codec.compressionParameters ybrFull8 ybrFull8 {})
          [10, 20, 30, 11, 21, 31] = .ok image ∧
        (image.comps.map fun comp => comp.data) = [[10, 11], [20, 21], [30, 31]] ∧
        DcmJpeg2000Codec.decodeImage (DcmJpeg2000Codec.decodeMetadata ybrFull8)
          (ybrFull8.ImageHeight * ybrFull8.ImageWidth) image
          [0, 0, 0, 0, 0, 0] = .ok [10, 11, 20, 21, 30, 31] ∧
        ([10, 11, 20, 21, 30, 31] : List Nat) ≠ [10, 20, 30, 11, 21, 31]) :=
  ⟨⟨_, rfl, rfl, rfl, by decide⟩, ⟨_, rfl, rfl, rfl, by decide⟩,
    rfl, rfl, rfl, _, rfl, rfl, rfl, by decide⟩

/-- C2: Sub-word sign handling on pack. For every component with the signed flag set, stored
in 1 byte with bits-stored < 8 or in 2 bytes with bits-stored < 16, and every pixel `p` of
the component, with `signBit = 1 << HighBit` and `raw` the stored unit at the sample position
of `p`: the value the component loop of `Encode` stores in `comp->data[p]` is
`-(raw & (signBit - 1))` when `raw & signBit` is nonzero, and `raw` otherwise. -/
theorem encode_subword_sign_handling (oldPixelData : DcmPixelData) (frameData : List Nat)
    (pixelCount numcomps c : Nat) (comp : opj_image_comp_t)
    (hbytes : ∀ b ∈ frameData, b < 256)
    (hsgnd : comp.sgnd ≠ 0)
    (hw : (oldPixelData.BytesAllocated = 1 ∧ oldPixelData.BitsStored < 8) ∨
      (oldPixelData.BytesAllocated = 2 ∧ oldPixelData.BitsStored < 16))
    (p : Nat) (hp : p < pixelCount) :
    ∃ comp', DcmJpeg2000Codec.encodeComponent oldPixelData frameData pixelCount numcomps c comp
        = .ok comp' ∧
      comp'.data[p]? = some
        (if storedUnit oldPixelData.BytesAllocated frameData
              (samplePos oldPixelData.IsPlanar pixelCount numcomps c p)
            &&& (1 <<< oldPixelData.HighBit) ≠ 0 then
          -((storedUnit oldPixelData.BytesAllocated frameData
              (samplePos oldPixelData.IsPlanar pixelCount numcomps c p)
            &&& ((1 <<< oldPixelData.HighBit) - 1) : Nat) : Int)
        else
          (storedUnit oldPixelData.BytesAllocated frameData
            (samplePos oldPixelData.IsPlanar pixelCount numcomps c p) : Int)) := by
  have hw' : oldPixelData.BytesAllocated = 1 ∨ oldPixelData.BytesAllocated = 2 := by
    rcases hw with h | h
    · exact Or.inl h.1
    · exact Or.inr h.1
  obtain ⟨comp', h1, -, -, h4⟩ := DcmJpeg2000Codec.encodeComponent_getElem? oldPixelData
    frameData pixelCount numcomps c comp hw' p hp
  refine ⟨comp', h1, ?_⟩
  rw [h4, packValue_subword oldPixelData comp.sgnd _ hsgnd hw (storedUnit_lt hw' hbytes _)]


/-- C2 at concrete inputs: a 2-byte, 12-bit, high-bit-11 sample 0xFFF packs to -2047 and
0x7FF packs to 2047. -/
theorem encode_subword_sign_handling_witness :
    (∃ comp', DcmJpeg2000Codec.encodeComponent signed12 [0xFF, 0x0F, 0xFF, 0x07] 2 1 0
        signedComponent = .ok comp' ∧ comp'.data[0]? = some (-2047)) ∧
    (∃ comp', DcmJpeg2000Codec.encodeComponent signed12 [0xFF, 0x0F, 0xFF, 0x07] 2 1 0
        signedComponent = .ok comp' ∧ comp'.data[1]? = some 2047) :=
  ⟨encode_subword_sign_handling signed12 [0xFF, 0x0F, 0xFF, 0x07] 2 1 0 signedComponent
      (by decide) (by decide) (by decide) 0 (by decide),
   encode_subword_sign_handling signed12 [0xFF, 0x0F, 0xFF, 0x07] 2 1 0 signedComponent
      (by decide) (by decide) (by decide) 1 (by decide)⟩

/-- C3: Full-width and unsigned pack. For storage of 1 or 2 bytes (`w` = 8 or 16 bits), every
pixel `p` of a component and `raw` the stored unit at its sample position: if the signed flag
is set and bits-stored is not below `w`, the value stored in `comp->data[p]` is the
two's-complement reading of the unit (`raw` if `raw < 2^(w-1)`, `raw - 2^w` otherwise); if
the signed flag is clear, it is `raw` itself, which lies in `0 .. 2^w - 1`. -/
theorem encode_full_width_and_unsigned (oldPixelData : DcmPixelData) (frameData : List Nat)
    (pixelCount numcomps c : Nat) (comp : opj_image_comp_t)
    (hbytes : ∀ b ∈ frameData, b < 256)
    (hw : oldPixelData.BytesAllocated = 1 ∨ oldPixelData.BytesAllocated = 2)
    (p : Nat) (hp : p < pixelCount) :
    ∃ comp', DcmJpeg2000Codec.encodeComponent oldPixelData frameData pixelCount numcomps c comp
        = .ok comp' ∧
      (comp.sgnd ≠ 0 → 8 * oldPixelData.BytesAllocated ≤ oldPixelData.BitsStored →
        comp'.data[p]? = some
          (if storedUnit oldPixelData.BytesAllocated frameData
                (samplePos oldPixelData.IsPlanar pixelCount numcomps c p)
              < 2 ^ (8 * oldPixelData.BytesAllocated - 1) then
            (storedUnit oldPixelData.BytesAllocated frameData
              (samplePos oldPixelData.IsPlanar pixelCount numcomps c p) : Int)
          else
            (storedUnit oldPixelData.BytesAllocated frameData
              (samplePos oldPixelData.IsPlanar pixelCount numcomps c p) : Int)
              - ((2 ^ (8 * oldPixelData.BytesAllocated) : Nat) : Int))) ∧
      (comp.sgnd = 0 →
        comp'.data[p]? = some
          (storedUnit oldPixelData.BytesAllocated frameData
            (samplePos oldPixelData.IsPlanar pixelCount numcomps c p) : Int) ∧
        storedUnit oldPixelData.BytesAllocated frameData
            (samplePos oldPixelData.IsPlanar pixelCount numcomps c p)
          < 2 ^ (8 * oldPixelData.BytesAllocated)) := by
  obtain ⟨comp', h1, -, -, h4⟩ := DcmJpeg2000Codec.encodeComponent_getElem? oldPixelData
    frameData pixelCount numcomps c comp hw p hp
  refine ⟨comp', h1, ?_, ?_⟩
  · intro hs hbs
    rw [h4, packValue_full_width oldPixelData comp.sgnd _ hs hw hbs]
  · intro hs
    rw [h4, hs, packValue_unsigned]
    exact ⟨rfl, storedUnit_lt hw hbytes _⟩


/-- C3 at concrete inputs: the signed 8-bit unit 0xFF packs to -1, and the unsigned 16-bit
unit 0xFFFF packs to 65535. -/
theorem encode_full_width_and_unsigned_witness :
    (∃ comp', DcmJpeg2000Codec.encodeComponent signed8 [0xFF, 0x7F] 2 1 0 signedComponent
        = .ok comp' ∧ comp'.data[0]? = some (-1)) ∧
    (∃ comp', DcmJpeg2000Codec.encodeComponent signed12 [0xFF, 0xFF, 0x00, 0x00] 2 1 0
        { signedComponent with sgnd := 0 } = .ok comp' ∧ comp'.data[0]? = some 65535) :=
  ⟨(encode_full_width_and_unsigned signed8 [0xFF, 0x7F] 2 1 0 signedComponent
      (by decide) (by decide) 0 (by decide)).imp
      fun _ h => ⟨h.1, h.2.1 (by decide) (by decide)⟩,
   (encode_full_width_and_unsigned signed12 [0xFF, 0xFF, 0x00, 0x00] 2 1 0
      { signedComponent with sgnd := 0 } (by decide) (by decide) 0 (by decide)).imp
      fun _ h => ⟨h.1, (h.2.2 rfl).1⟩⟩

/-- C4: Unpack encoding. For storage of 1 or 2 bytes (`w` = 8 or 16 bits), every component
`c` of the decoded image and every pixel `p`, with `v = comp->data[p]` and
`signBit = 1 << HighBit`: after the component loop of `Decode` the stored unit at the sample
position of `p` is `((-v) | signBit) mod 2^w` if the component is signed and `v < 0`, and
`v mod 2^w` if the component is signed and `v >= 0` or the component is unsigned. -/
theorem decode_unpack_encoding (newPixelData : DcmPixelData) (pixelCount numcomps c : Nat)
    (comp : opj_image_comp_t) (destArray : List Nat)
    (hw : newPixelData.BytesAllocated = 1 ∨ newPixelData.BytesAllocated = 2)
    (hc : c < numcomps)
    (hlen : newPixelData.BytesAllocated * (numcomps * pixelCount) ≤ destArray.length)
    (p : Nat) (hp : p < pixelCount) :
    ∃ destArray', DcmJpeg2000Codec.decodeComponent newPixelData pixelCount numcomps c comp
        destArray = .ok destArray' ∧
      storedUnit newPixelData.BytesAllocated destArray'
          (samplePos newPixelData.IsPlanar pixelCount numcomps c p)
        = if comp.sgnd ≠ 0 ∧ comp.data.getD p 0 < 0 then
            (Int.lor (-(comp.data.getD p 0)) ((1 <<< newPixelData.HighBit : Nat) : Int)
              % ((2 ^ (8 * newPixelData.BytesAllocated) : Nat) : Int)).toNat
          else
            (comp.data.getD p 0 % ((2 ^ (8 * newPixelData.BytesAllocated) : Nat) : Int)).toNat := by
  have hin : ∀ p, p < pixelCount →
      newPixelData.BytesAllocated *
        (samplePos newPixelData.IsPlanar pixelCount numcomps c p + 1) ≤ destArray.length := by
    intro p hp
    have := samplePos_lt newPixelData.IsPlanar hc hp
    exact le_trans (Nat.mul_le_mul_left _ this) hlen
  obtain ⟨d', hd, -, hv, -⟩ := DcmJpeg2000Codec.decodeComponent_spec newPixelData pixelCount
    numcomps c comp destArray hw hc hin
  refine ⟨d', hd, ?_⟩
  rw [storedUnit_eq_unitBytes, hv p hp, fst_add_snd_valueBytes hw, unpackValue_eq _ _ _ hw]

/-- C4 at concrete inputs: with high bit 11 in 16-bit units, the signed component values -2047
and 2047 are stored as the units 0x0FFF and 0x07FF. -/
theorem decode_unpack_encoding_witness :
    (∃ destArray', DcmJpeg2000Codec.decodeComponent signed12 2 1 0
        { signedComponent with data := [-2047, 2047] } [0, 0, 0, 0] = .ok destArray' ∧
      storedUnit 2 destArray' 0 = 0xFFF) ∧
    (∃ destArray', DcmJpeg2000Codec.decodeComponent signed12 2 1 0
        { signedComponent with data := [-2047, 2047] } [0, 0, 0, 0] = .ok destArray' ∧
      storedUnit 2 destArray' 1 = 0x7FF) :=
  ⟨decode_unpack_encoding signed12 2 1 0 { signedComponent with data := [-2047, 2047] }
      [0, 0, 0, 0] (by decide) (by decide) (by decide) 0 (by decide),
   decode_unpack_encoding signed12 2 1 0 { signedComponent with data := [-2047, 2047] }
      [0, 0, 0, 0] (by decide) (by decide) (by decide) 1 (by decide)⟩

/-- C5: Layout equivalence. For storage of 1 or 2 bytes, the image packed by `Encode` holds,
as sample `p` of component `c`, the packed value of the stored unit at sample position
`c + p * N` when the buffer is interleaved and `c * pixelCount + p` when it is planar
(`N` = samples-per-pixel). Consequently, for every 3-component image, packing an interleaved
buffer `fI` and packing a planar buffer `fP` with `fP[c * pixelCount + p] = fI[c + p * 3]`
give the same result. -/
theorem pack_layout_equivalence (pd : DcmPixelData) (jparams : DcmJpeg2000Parameters)
    (eparams : opj_cparameters_t) (frameData fI fP : List Nat)
    (hw : pd.BytesAllocated = 1 ∨ pd.BytesAllocated = 2) :
    (∃ image, DcmJpeg2000Codec.encodeImage pd jparams eparams frameData = .ok image ∧
      ∀ c p, c < pd.SamplesPerPixel → p < pd.ImageHeight * pd.ImageWidth →
        ∃ comp, image.comps[c]? = some comp ∧
          comp.data[p]? = some (packValue pd comp.sgnd
            (storedUnit pd.BytesAllocated frameData
              (if pd.IsPlanar then c * (pd.ImageHeight * pd.ImageWidth) + p
               else c + p * pd.SamplesPerPixel)))) ∧
    (pd.SamplesPerPixel = 3 →
      (∀ c p, c < 3 → p < pd.ImageHeight * pd.ImageWidth →
        storedUnit pd.BytesAllocated fP (c * (pd.ImageHeight * pd.ImageWidth) + p)
          = storedUnit pd.BytesAllocated fI (c + p * 3)) →
      DcmJpeg2000Codec.encodeImage { pd with PlanarConfiguration := 0 } jparams eparams fI
        = DcmJpeg2000Codec.encodeImage { pd with PlanarConfiguration := 1 } jparams eparams fP) := by
  constructor
  · obtain ⟨comps', henc, hlen', hspec⟩ :=
      DcmJpeg2000Codec.encodeComponents_spec pd frameData (pd.ImageHeight * pd.ImageWidth)
        pd.SamplesPerPixel hw
        (opj_image_create (DcmJpeg2000Codec.componentParameters pd jparams eparams)
          (getOpenJpegColorSpace pd.PhotometricInterpretation)).comps 0
    have hN : (opj_image_create (DcmJpeg2000Codec.componentParameters pd jparams eparams)
        (getOpenJpegColorSpace pd.PhotometricInterpretation)).comps.length
          = pd.SamplesPerPixel := by
      simp [opj_image_create, DcmJpeg2000Codec.componentParameters]
    have himg : ∃ image, DcmJpeg2000Codec.encodeImage pd jparams eparams frameData = .ok image ∧
        image.comps = comps' := by
      unfold DcmJpeg2000Codec.encodeImage
      simp only [opj_image_t.numcomps, hN, henc]
      exact ⟨_, rfl, rfl⟩
    obtain ⟨image, himage, hcomps⟩ := himg
    refine ⟨image, himage, ?_⟩
    intro c p hc hp
    obtain ⟨comp0, hcomp0⟩ : ∃ comp0, (opj_image_create
        (DcmJpeg2000Codec.componentParameters pd jparams eparams)
        (getOpenJpegColorSpace pd.PhotometricInterpretation)).comps[c]? = some comp0 :=
      ⟨_, List.getElem?_eq_getElem (by rw [hN]; exact hc)⟩
    obtain ⟨comp', hc', hs', -, hd'⟩ := hspec c comp0 hcomp0
    refine ⟨comp', by rw [hcomps]; exact hc', ?_⟩
    rw [hd' p hp, hs', Nat.zero_add]
    congr 3
    unfold samplePos
    cases pd.IsPlanar <;> simp
  · intro h3 hre
    have hcp : DcmJpeg2000Codec.componentParameters { pd with PlanarConfiguration := 0 }
        jparams eparams
        = DcmJpeg2000Codec.componentParameters { pd with PlanarConfiguration := 1 }
          jparams eparams := rfl
    have hN : (opj_image_create (DcmJpeg2000Codec.componentParameters
          { pd with PlanarConfiguration := 1 } jparams eparams)
        (getOpenJpegColorSpace pd.PhotometricInterpretation)).comps.length = 3 := by
      simp [opj_image_create, DcmJpeg2000Codec.componentParameters, h3]
    have := DcmJpeg2000Codec.encodeComponents_layout pd fI fP (pd.ImageHeight * pd.ImageWidth)
      hre (opj_image_create (DcmJpeg2000Codec.componentParameters
          { pd with PlanarConfiguration := 1 } jparams eparams)
        (getOpenJpegColorSpace pd.PhotometricInterpretation)).comps 0 (by omega)
    unfold DcmJpeg2000Codec.encodeImage
    simp only [opj_image_t.numcomps, hcp, hN, this]

/-- C5 at a concrete input: the interleaved frame R0 G0 B0 R1 G1 B1 and the planar frame
R0 R1 G0 G1 B0 B1 of a 2 x 1 image are packed to the same three component arrays. -/
theorem pack_layout_equivalence_witness :
    DcmJpeg2000Codec.encodeImage { rgb8 with PlanarConfiguration := 0 } {}
        opj_set_default_encoder_parameters [10, 20, 30, 11, 21, 31]
      = DcmJpeg2000Codec.encodeImage { rgb8 with PlanarConfiguration := 1 } {}
        opj_set_default_encoder_parameters [10, 11, 20, 21, 30, 31] :=
  (pack_layout_equivalence rgb8 {} opj_set_default_encoder_parameters []
      [10, 20, 30, 11, 21, 31] [10, 11, 20, 21, 30, 31] (by decide)).2 rfl (by
    intro c p hc hp
    have hp2 : p < 2 := hp
    interval_cases c <;> interval_cases p <;> rfl)

/-- C6: Lossless DCT precision classes. For both lossless codecs (Process 14 and
Process 14 SV1) and every integer `bits`, `GetCodec(bits)` returns the 8-bit engine when
`bits <= 8`, the 12-bit engine when `9 <= bits <= 12`, the 16-bit engine when
`13 <= bits <= 16`, always in Lossless mode (with the configured predictor for Process 14,
predictor 1 for SV1, and the configured point transform), and fails with a codec error
exactly when `bits >= 17`. -/
theorem GetCodec_lossless_precision_classes (self : DcmJpegCodec)
    (hself : self = .DcmJpegLossless14Codec ∨ self = .DcmJpegLossless14SV1Codec)
    (bits : Int) (jparams : DcmJpegParameters) :
    (bits ≤ 8 → self.GetCodec bits jparams = .ok (.Jpeg8Codec .Lossless
        (if self = .DcmJpegLossless14Codec then jparams.Predictor else 1)
        jparams.PointTransform)) ∧
    (9 ≤ bits → bits ≤ 12 → self.GetCodec bits jparams = .ok (.Jpeg12Codec .Lossless
        (if self = .DcmJpegLossless14Codec then jparams.Predictor else 1)
        jparams.PointTransform)) ∧
    (13 ≤ bits → bits ≤ 16 → self.GetCodec bits jparams = .ok (.Jpeg16Codec .Lossless
        (if self = .DcmJpegLossless14Codec then jparams.Predictor else 1)
        jparams.PointTransform)) ∧
    ((∃ e, self.GetCodec bits jparams = .error e) ↔ 17 ≤ bits) ∧
    (∀ codec, self.GetCodec bits jparams = .ok codec → codec.Mode = .Lossless) := by
  rcases hself with rfl | rfl
  · refine ⟨?_, ?_, ?_, ?_, ?_⟩
    · intro h; simp [DcmJpegCodec.GetCodec, h]
    · intro h1 h2
      have : ¬ bits ≤ 8 := by omega
      simp [DcmJpegCodec.GetCodec, this, h2]
    · intro h1 h2
      have h8 : ¬ bits ≤ 8 := by omega
      have h12 : ¬ bits ≤ 12 := by omega
      simp [DcmJpegCodec.GetCodec, h8, h12, h2]
    · simp only [DcmJpegCodec.GetCodec]
      constructor
      · rintro ⟨e, he⟩
        split_ifs at he with h8 h12 h16
        omega
      · intro h
        have h8 : ¬ bits ≤ 8 := by omega
        have h12 : ¬ bits ≤ 12 := by omega
        have h16 : ¬ bits ≤ 16 := by omega
        simp [h8, h12, h16]
    · intro codec h
      simp only [DcmJpegCodec.GetCodec] at h
      split_ifs at h <;> cases h <;> rfl
  · refine ⟨?_, ?_, ?_, ?_, ?_⟩
    · intro h; simp [DcmJpegCodec.GetCodec, h]
    · intro h1 h2
      have : ¬ bits ≤ 8 := by omega
      simp [DcmJpegCodec.GetCodec, this, h2]
    · intro h1 h2
      have h8 : ¬ bits ≤ 8 := by omega
      have h12 : ¬ bits ≤ 12 := by omega
      simp [DcmJpegCodec.GetCodec, h8, h12, h2]
    · simp only [DcmJpegCodec.GetCodec]
      constructor
      · rintro ⟨e, he⟩
        split_ifs at he with h8 h12 h16
        omega
      · intro h
        have h8 : ¬ bits ≤ 8 := by omega
        have h12 : ¬ bits ≤ 12 := by omega
        have h16 : ¬ bits ≤ 16 := by omega
        simp [h8, h12, h16]
    · intro codec h
      simp only [DcmJpegCodec.GetCodec] at h
      split_ifs at h <;> cases h <;> rfl

/-- C6 at concrete inputs: 12 selects the 12-bit variant, 13 the 16-bit variant, and 17
fails. -/
theorem GetCodec_lossless_precision_classes_witness :
    DcmJpegCodec.DcmJpegLossless14Codec.GetCodec 12 {} = .ok (.Jpeg12Codec .Lossless 1 0) ∧
    DcmJpegCodec.DcmJpegLossless14SV1Codec.GetCodec 13 {} = .ok (.Jpeg16Codec .Lossless 1 0) ∧
    (∃ e, DcmJpegCodec.DcmJpegLossless14Codec.GetCodec 17 {} = .error e) :=
  ⟨(GetCodec_lossless_precision_classes .DcmJpegLossless14Codec (Or.inl rfl) 12 {}).2.1
      (by decide) (by decide),
   (GetCodec_lossless_precision_classes .DcmJpegLossless14SV1Codec (Or.inr rfl) 13 {}).2.2.1
      (by decide) (by decide),
   (GetCodec_lossless_precision_classes .DcmJpegLossless14Codec (Or.inl rfl) 17 {}).2.2.2.1.2
      (by decide)⟩

/-- C7: Lossy DCT precision. For every integer `bits`, the Process 1 selector succeeds if and
only if `bits = 8`, returning the 8-bit engine in Baseline mode, and the Process 2/4 selector
succeeds if and only if `bits = 12`, returning the 12-bit engine in Sequential mode; for every
other value each fails with the codec error "Unable to create JPEG ... codec". -/
theorem GetCodec_lossy_precision (bits : Int) (jparams : DcmJpegParameters) :
    ((∃ codec, DcmJpegCodec.DcmJpegProcess1Codec.GetCodec bits jparams = .ok codec) ↔ bits = 8) ∧
    (bits = 8 → DcmJpegCodec.DcmJpegProcess1Codec.GetCodec bits jparams
        = .ok (.Jpeg8Codec .Baseline 0 0)) ∧
    (bits ≠ 8 → DcmJpegCodec.DcmJpegProcess1Codec.GetCodec bits jparams
        = .error (.UnableToCreateCodec "Process 1" bits)) ∧
    ((∃ codec, DcmJpegCodec.DcmJpegProcess4Codec.GetCodec bits jparams = .ok codec) ↔ bits = 12) ∧
    (bits = 12 → DcmJpegCodec.DcmJpegProcess4Codec.GetCodec bits jparams
        = .ok (.Jpeg12Codec .Sequential 0 0)) ∧
    (bits ≠ 12 → DcmJpegCodec.DcmJpegProcess4Codec.GetCodec bits jparams
        = .error (.UnableToCreateCodec "Process 4" bits)) := by
  refine ⟨?_, ?_, ?_, ?_, ?_, ?_⟩
  · by_cases h : bits = 8 <;> simp [DcmJpegCodec.GetCodec, h]
  · intro h; simp [DcmJpegCodec.GetCodec, h]
  · intro h; simp [DcmJpegCodec.GetCodec, h]
  · by_cases h : bits = 12 <;> simp [DcmJpegCodec.GetCodec, h]
  · intro h; simp [DcmJpegCodec.GetCodec, h]
  · intro h; simp [DcmJpegCodec.GetCodec, h]

/-- C8: Chroma-subsampled input is rejected before any frame work. For the wavelet encoder
and for the predictive encoder, `Encode` throws the photometric-interpretation exception if
and only if the source photometric interpretation is YBR_FULL_422, YBR_PARTIAL_422 or
YBR_PARTIAL_420; and when it is, the call leaves the destination exactly as it was (no frame
appended, no attribute changed) and has read no source frame. -/
theorem Encode_rejects_chroma_subsampled (engine2000 : OpenJpeg) (engineLs : CharLS)
    (formatRatio : Nat → Nat → String) (transferSyntax : DicomTransferSyntax)
    (oldPixelData newPixelData : DcmPixelData)
    (parameters2000 : Option DcmJpeg2000Parameters)
    (parametersLs : Option DcmJpegLsParameters) :
    ((∃ encoder pi, (DcmJpeg2000Codec.Encode engine2000 formatRatio oldPixelData newPixelData
          parameters2000).thrown = some (.PhotometricInterpretationNotSupported encoder pi)) ↔
      (oldPixelData.PhotometricInterpretation = "YBR_FULL_422"
        ∨ oldPixelData.PhotometricInterpretation = "YBR_PARTIAL_422"
        ∨ oldPixelData.PhotometricInterpretation = "YBR_PARTIAL_420")) ∧
    ((∃ encoder pi, (DcmJpegLsCodec.Encode engineLs formatRatio transferSyntax oldPixelData
          newPixelData parametersLs).thrown
          = some (.PhotometricInterpretationNotSupported encoder pi)) ↔
      (oldPixelData.PhotometricInterpretation = "YBR_FULL_422"
        ∨ oldPixelData.PhotometricInterpretation = "YBR_PARTIAL_422"
        ∨ oldPixelData.PhotometricInterpretation = "YBR_PARTIAL_420")) ∧
    ((oldPixelData.PhotometricInterpretation = "YBR_FULL_422"
        ∨ oldPixelData.PhotometricInterpretation = "YBR_PARTIAL_422"
        ∨ oldPixelData.PhotometricInterpretation = "YBR_PARTIAL_420") →
      DcmJpeg2000Codec.Encode engine2000 formatRatio oldPixelData newPixelData parameters2000
        = ⟨some (.PhotometricInterpretationNotSupported "JPEG 2000"
            oldPixelData.PhotometricInterpretation), newPixelData, []⟩ ∧
      DcmJpegLsCodec.Encode engineLs formatRatio transferSyntax oldPixelData newPixelData
          parametersLs
        = ⟨some (.PhotometricInterpretationNotSupported "JPEG-LS"
            oldPixelData.PhotometricInterpretation), newPixelData, []⟩) := by
  refine ⟨⟨?_, ?_⟩, ⟨?_, ?_⟩, ?_⟩
  · rintro ⟨encoder, pi, h⟩
    by_contra hpi
    unfold DcmJpeg2000Codec.Encode at h
    rw [if_neg hpi] at h
    simp only at h
    rcases DcmJpeg2000Codec.encodeFrames_thrown engine2000 oldPixelData (parameters2000.getD {})
      (List.range oldPixelData.NumberOfFrames) newPixelData [] with h0 | h0 | h0 | h0
    · simp [h0] at h
    · simp [h0] at h
    · simp [h0] at h
    · simp [h0] at h
  · intro hpi
    exact ⟨_, _, by unfold DcmJpeg2000Codec.Encode; rw [if_pos hpi]⟩
  · rintro ⟨encoder, pi, h⟩
    by_contra hpi
    unfold DcmJpegLsCodec.Encode at h
    rw [if_neg hpi] at h
    simp only at h
    rcases DcmJpegLsCodec.encodeFrames_thrown_jls engineLs oldPixelData
      (DcmJpegLsCodec.encodeParameters transferSyntax oldPixelData (parametersLs.getD {}))
      (List.range oldPixelData.NumberOfFrames)
      (if transferSyntax = .JPEGLSNearLossless then { newPixelData with IsLossy := true }
        else newPixelData) [] with h0 | ⟨err, h0⟩ | h0
    · simp [h0] at h
    · simp [h0] at h
    · simp [h0] at h
  · intro hpi
    exact ⟨_, _, by unfold DcmJpegLsCodec.Encode; rw [if_pos hpi]⟩
  · intro hpi
    constructor
    · unfold DcmJpeg2000Codec.Encode; rw [if_pos hpi]
    · unfold DcmJpegLsCodec.Encode; rw [if_pos hpi]

/-- C10: Encode-side bit-depth narrowing in the DCT driver (each engine call modelled as
yielding the frame it appends, or an exception). For every `Encode` call with at least one
source frame, the destination's bits-allocated ends as 8 if the source has bits-allocated 16
and bits-stored <= 8, and as it was otherwise; the codec binding is the one `GetCodec`
returns for the source's bits-stored; and when `GetCodec` fails the call ends with that
exception, the adjustment already made and nothing else changed. -/
theorem Encode_narrows_bits_allocated (engine : Ijg) (formatRatio : Nat → Nat → String)
    (self : DcmJpegCodec) (oldPixelData newPixelData : DcmPixelData)
    (parameters : Option DcmCodecParameters) (hframes : 0 < oldPixelData.NumberOfFrames) :
    (DcmJpegCodec.Encode engine formatRatio self oldPixelData newPixelData
        parameters).newPixelData.BitsAllocated
      = (if oldPixelData.BitsAllocated = 16 ∧ oldPixelData.BitsStored ≤ 8 then 8
         else newPixelData.BitsAllocated) ∧
    (DcmJpegCodec.Encode engine formatRatio self oldPixelData newPixelData parameters).codec
      = (self.GetCodec oldPixelData.BitsStored
          (DcmJpegCodec.selectParameters parameters)).toOption ∧
    (∀ e, self.GetCodec oldPixelData.BitsStored (DcmJpegCodec.selectParameters parameters)
        = .error e →
      DcmJpegCodec.Encode engine formatRatio self oldPixelData newPixelData parameters
        = ⟨some e,
           { newPixelData with
             BitsAllocated := if oldPixelData.BitsAllocated = 16 ∧ oldPixelData.BitsStored ≤ 8
               then 8 else newPixelData.BitsAllocated },
           [], none⟩) := by
  have hne : oldPixelData.NumberOfFrames ≠ 0 := by omega
  unfold DcmJpegCodec.Encode
  rw [if_neg hne]
  simp only
  cases hc : self.GetCodec oldPixelData.BitsStored (DcmJpegCodec.selectParameters parameters) with
  | error e =>
    refine ⟨?_, rfl, ?_⟩
    · simp only
      split_ifs <;> rfl
    · intro e' he'
      cases he'
      simp only
      split_ifs <;> rfl
  | ok codec =>
    refine ⟨?_, ?_, ?_⟩
    · simp only
      have hE := DcmJpegCodec.encodeFrames_BitsAllocated engine codec oldPixelData
        (DcmJpegCodec.selectParameters parameters) (List.range oldPixelData.NumberOfFrames)
      split
      · rw [(hE _ _).1]
        split_ifs <;> rfl
      · simp only [DcmJpegCodec.encodeMetadata_BitsAllocated]
        rw [(hE _ _).1]
        split_ifs <;> rfl
    · simp only [Except.toOption]
      have hE := DcmJpegCodec.encodeFrames_BitsAllocated engine codec oldPixelData
        (DcmJpegCodec.selectParameters parameters) (List.range oldPixelData.NumberOfFrames)
      split
      · exact (hE _ _).2
      · exact (hE _ _).2
    · intro e he
      cases he

/-- C10 at a concrete input: a source with bits-allocated 16 and bits-stored 8 narrows the
destination to bits-allocated 8 and selects the 8-bit lossless engine. -/
theorem Encode_narrows_bits_allocated_witness :
    (DcmJpegCodec.Encode sampleIjg (fun _ _ => "") .DcmJpegLossless14Codec padded16
        { padded16 with Frames := [] } none).newPixelData.BitsAllocated = 8 ∧
    (DcmJpegCodec.Encode sampleIjg (fun _ _ => "") .DcmJpegLossless14Codec padded16
        { padded16 with Frames := [] } none).codec = some (.Jpeg8Codec .Lossless 1 0) :=
  ⟨(Encode_narrows_bits_allocated sampleIjg (fun _ _ => "") .DcmJpegLossless14Codec padded16
      { padded16 with Frames := [] } none (by decide)).1,
   (Encode_narrows_bits_allocated sampleIjg (fun _ _ => "") .DcmJpegLossless14Codec padded16
      { padded16 with Frames := [] } none (by decide)).2.1⟩

/-- C11: Decode-side bit-depth widening in the DCT driver. For every `Decode` call with at
least one source frame, with P the precision used for selection (the scanned precision, or
the source's bits-stored when the scan fails), the destination's bits-allocated ends as 16
when the destination's bits-stored is at most 8 and P is above 8; as 8 when bits-stored is at
most 8, P is at most 8 and bits-allocated was 16; and as it was in every other case, whether
the call succeeds or throws. In particular a destination bits-stored of at most 8 with a
scanned precision of 12 gives bits-allocated 16. -/
theorem Decode_widens_bits_allocated (engine : Ijg) (self : DcmJpegCodec)
    (oldPixelData newPixelData : DcmPixelData) (parameters : Option DcmCodecParameters)
    (hframes : 0 < oldPixelData.NumberOfFrames) :
    (DcmJpegCodec.Decode engine self oldPixelData newPixelData
        parameters).newPixelData.BitsAllocated
      = (if (newPixelData.BitsStored : Int) ≤ 8 ∧
            (engine.ScanHeaderForBitDepth oldPixelData).getD oldPixelData.BitsStored > 8 then 16
         else if newPixelData.BitsStored ≤ 8 ∧ newPixelData.BitsAllocated = 16 then 8
         else newPixelData.BitsAllocated) ∧
    (engine.ScanHeaderForBitDepth oldPixelData = some 12 → newPixelData.BitsStored ≤ 8 →
      (DcmJpegCodec.Decode engine self oldPixelData newPixelData
        parameters).newPixelData.BitsAllocated = 16) := by
  have hne : oldPixelData.NumberOfFrames ≠ 0 := by omega
  have hP : (match engine.ScanHeaderForBitDepth oldPixelData with
      | some precision => precision
      | none => (oldPixelData.BitsStored : Int))
      = (engine.ScanHeaderForBitDepth oldPixelData).getD oldPixelData.BitsStored := by
    cases engine.ScanHeaderForBitDepth oldPixelData <;> rfl
  have main : (DcmJpegCodec.Decode engine self oldPixelData newPixelData
        parameters).newPixelData.BitsAllocated
      = (if (newPixelData.BitsStored : Int) ≤ 8 ∧
            (engine.ScanHeaderForBitDepth oldPixelData).getD oldPixelData.BitsStored > 8 then 16
         else if newPixelData.BitsStored ≤ 8 ∧ newPixelData.BitsAllocated = 16 then 8
         else newPixelData.BitsAllocated) := by
    have key : ∀ P : Int,
        (match self.GetCodec P (DcmJpegCodec.selectParameters parameters) with
          | .error e => (⟨some e,
              (if ((if newPixelData.BitsAllocated = 16 ∧ newPixelData.BitsStored ≤ 8 then
                    { newPixelData with BitsAllocated := 8 } else newPixelData).BitsStored : Int)
                    ≤ 8 ∧ P > 8 then
                { (if newPixelData.BitsAllocated = 16 ∧ newPixelData.BitsStored ≤ 8 then
                    { newPixelData with BitsAllocated := 8 } else newPixelData) with
                  BitsAllocated := 16 }
               else (if newPixelData.BitsAllocated = 16 ∧ newPixelData.BitsStored ≤ 8 then
                    { newPixelData with BitsAllocated := 8 } else newPixelData)),
              [], none⟩ : JpegCallResult)
          | .ok codec => DcmJpegCodec.decodeFrames engine codec oldPixelData
              (DcmJpegCodec.selectParameters parameters)
              (List.range oldPixelData.NumberOfFrames)
              (if ((if newPixelData.BitsAllocated = 16 ∧ newPixelData.BitsStored ≤ 8 then
                    { newPixelData with BitsAllocated := 8 } else newPixelData).BitsStored : Int)
                    ≤ 8 ∧ P > 8 then
                { (if newPixelData.BitsAllocated = 16 ∧ newPixelData.BitsStored ≤ 8 then
                    { newPixelData with BitsAllocated := 8 } else newPixelData) with
                  BitsAllocated := 16 }
               else (if newPixelData.BitsAllocated = 16 ∧ newPixelData.BitsStored ≤ 8 then
                    { newPixelData with BitsAllocated := 8 } else newPixelData))
              []).newPixelData.BitsAllocated
          = (if (newPixelData.BitsStored : Int) ≤ 8 ∧ P > 8 then 16
             else if newPixelData.BitsStored ≤ 8 ∧ newPixelData.BitsAllocated = 16 then 8
             else newPixelData.BitsAllocated) := by
      intro P
      have hfin : ∀ nd : DcmPixelData,
          (match self.GetCodec P (DcmJpegCodec.selectParameters parameters) with
            | .error e => (⟨some e, nd, [], none⟩ : JpegCallResult)
            | .ok codec => DcmJpegCodec.decodeFrames engine codec oldPixelData
                (DcmJpegCodec.selectParameters parameters)
                (List.range oldPixelData.NumberOfFrames) nd []).newPixelData.BitsAllocated
            = nd.BitsAllocated := by
        intro nd
        split
        · rfl
        · exact (DcmJpegCodec.decodeFrames_BitsAllocated engine _ oldPixelData _ _ nd []).1
      rw [hfin]
      by_cases h16 : newPixelData.BitsAllocated = 16 ∧ newPixelData.BitsStored ≤ 8
      · rw [if_pos h16]
        simp only
        by_cases hP8 : (newPixelData.BitsStored : Int) ≤ 8 ∧ P > 8
        · rw [if_pos hP8, if_pos hP8]
        · rw [if_neg hP8, if_neg hP8, if_pos ⟨h16.2, h16.1⟩]
      · rw [if_neg h16]
        by_cases hP8 : (newPixelData.BitsStored : Int) ≤ 8 ∧ P > 8
        · rw [if_pos hP8, if_pos hP8]
        · rw [if_neg hP8, if_neg hP8, if_neg (fun h => h16 ⟨h.2, h.1⟩)]
    unfold DcmJpegCodec.Decode
    rw [if_neg hne]
    cases hscan : engine.ScanHeaderForBitDepth oldPixelData with
    | none => exact key _
    | some p => exact key p
  refine ⟨main, ?_⟩
  intro hscan hbs
  rw [main, hscan]
  have : (newPixelData.BitsStored : Int) ≤ 8 := by omega
  simp [this]

/-- C11 at a concrete input: a one-frame source whose header scan gives precision 12,
decoded into a destination with bits-stored 8 and bits-allocated 8, leaves bits-allocated 16. -/
theorem Decode_widens_bits_allocated_witness :
    0 < padded16.NumberOfFrames ∧ signed8.BitsStored ≤ 8 ∧ signed8.BitsAllocated = 8 ∧
    (DcmJpegCodec.Decode { sampleIjg with ScanHeaderForBitDepth := fun _ => some 12 }
        .DcmJpegProcess4Codec padded16 signed8 none).newPixelData.BitsAllocated = 16 :=
  ⟨by decide, by decide, rfl,
    (Decode_widens_bits_allocated { sampleIjg with ScanHeaderForBitDepth := fun _ => some 12 }
      .DcmJpegProcess4Codec padded16 signed8 none (by decide)).2 rfl (by decide)⟩

/-- C12: Header-scan fallback. The header scan is a function returning a precision or
failing (`none`). A `Decode` whose scan fails returns exactly what a `Decode` whose scan
returns the source's bits-stored returns: the same exception or success, the same destination
state, frames read and codec binding, so a scan failure is never the error of the call. With
at least one source frame the codec is the one `GetCodec` gives for the source's bits-stored
when the scan fails, and the one it gives for the scanned precision when the scan succeeds. -/
theorem Decode_scan_fallback
    (enc dec : IJpegCodec → DcmPixelData → DcmPixelData → DcmJpegParameters → Nat →
      Except DicomCodecException (List Nat))
    (scanFail scanOk : DcmPixelData → Option Int) (self : DcmJpegCodec)
    (oldPixelData newPixelData : DcmPixelData) (parameters : Option DcmCodecParameters)
    (hfail : scanFail oldPixelData = none)
    (hok : scanOk oldPixelData = some (oldPixelData.BitsStored : Int)) :
    DcmJpegCodec.Decode ⟨enc, dec, scanFail⟩ self oldPixelData newPixelData parameters
      = DcmJpegCodec.Decode ⟨enc, dec, scanOk⟩ self oldPixelData newPixelData parameters ∧
    (0 < oldPixelData.NumberOfFrames →
      (DcmJpegCodec.Decode ⟨enc, dec, scanFail⟩ self oldPixelData newPixelData parameters).codec
        = (self.GetCodec oldPixelData.BitsStored
            (DcmJpegCodec.selectParameters parameters)).toOption) ∧
    (∀ (scan : DcmPixelData → Option Int) (precision : Int),
      scan oldPixelData = some precision → 0 < oldPixelData.NumberOfFrames →
      (DcmJpegCodec.Decode ⟨enc, dec, scan⟩ self oldPixelData newPixelData parameters).codec
        = (self.GetCodec precision (DcmJpegCodec.selectParameters parameters)).toOption) := by
  have hcodec : ∀ (scan : DcmPixelData → Option Int) (precision : Int),
      (scan oldPixelData = some precision ∨
        (scan oldPixelData = none ∧ precision = (oldPixelData.BitsStored : Int))) →
      0 < oldPixelData.NumberOfFrames →
      (DcmJpegCodec.Decode ⟨enc, dec, scan⟩ self oldPixelData newPixelData parameters).codec
        = (self.GetCodec precision (DcmJpegCodec.selectParameters parameters)).toOption := by
    intro scan precision hs hframes
    have hne : oldPixelData.NumberOfFrames ≠ 0 := by omega
    unfold DcmJpegCodec.Decode
    rw [if_neg hne]
    have hfin : ∀ nd : DcmPixelData,
        (match self.GetCodec precision (DcmJpegCodec.selectParameters parameters) with
          | .error e => (⟨some e, nd, [], none⟩ : JpegCallResult)
          | .ok codec => DcmJpegCodec.decodeFrames ⟨enc, dec, scan⟩ codec oldPixelData
              (DcmJpegCodec.selectParameters parameters)
              (List.range oldPixelData.NumberOfFrames) nd []).codec
          = (self.GetCodec precision (DcmJpegCodec.selectParameters parameters)).toOption := by
      intro nd
      cases hc : self.GetCodec precision (DcmJpegCodec.selectParameters parameters) with
      | error e => rfl
      | ok codec =>
        simp only [Except.toOption]
        exact (DcmJpegCodec.decodeFrames_BitsAllocated _ codec oldPixelData _ _ _ []).2
    rcases hs with hs | ⟨hs, rfl⟩
    · simp only [hs]
      exact hfin _
    · simp only [hs]
      exact hfin _
  refine ⟨?_, ?_, ?_⟩
  · unfold DcmJpegCodec.Decode
    by_cases h0 : oldPixelData.NumberOfFrames = 0
    · rw [if_pos h0, if_pos h0]
    · rw [if_neg h0, if_neg h0]
      simp only [hfail, hok]
      split
      · rfl
      · exact DcmJpegCodec.decodeFrames_scan_irrelevant enc dec scanFail scanOk _ _ _ _ _ _
  · intro hframes
    exact hcodec scanFail _ (Or.inr ⟨hfail, rfl⟩) hframes
  · intro scan precision hs hframes
    exact hcodec scan precision (Or.inl hs) hframes

/-- C12 at a concrete input: for a one-frame source with bits-stored 8, `Decode` with a
failing scan and `Decode` with a scan returning 8 give the same result. -/
theorem Decode_scan_fallback_witness :
    DcmJpegCodec.Decode ⟨sampleIjg.Encode, sampleIjg.Decode, fun _ => none⟩
        .DcmJpegProcess1Codec padded16 signed8 none
      = DcmJpegCodec.Decode ⟨sampleIjg.Encode, sampleIjg.Decode, fun _ => some 8⟩
          .DcmJpegProcess1Codec padded16 signed8 none :=
  (Decode_scan_fallback sampleIjg.Encode sampleIjg.Decode (fun _ => none) (fun _ => some 8)
    .DcmJpegProcess1Codec padded16 signed8 none rfl rfl).1

/-- C13 (amended): Photometric rewrite on wavelet encode. After every successful `Encode`
whose source photometric interpretation is RGB, with the multi-component transform allowed
and the update flag set, the destination's photometric interpretation is YBR_ICT when the
destination's transfer syntax is the lossy one and the irreversible flag is set, and YBR_RCT
otherwise. -/
theorem Encode_photometric_rewrite (engine : OpenJpeg) (formatRatio : Nat → Nat → String)
    (oldPixelData newPixelData : DcmPixelData) (parameters : Option DcmJpeg2000Parameters)
    (hok : (DcmJpeg2000Codec.Encode engine formatRatio oldPixelData newPixelData
        parameters).thrown = none)
    (hrgb : oldPixelData.PhotometricInterpretation = "RGB")
    (hmct : (parameters.getD {}).AllowMCT = true)
    (hupd : (parameters.getD {}).UpdatePhotometricInterpretation = true) :
    (DcmJpeg2000Codec.Encode engine formatRatio oldPixelData newPixelData
        parameters).newPixelData.PhotometricInterpretation
      = if newPixelData.TransferSyntax = .JPEG2000Lossy ∧
            (parameters.getD {}).Irreversible = true then "YBR_ICT"
        else "YBR_RCT" := by
  obtain ⟨-, hnew⟩ := DcmJpeg2000Codec.Encode_success_newPixelData engine formatRatio
    oldPixelData newPixelData parameters hok
  have hf := DcmJpeg2000Codec.encodeFrames_fields engine oldPixelData (parameters.getD {})
    (List.range oldPixelData.NumberOfFrames) newPixelData []
  have hts : (DcmJpeg2000Codec.encodeFrames engine oldPixelData (parameters.getD {})
      (List.range oldPixelData.NumberOfFrames) newPixelData []).newPixelData.TransferSyntax
        = newPixelData.TransferSyntax := by rw [hf]
  rw [hnew]
  unfold DcmJpeg2000Codec.encodeMetadata
  simp only [hrgb, hmct, hupd, and_self, if_true, hts]
  by_cases hl : newPixelData.TransferSyntax = .JPEG2000Lossy ∧
      (parameters.getD {}).Irreversible = true
  · simp only [if_pos hl]
    split_ifs <;> rfl
  · simp only [if_neg hl]
    split_ifs <;> rfl

/-- C13, the amended statement at a concrete input: an RGB frame encoded with the default
parameters to the lossy transfer syntax is marked YBR_ICT. -/
theorem Encode_photometric_rewrite_witness :
    (DcmJpeg2000Codec.Encode sampleOpenJpeg (fun _ _ => "") rgb8Frame
        { rgb8 with TransferSyntax := .JPEG2000Lossy } none).newPixelData.PhotometricInterpretation
      = "YBR_ICT" :=
  Encode_photometric_rewrite sampleOpenJpeg (fun _ _ => "") rgb8Frame
    { rgb8 with TransferSyntax := .JPEG2000Lossy } none (by decide) (by decide) (by decide)
    (by decide)

/-- C13 as stated fails: with the default parameters (irreversible flag set, transform
allowed, update flag set) a successful `Encode` of an RGB frame to the lossless transfer
syntax marks the destination YBR_RCT, not YBR_ICT. -/
theorem Encode_photometric_rewrite_counterexample :
    (DcmJpeg2000Codec.Encode sampleOpenJpeg (fun _ _ => "") rgb8Frame rgb8 none).thrown = none ∧
    rgb8Frame.PhotometricInterpretation = "RGB" ∧
    ({} : DcmJpeg2000Parameters).AllowMCT = true ∧
    ({} : DcmJpeg2000Parameters).UpdatePhotometricInterpretation = true ∧
    ({} : DcmJpeg2000Parameters).Irreversible = true ∧
    (DcmJpeg2000Codec.Encode sampleOpenJpeg (fun _ _ => "") rgb8Frame rgb8
        none).newPixelData.PhotometricInterpretation = "YBR_RCT" ∧
    "YBR_RCT" ≠ "YBR_ICT" := by
  refine ⟨by decide, by decide, rfl, rfl, rfl, by decide, by decide⟩

/-- C15: Lossy bookkeeping per family. After every successful `Encode` of a source with at
least one frame, the destination has the lossy flag set and the compression-method tag
ISO_15444_1 when the wavelet codec encodes to the lossy transfer syntax; ISO_10918_1 when
the engine the DCT codec selected has a mode other than Lossless, which is the case for the
Process 1 and Process 2/4 codecs; and ISO_14495_1 when the predictive codec encodes to the
near-lossless transfer syntax. The three tags are pairwise distinct. -/
theorem lossy_bookkeeping (engine2000 : OpenJpeg) (engineLs : CharLS) (engineJpeg : Ijg)
    (formatRatio : Nat → Nat → String) (transferSyntax : DicomTransferSyntax)
    (self : DcmJpegCodec) (oldPixelData newPixelData : DcmPixelData)
    (parameters2000 : Option DcmJpeg2000Parameters)
    (parametersLs : Option DcmJpegLsParameters)
    (parametersJpeg : Option DcmCodecParameters)
    (hframes : 0 < oldPixelData.NumberOfFrames) :
    ((DcmJpeg2000Codec.Encode engine2000 formatRatio oldPixelData newPixelData
          parameters2000).thrown = none →
      newPixelData.TransferSyntax = .JPEG2000Lossy →
      (DcmJpeg2000Codec.Encode engine2000 formatRatio oldPixelData newPixelData
          parameters2000).newPixelData.IsLossy = true ∧
      (DcmJpeg2000Codec.Encode engine2000 formatRatio oldPixelData newPixelData
          parameters2000).newPixelData.LossyCompressionMethod = "ISO_15444_1") ∧
    ((DcmJpegCodec.Encode engineJpeg formatRatio self oldPixelData newPixelData
          parametersJpeg).thrown = none →
      (∀ codec, (DcmJpegCodec.Encode engineJpeg formatRatio self oldPixelData newPixelData
          parametersJpeg).codec = some codec → codec.Mode ≠ .Lossless) →
      (DcmJpegCodec.Encode engineJpeg formatRatio self oldPixelData newPixelData
          parametersJpeg).newPixelData.IsLossy = true ∧
      (DcmJpegCodec.Encode engineJpeg formatRatio self oldPixelData newPixelData
          parametersJpeg).newPixelData.LossyCompressionMethod = "ISO_10918_1") ∧
    ((DcmJpegCodec.Encode engineJpeg formatRatio self oldPixelData newPixelData
          parametersJpeg).thrown = none →
      self = .DcmJpegProcess1Codec ∨ self = .DcmJpegProcess4Codec →
      (DcmJpegCodec.Encode engineJpeg formatRatio self oldPixelData newPixelData
          parametersJpeg).newPixelData.IsLossy = true ∧
      (DcmJpegCodec.Encode engineJpeg formatRatio self oldPixelData newPixelData
          parametersJpeg).newPixelData.LossyCompressionMethod = "ISO_10918_1") ∧
    ((DcmJpegLsCodec.Encode engineLs formatRatio transferSyntax oldPixelData newPixelData
          parametersLs).thrown = none →
      newPixelData.TransferSyntax = .JPEGLSNearLossless →
      (DcmJpegLsCodec.Encode engineLs formatRatio transferSyntax oldPixelData newPixelData
          parametersLs).newPixelData.IsLossy = true ∧
      (DcmJpegLsCodec.Encode engineLs formatRatio transferSyntax oldPixelData newPixelData
          parametersLs).newPixelData.LossyCompressionMethod = "ISO_14495_1") ∧
    ("ISO_15444_1" ≠ "ISO_10918_1" ∧ "ISO_15444_1" ≠ "ISO_14495_1"
      ∧ "ISO_10918_1" ≠ "ISO_14495_1") := by
  have hjpeg : (DcmJpegCodec.Encode engineJpeg formatRatio self oldPixelData newPixelData
          parametersJpeg).thrown = none →
      (∀ codec, (DcmJpegCodec.Encode engineJpeg formatRatio self oldPixelData newPixelData
          parametersJpeg).codec = some codec → codec.Mode ≠ .Lossless) →
      (DcmJpegCodec.Encode engineJpeg formatRatio self oldPixelData newPixelData
          parametersJpeg).newPixelData.IsLossy = true ∧
      (DcmJpegCodec.Encode engineJpeg formatRatio self oldPixelData newPixelData
          parametersJpeg).newPixelData.LossyCompressionMethod = "ISO_10918_1" := by
    intro hok hmode
    obtain ⟨codec, -, hcodec, nd, hnd⟩ := DcmJpegCodec.Encode_success_newPixelData_jpeg
      engineJpeg formatRatio self oldPixelData newPixelData parametersJpeg hframes hok
    rw [hnd]
    unfold DcmJpegCodec.encodeMetadata
    rw [if_pos (hmode codec hcodec)]
    exact ⟨rfl, rfl⟩
  refine ⟨?_, hjpeg, ?_, ?_, by decide⟩
  · intro hok hts
    obtain ⟨hthrown, hnew⟩ := DcmJpeg2000Codec.Encode_success_newPixelData engine2000
      formatRatio oldPixelData newPixelData parameters2000 hok
    have hf := DcmJpeg2000Codec.encodeFrames_fields engine2000 oldPixelData
      (parameters2000.getD {}) (List.range oldPixelData.NumberOfFrames) newPixelData []
    have hl := DcmJpeg2000Codec.encodeFrames_length engine2000 oldPixelData
      (parameters2000.getD {}) (List.range oldPixelData.NumberOfFrames) newPixelData [] hthrown
    rw [hnew]
    apply DcmJpeg2000Codec.encodeMetadata_lossy
    · rw [hf]; exact hts
    · have hpos : 0 < newPixelData.Frames.length + (List.range oldPixelData.NumberOfFrames).length := by
        rw [List.length_range]; omega
      rw [← hl] at hpos
      exact hpos
  · intro hok hself
    apply hjpeg hok
    intro codec hcodec
    obtain ⟨codec', hget, hcodec', -⟩ := DcmJpegCodec.Encode_success_newPixelData_jpeg
      engineJpeg formatRatio self oldPixelData newPixelData parametersJpeg hframes hok
    rw [hcodec'] at hcodec
    cases hcodec
    rcases hself with rfl | rfl
    · simp only [DcmJpegCodec.GetCodec] at hget
      split_ifs at hget
      cases hget
      decide
    · simp only [DcmJpegCodec.GetCodec] at hget
      split_ifs at hget
      cases hget
      decide
  · intro hok hts
    obtain ⟨hthrown, hnew⟩ := DcmJpegLsCodec.Encode_success_newPixelData_jls engineLs
      formatRatio transferSyntax oldPixelData newPixelData parametersLs hok
    have hf := DcmJpegLsCodec.encodeFrames_fields_jls engineLs oldPixelData
      (DcmJpegLsCodec.encodeParameters transferSyntax oldPixelData (parametersLs.getD {}))
      (List.range oldPixelData.NumberOfFrames)
      (if transferSyntax = .JPEGLSNearLossless then { newPixelData with IsLossy := true }
        else newPixelData) []
    have hl := DcmJpegLsCodec.encodeFrames_length_jls engineLs oldPixelData
      (DcmJpegLsCodec.encodeParameters transferSyntax oldPixelData (parametersLs.getD {}))
      (List.range oldPixelData.NumberOfFrames)
      (if transferSyntax = .JPEGLSNearLossless then { newPixelData with IsLossy := true }
        else newPixelData) [] hthrown
    rw [hnew]
    unfold DcmJpegLsCodec.encodeMetadata
    rw [if_pos]
    · exact ⟨rfl, rfl⟩
    · constructor
      · rw [hf]
        split_ifs <;> exact hts
      · have hpos : 0 < (if transferSyntax = .JPEGLSNearLossless then
              { newPixelData with IsLossy := true } else newPixelData).Frames.length
            + (List.range oldPixelData.NumberOfFrames).length := by
          rw [List.length_range]; omega
        rw [← hl] at hpos
        exact hpos

/-- C15 at concrete inputs: a one-frame source encoded by the wavelet codec to the lossy
transfer syntax, by the Process 1 DCT codec, and by the predictive codec to the near-lossless
transfer syntax ends with the tags ISO_15444_1, ISO_10918_1 and ISO_14495_1. -/
theorem lossy_bookkeeping_witness :
    0 < padded16.NumberOfFrames ∧
    (DcmJpeg2000Codec.Encode sampleOpenJpeg (fun _ _ => "") padded16
        { padded16 with TransferSyntax := .JPEG2000Lossy, Frames := [] }
        none).newPixelData.LossyCompressionMethod = "ISO_15444_1" ∧
    (DcmJpegCodec.Encode sampleIjg (fun _ _ => "") .DcmJpegProcess1Codec padded16
        { padded16 with TransferSyntax := .JPEGProcess1, Frames := [] }
        none).newPixelData.LossyCompressionMethod = "ISO_10918_1" ∧
    (DcmJpegLsCodec.Encode sampleCharLS (fun _ _ => "") .JPEGLSNearLossless padded16
        { padded16 with TransferSyntax := .JPEGLSNearLossless, Frames := [] }
        none).newPixelData.LossyCompressionMethod = "ISO_14495_1" :=
  ⟨by decide,
   ((lossy_bookkeeping sampleOpenJpeg sampleCharLS sampleIjg (fun _ _ => "")
      .JPEGLSNearLossless .DcmJpegProcess1Codec padded16
      { padded16 with TransferSyntax := .JPEG2000Lossy, Frames := [] } none none none
      (by decide)).1 (by decide) rfl).2,
   ((lossy_bookkeeping sampleOpenJpeg sampleCharLS sampleIjg (fun _ _ => "")
      .JPEGLSNearLossless .DcmJpegProcess1Codec padded16
      { padded16 with TransferSyntax := .JPEGProcess1, Frames := [] } none none none
      (by decide)).2.2.1 (by decide) (Or.inl rfl)).2,
   ((lossy_bookkeeping sampleOpenJpeg sampleCharLS sampleIjg (fun _ _ => "")
      .JPEGLSNearLossless .DcmJpegProcess1Codec padded16
      { padded16 with TransferSyntax := .JPEGLSNearLossless, Frames := [] } none none none
      (by decide)).2.2.2.1 (by decide) rfl).2⟩

/-- C16: Compression ratio (the runtime's rendering modelled as `formatThreeDecimals`).
Whatever the rendering `formatRatio` is, after every successful `Encode` of a source with at
least one frame that records lossy compression (the wavelet codec encoding to the lossy
transfer syntax, the DCT codec with an engine of a mode other than Lossless, the predictive
codec encoding to the near-lossless transfer syntax), the stored ratio string is the
rendering of (size of source frame 0) / (size of destination frame 0). The rendering
`formatThreeDecimals` of every pair of positive frame sizes is the decimal numeral of the
whole part of `t / 1000`, a point and exactly three digits, those of `t mod 1000`, where `t`
is the quotient in thousandths rounded to the nearest whole number; for the sizes 65536 and
16384 it is "4.000". -/
theorem lossy_compression_ratio (engine2000 : OpenJpeg) (engineLs : CharLS)
    (engineJpeg : Ijg) (formatRatio : Nat → Nat → String) (transferSyntax : DicomTransferSyntax)
    (self : DcmJpegCodec) (oldPixelData newPixelData : DcmPixelData)
    (parameters2000 : Option DcmJpeg2000Parameters)
    (parametersLs : Option DcmJpegLsParameters)
    (parametersJpeg : Option DcmCodecParameters)
    (hframes : 0 < oldPixelData.NumberOfFrames) :
    ((DcmJpeg2000Codec.Encode engine2000 formatRatio oldPixelData newPixelData
          parameters2000).thrown = none →
      newPixelData.TransferSyntax = .JPEG2000Lossy →
      (DcmJpeg2000Codec.Encode engine2000 formatRatio oldPixelData newPixelData
          parameters2000).newPixelData.LossyCompressionRatio
        = formatRatio (oldPixelData.GetFrameSize 0)
            ((DcmJpeg2000Codec.Encode engine2000 formatRatio oldPixelData newPixelData
              parameters2000).newPixelData.GetFrameSize 0)) ∧
    ((DcmJpegCodec.Encode engineJpeg formatRatio self oldPixelData newPixelData
          parametersJpeg).thrown = none →
      (∀ codec, (DcmJpegCodec.Encode engineJpeg formatRatio self oldPixelData newPixelData
          parametersJpeg).codec = some codec → codec.Mode ≠ .Lossless) →
      (DcmJpegCodec.Encode engineJpeg formatRatio self oldPixelData newPixelData
          parametersJpeg).newPixelData.LossyCompressionRatio
        = formatRatio (oldPixelData.GetFrameSize 0)
            ((DcmJpegCodec.Encode engineJpeg formatRatio self oldPixelData newPixelData
              parametersJpeg).newPixelData.GetFrameSize 0)) ∧
    ((DcmJpegLsCodec.Encode engineLs formatRatio transferSyntax oldPixelData newPixelData
          parametersLs).thrown = none →
      newPixelData.TransferSyntax = .JPEGLSNearLossless →
      (DcmJpegLsCodec.Encode engineLs formatRatio transferSyntax oldPixelData newPixelData
          parametersLs).newPixelData.LossyCompressionRatio
        = formatRatio (oldPixelData.GetFrameSize 0)
            ((DcmJpegLsCodec.Encode engineLs formatRatio transferSyntax oldPixelData
              newPixelData parametersLs).newPixelData.GetFrameSize 0)) ∧
    (∀ oldSize newSize : Nat, 0 < oldSize → 0 < newSize →
      ∃ t : Nat, 2 * ((1000 * oldSize : Int) - t * newSize).natAbs ≤ newSize ∧
        (formatThreeDecimals oldSize newSize).data
          = (toString (t / 1000)).data ++ ['.', Nat.digitChar (t / 100 % 10),
              Nat.digitChar (t / 10 % 10), Nat.digitChar (t % 10)] ∧
        (toString (t / 1000)).data ≠ [] ∧
        (∀ c ∈ (toString (t / 1000)).data, c.isDigit = true) ∧
        (Nat.digitChar (t / 100 % 10)).isDigit = true ∧
        (Nat.digitChar (t / 10 % 10)).isDigit = true ∧
        (Nat.digitChar (t % 10)).isDigit = true) ∧
    formatThreeDecimals 65536 16384 = "4.000" := by
  refine ⟨?_, ?_, ?_, ?_, by decide⟩
  · intro hok hts
    obtain ⟨hthrown, hnew⟩ := DcmJpeg2000Codec.Encode_success_newPixelData engine2000
      formatRatio oldPixelData newPixelData parameters2000 hok
    have hf := DcmJpeg2000Codec.encodeFrames_fields engine2000 oldPixelData
      (parameters2000.getD {}) (List.range oldPixelData.NumberOfFrames) newPixelData []
    have hl := DcmJpeg2000Codec.encodeFrames_length engine2000 oldPixelData
      (parameters2000.getD {}) (List.range oldPixelData.NumberOfFrames) newPixelData [] hthrown
    rw [hnew]
    apply DcmJpeg2000Codec.encodeMetadata_ratio
    · rw [hf]; exact hts
    · have hpos : 0 < newPixelData.Frames.length
          + (List.range oldPixelData.NumberOfFrames).length := by
        rw [List.length_range]; omega
      rw [← hl] at hpos
      exact hpos
  · intro hok hmode
    obtain ⟨codec, -, hcodec, nd, hnd⟩ := DcmJpegCodec.Encode_success_newPixelData_jpeg
      engineJpeg formatRatio self oldPixelData newPixelData parametersJpeg hframes hok
    rw [hnd]
    exact DcmJpegCodec.encodeMetadata_ratio_jpeg formatRatio codec oldPixelData nd
      (hmode codec hcodec)
  · intro hok hts
    obtain ⟨hthrown, hnew⟩ := DcmJpegLsCodec.Encode_success_newPixelData_jls engineLs
      formatRatio transferSyntax oldPixelData newPixelData parametersLs hok
    have hf := DcmJpegLsCodec.encodeFrames_fields_jls engineLs oldPixelData
      (DcmJpegLsCodec.encodeParameters transferSyntax oldPixelData (parametersLs.getD {}))
      (List.range oldPixelData.NumberOfFrames)
      (if transferSyntax = .JPEGLSNearLossless then { newPixelData with IsLossy := true }
        else newPixelData) []
    have hl := DcmJpegLsCodec.encodeFrames_length_jls engineLs oldPixelData
      (DcmJpegLsCodec.encodeParameters transferSyntax oldPixelData (parametersLs.getD {}))
      (List.range oldPixelData.NumberOfFrames)
      (if transferSyntax = .JPEGLSNearLossless then { newPixelData with IsLossy := true }
        else newPixelData) [] hthrown
    rw [hnew]
    apply DcmJpegLsCodec.encodeMetadata_ratio_jls
    · rw [hf]
      split_ifs <;> exact hts
    · have hpos : 0 < (if transferSyntax = .JPEGLSNearLossless then
            { newPixelData with IsLossy := true } else newPixelData).Frames.length
          + (List.range oldPixelData.NumberOfFrames).length := by
        rw [List.length_range]; omega
      rw [← hl] at hpos
      exact hpos
  · intro oldSize newSize _ hnew
    obtain ⟨t, hval, hdata⟩ := formatThreeDecimals_spec oldSize newSize hnew
    exact ⟨t, hval, hdata, toString_ne_nil _, toString_isDigit _,
      digitChar_isDigit _ (Nat.mod_lt _ (by decide)),
      digitChar_isDigit _ (Nat.mod_lt _ (by decide)),
      digitChar_isDigit _ (Nat.mod_lt _ (by decide))⟩

/-- C16 at a concrete input: the wavelet codec encoding a source frame of 4 bytes to the
lossy transfer syntax, with an engine that returns one byte, stores the ratio "4.000". -/
theorem lossy_compression_ratio_witness :
    0 < padded16.NumberOfFrames ∧ padded16.GetFrameSize 0 = 4 ∧
    (DcmJpeg2000Codec.Encode sampleOpenJpeg formatThreeDecimals padded16
        { padded16 with TransferSyntax := .JPEG2000Lossy, Frames := [] }
        none).newPixelData.GetFrameSize 0 = 1 ∧
    (DcmJpeg2000Codec.Encode sampleOpenJpeg formatThreeDecimals padded16
        { padded16 with TransferSyntax := .JPEG2000Lossy, Frames := [] }
        none).newPixelData.LossyCompressionRatio = "4.000" :=
  ⟨by decide, rfl, by decide,
   ((lossy_compression_ratio sampleOpenJpeg sampleCharLS sampleIjg formatThreeDecimals
      .JPEGLSNearLossless .DcmJpegProcess1Codec padded16
      { padded16 with TransferSyntax := .JPEG2000Lossy, Frames := [] } none none none
      (by decide)).1 (by decide) rfl).trans (by decide)⟩

/-- C17 (amended): Layered-rate table construction. The engine's default layer count is 0.
For every rate-level array L and requested rate R such that the copied entries of L and R are
of magnitude at most 2^24 (so that single precision holds them exactly) and the table below
has at most 100 entries (the size of the engine's table), the first layer-count entries of
the rate table that `Encode` passes to the wavelet engine are the longest prefix of L whose
entries are all greater than R, followed by R, followed by a final 0 when the destination's
transfer syntax is lossless and R is positive; the layer count is the length of that list. -/
theorem rate_table_construction (oldPixelData newPixelData : DcmPixelData)
    (jparams : DcmJpeg2000Parameters)
    (hexact : ∀ v ∈ jparams.RateLevels.takeWhile (fun level => decide (level > jparams.Rate))
        ++ [jparams.Rate], v.natAbs ≤ 2 ^ 24)
    (hfit : (jparams.RateLevels.takeWhile (fun level => decide (level > jparams.Rate))
        ++ [jparams.Rate]
        ++ (if newPixelData.TransferSyntax = DicomTransferSyntax.JPEG2000Lossless
              ∧ jparams.Rate > 0 then [0] else [])).length ≤ 100) :
    opj_set_default_encoder_parameters.tcp_numlayers = 0 ∧
    (DcmJpeg2000Codec.compressionParameters oldPixelData newPixelData jparams).tcp_rates.take
        (DcmJpeg2000Codec.compressionParameters oldPixelData newPixelData jparams).tcp_numlayers
      = jparams.RateLevels.takeWhile (fun level => decide (level > jparams.Rate))
        ++ [jparams.Rate]
        ++ (if newPixelData.TransferSyntax = DicomTransferSyntax.JPEG2000Lossless
              ∧ jparams.Rate > 0 then [0] else []) ∧
    (DcmJpeg2000Codec.compressionParameters oldPixelData newPixelData jparams).tcp_numlayers
      = (jparams.RateLevels.takeWhile (fun level => decide (level > jparams.Rate))
        ++ [jparams.Rate]
        ++ (if newPixelData.TransferSyntax = DicomTransferSyntax.JPEG2000Lossless
              ∧ jparams.Rate > 0 then [0] else [])).length := by
  obtain ⟨hn, hr⟩ :=
    DcmJpeg2000Codec.compressionParameters_layers oldPixelData newPixelData jparams hexact
  refine ⟨rfl, ?_, hn⟩
  rw [hr, List.take_of_length_le hfit]

/-- C17, the amended statement at concrete inputs: with the default ladder and R = 20 the
lossy table is 1280, 640, 320, 160, 80, 40, 20 and the lossless table is the same with 0
appended. -/
theorem rate_table_construction_witness :
    ((DcmJpeg2000Codec.compressionParameters rgb8
          { rgb8 with TransferSyntax := .JPEG2000Lossy } {}).tcp_rates.take
        (DcmJpeg2000Codec.compressionParameters rgb8
          { rgb8 with TransferSyntax := .JPEG2000Lossy } {}).tcp_numlayers
      = [1280, 640, 320, 160, 80, 40, 20]) ∧
    ((DcmJpeg2000Codec.compressionParameters rgb8 rgb8 {}).tcp_rates.take
        (DcmJpeg2000Codec.compressionParameters rgb8 rgb8 {}).tcp_numlayers
      = [1280, 640, 320, 160, 80, 40, 20, 0]) :=
  ⟨(rate_table_construction rgb8 { rgb8 with TransferSyntax := .JPEG2000Lossy } {}
      (by decide) (by decide)).2.1.trans (by decide),
   (rate_table_construction rgb8 rgb8 {} (by decide) (by decide)).2.1.trans (by decide)⟩

/-- C17 as stated fails: for the lossless transfer syntax, the default ladder and the
nonzero rate R = -1, `Encode` passes 10 layers, the ladder followed by -1, and no final 0
layer: the claimed table has 11 entries. -/
theorem rate_table_construction_counterexample :
    rgb8.TransferSyntax = .JPEG2000Lossless ∧ (-1 : Int) ≠ 0 ∧
    (DcmJpeg2000Codec.compressionParameters rgb8 rgb8 { Rate := -1 }).tcp_numlayers = 10 ∧
    (DcmJpeg2000Codec.compressionParameters rgb8 rgb8 { Rate := -1 }).tcp_rates.take 10
      = [1280, 640, 320, 160, 80, 40, 20, 10, 5, -1] ∧
    ({ Rate := -1 } : DcmJpeg2000Parameters).RateLevels.takeWhile
        (fun level => decide (level > -1)) ++ [-1] ++ [0]
      = [1280, 640, 320, 160, 80, 40, 20, 10, 5, -1, 0] ∧
    (DcmJpeg2000Codec.compressionParameters rgb8 rgb8 { Rate := -1 }).tcp_numlayers
      ≠ ([1280, 640, 320, 160, 80, 40, 20, 10, 5, -1, 0] : List Int).length := by
  decide

/-- C18 (amended): The layered-rate table is descending. For every strictly descending
rate-level array and every requested rate, all of magnitude at most 2^24 (so that single
precision holds them exactly) and such that the layers fit the engine's table of 100 entries
(the copied levels, the rate and, for the lossless transfer syntax and a positive rate, the
final 0 are at most 100 entries), the first layer-count entries of the rate table built by
the wavelet `Encode` are strictly descending, whatever the destination's transfer syntax
(lossy or lossless). -/
theorem rate_table_descending (oldPixelData newPixelData : DcmPixelData)
    (jparams : DcmJpeg2000Parameters)
    (hdesc : jparams.RateLevels.Pairwise (fun a b => a > b))
    (hlevels : ∀ v ∈ jparams.RateLevels, v.natAbs ≤ 2 ^ 24)
    (hrate : jparams.Rate.natAbs ≤ 2 ^ 24)
    (hfit : (jparams.RateLevels.takeWhile (fun level => decide (level > jparams.Rate))
        ++ [jparams.Rate]
        ++ (if newPixelData.TransferSyntax = DicomTransferSyntax.JPEG2000Lossless
              ∧ jparams.Rate > 0 then [0] else [])).length ≤ 100) :
    ((DcmJpeg2000Codec.compressionParameters oldPixelData newPixelData jparams).tcp_rates.take
        (DcmJpeg2000Codec.compressionParameters oldPixelData newPixelData jparams).tcp_numlayers
      ).Pairwise (fun a b => a > b) := by
  have hexact : ∀ v ∈ jparams.RateLevels.takeWhile (fun level => decide (level > jparams.Rate))
      ++ [jparams.Rate], v.natAbs ≤ 2 ^ 24 := by
    intro v hv
    rcases List.mem_append.1 hv with h | h
    · exact hlevels v ((List.takeWhile_sublist _).subset h)
    · rw [List.mem_singleton.1 h]
      exact hrate
  rw [(DcmJpeg2000Codec.compressionParameters_layers oldPixelData newPixelData jparams
    hexact).2, List.take_of_length_le hfit]
  rw [List.append_assoc, List.pairwise_append]
  refine ⟨List.Pairwise.sublist (List.takeWhile_sublist _) hdesc, ?_, ?_⟩
  · split_ifs with hz
    · simp only [List.singleton_append, List.pairwise_cons, List.mem_singleton, forall_eq,
        List.Pairwise.nil, and_true, List.not_mem_nil, false_implies, implies_true]
      exact hz.2
    · simp only [List.append_nil, List.pairwise_cons, List.not_mem_nil, false_implies,
        implies_true, List.Pairwise.nil, and_self]
  · intro a ha b hb
    have har : a > jparams.Rate := of_decide_eq_true
      (@List.mem_takeWhile_imp _ (fun level => decide (level > jparams.Rate)) _ _ ha)
    split_ifs at hb with hz
    · simp only [List.singleton_append, List.mem_cons, List.mem_singleton, List.not_mem_nil,
        or_false] at hb
      rcases hb with rfl | rfl
      · exact har
      · exact lt_trans hz.2 har
    · simp only [List.append_nil, List.mem_singleton] at hb
      rw [hb]
      exact har

/-- C18, the amended statement at a concrete input: the default ladder 1280, 640, ..., 5 is
strictly descending, and so is the table built from it for the lossless transfer syntax. -/
theorem rate_table_descending_witness :
    ({} : DcmJpeg2000Parameters).RateLevels = [1280, 640, 320, 160, 80, 40, 20, 10, 5] ∧
    ((DcmJpeg2000Codec.compressionParameters rgb8 rgb8 {}).tcp_rates.take
        (DcmJpeg2000Codec.compressionParameters rgb8 rgb8 {}).tcp_numlayers
      ).Pairwise (fun a b => a > b) :=
  ⟨rfl, rate_table_descending rgb8 rgb8 {} (by decide) (by decide) (by decide) (by decide)⟩

/-- C18 as stated fails: the one-entry ladder 16777217 is strictly descending, and with the
requested rate 16777216 the loop copies it; single precision holds 16777217 as 16777216, so
the two layers of the table are both 16777216. -/
theorem rate_table_descending_counterexample :
    ([16777217] : List Int).Pairwise (fun a b => a > b) ∧
    (16777217 : Int) > 16777216 ∧ castFloat 16777217 = 16777216 ∧
    (DcmJpeg2000Codec.compressionParameters rgb8 { rgb8 with TransferSyntax := .JPEG2000Lossy }
        { Rate := 16777216, RateLevels := [16777217] }).tcp_numlayers = 2 ∧
    (DcmJpeg2000Codec.compressionParameters rgb8 { rgb8 with TransferSyntax := .JPEG2000Lossy }
        { Rate := 16777216, RateLevels := [16777217] }).tcp_rates.take 2
      = [16777216, 16777216] ∧
    ¬ ((DcmJpeg2000Codec.compressionParameters rgb8
          { rgb8 with TransferSyntax := .JPEG2000Lossy }
          { Rate := 16777216, RateLevels := [16777217] }).tcp_rates.take 2
        ).Pairwise (fun a b => a > b) := by
  decide

/-- C19: Colour-space tag. `getOpenJpegColorSpace` returns sRGB for RGB; grayscale for
MONOCHROME1, MONOCHROME2 and PALETTE COLOR; the YCbCr tag for YBR_FULL, YBR_FULL_422 and
YBR_PARTIAL_422; and unknown for exactly the strings that are none of these seven. -/
theorem getOpenJpegColorSpace_values :
    getOpenJpegColorSpace "RGB" = .CLRSPC_SRGB ∧
    getOpenJpegColorSpace "MONOCHROME1" = .CLRSPC_GRAY ∧
    getOpenJpegColorSpace "MONOCHROME2" = .CLRSPC_GRAY ∧
    getOpenJpegColorSpace "PALETTE COLOR" = .CLRSPC_GRAY ∧
    getOpenJpegColorSpace "YBR_FULL" = .CLRSPC_SYCC ∧
    getOpenJpegColorSpace "YBR_FULL_422" = .CLRSPC_SYCC ∧
    getOpenJpegColorSpace "YBR_PARTIAL_422" = .CLRSPC_SYCC ∧
    ∀ photometricInterpretation : String,
      getOpenJpegColorSpace photometricInterpretation = .CLRSPC_UNKNOWN ↔
        photometricInterpretation ∉ ["RGB", "MONOCHROME1", "MONOCHROME2", "PALETTE COLOR",
          "YBR_FULL", "YBR_FULL_422", "YBR_PARTIAL_422"] := by
  refine ⟨by decide, by decide, by decide, by decide, by decide, by decide, by decide, ?_⟩
  intro s
  unfold getOpenJpegColorSpace
  simp only [List.mem_cons, List.mem_singleton, List.not_mem_nil, or_false, not_or]
  split_ifs <;> simp only [reduceCtorEq, false_iff, true_iff, not_and, not_not] <;> tauto

/-- C20 (amended): Predictive-coder parameter record. For every source whose stride product
bytes-allocated * width * samples-per-pixel is below 2^31, every codec transfer syntax and
parameter set, the record `Encode` builds has stride = bytes-allocated * width *
samples-per-pixel, component count = samples-per-pixel and bits-per-sample = bits-stored; its
interleave mode is the configured one when samples-per-pixel = 3 and none (0) otherwise; its
colour transform is the configured one when samples-per-pixel = 3 and the photometric
interpretation is RGB, and none (0) otherwise; its allowed error is the configured value
when the codec's transfer syntax is near-lossless and 0 otherwise. This record is the only
one the engine is called with: `Encode` returns the same with an engine that fails on every
other record. -/
theorem encodeParameters_fields (engine : CharLS) (formatRatio : Nat → Nat → String)
    (transferSyntax : DicomTransferSyntax) (oldPixelData newPixelData : DcmPixelData)
    (parameters : Option DcmJpegLsParameters)
    (hstride : oldPixelData.BytesAllocated * oldPixelData.ImageWidth
      * oldPixelData.SamplesPerPixel < 2 ^ 31) :
    ((DcmJpegLsCodec.encodeParameters transferSyntax oldPixelData (parameters.getD {})).bytesperline
        = oldPixelData.BytesAllocated * oldPixelData.ImageWidth * oldPixelData.SamplesPerPixel ∧
      (DcmJpegLsCodec.encodeParameters transferSyntax oldPixelData (parameters.getD {})).components
        = oldPixelData.SamplesPerPixel ∧
      (DcmJpegLsCodec.encodeParameters transferSyntax oldPixelData (parameters.getD {})).bitspersample
        = oldPixelData.BitsStored ∧
      (DcmJpegLsCodec.encodeParameters transferSyntax oldPixelData (parameters.getD {})).ilv
        = (if oldPixelData.SamplesPerPixel = 3 then (parameters.getD {}).InterleaveMode.toInt
           else 0) ∧
      (DcmJpegLsCodec.encodeParameters transferSyntax oldPixelData (parameters.getD {})).colorTransform
        = (if oldPixelData.SamplesPerPixel = 3 ∧ oldPixelData.PhotometricInterpretation = "RGB"
           then (parameters.getD {}).ColorTransform.toInt else 0) ∧
      (DcmJpegLsCodec.encodeParameters transferSyntax oldPixelData (parameters.getD {})).allowedlossyerror
        = (if transferSyntax = .JPEGLSNearLossless then (parameters.getD {}).AllowedError
           else 0)) ∧
    DcmJpegLsCodec.Encode engine formatRatio transferSyntax oldPixelData newPixelData parameters
      = DcmJpegLsCodec.Encode
          { engine with
            JpegLsEncode := fun frameArray params =>
              if params = DcmJpegLsCodec.encodeParameters transferSyntax oldPixelData
                  (parameters.getD {}) then
                engine.JpegLsEncode frameArray params
              else .error .InvalidJlsParameters }
          formatRatio transferSyntax oldPixelData newPixelData parameters := by
  constructor
  · have hw : wrapInt32 ((oldPixelData.BytesAllocated : Int) * oldPixelData.ImageWidth
        * oldPixelData.SamplesPerPixel)
          = (oldPixelData.BytesAllocated : Int) * oldPixelData.ImageWidth
            * oldPixelData.SamplesPerPixel :=
      wrapInt32_of_lt (by positivity) (by exact_mod_cast hstride)
    unfold DcmJpegLsCodec.encodeParameters
    simp only [hw]
    split_ifs <;> simp_all
  · unfold DcmJpegLsCodec.Encode
    simp only
    rw [DcmJpegLsCodec.encodeFrames_engine_congr engine
      { engine with
        JpegLsEncode := fun frameArray params =>
          if params = DcmJpegLsCodec.encodeParameters transferSyntax oldPixelData
              (parameters.getD {}) then
            engine.JpegLsEncode frameArray params
          else .error .InvalidJlsParameters }
      oldPixelData _ (fun frameArray => (if_pos rfl).symm)]

/-- C20, the amended statement at a concrete input: for an 8-bit colour source of width 2
the record of the near-lossless codec has stride 6, 3 components and the default allowed
error 3. -/
theorem encodeParameters_fields_witness :
    rgb8.BytesAllocated * rgb8.ImageWidth * rgb8.SamplesPerPixel = 6 ∧
    (DcmJpegLsCodec.encodeParameters .JPEGLSNearLossless rgb8 {}).bytesperline = 6 ∧
    (DcmJpegLsCodec.encodeParameters .JPEGLSNearLossless rgb8 {}).components = 3 ∧
    (DcmJpegLsCodec.encodeParameters .JPEGLSNearLossless rgb8 {}).allowedlossyerror = 3 :=
  ⟨by decide,
   (encodeParameters_fields sampleCharLS (fun _ _ => "") .JPEGLSNearLossless rgb8 rgb8 none
      (by decide)).1.1.trans (by decide),
   (encodeParameters_fields sampleCharLS (fun _ _ => "") .JPEGLSNearLossless rgb8 rgb8 none
      (by decide)).1.2.1.trans (by decide),
   (encodeParameters_fields sampleCharLS (fun _ _ => "") .JPEGLSNearLossless rgb8 rgb8 none
      (by decide)).1.2.2.2.2.2.trans (by decide)⟩

/-- C20 as stated fails: the stride is a product of `int` values taken in `int` (line 91).
For bits-allocated 65535 (8192 bytes), width 65535 and 65535 samples per pixel the product
is 35183298355200, and the record holds its low 32 bits, -1073733632. -/
theorem encodeParameters_fields_counterexample :
    wideStride.BytesAllocated = 8192 ∧ wideStride.ImageWidth = 65535 ∧
    wideStride.SamplesPerPixel = 65535 ∧
    wideStride.BytesAllocated * wideStride.ImageWidth * wideStride.SamplesPerPixel
      = 35183298355200 ∧
    (DcmJpegLsCodec.encodeParameters .JPEGLSLossless wideStride {}).bytesperline
      = -1073733632 ∧
    (DcmJpegLsCodec.encodeParameters .JPEGLSLossless wideStride {}).bytesperline
      ≠ ((wideStride.BytesAllocated * wideStride.ImageWidth * wideStride.SamplesPerPixel : Nat)
          : Int) := by
  decide

/-- C21: Frames are transcoded in order, one for one. For each of the six frame loops
(`Encode` and `Decode` of the wavelet, predictive and DCT drivers) and every call that does
not throw, the destination's frame list is the one before the call followed by exactly as
many frames as the source has; the source frames were read in the order 0, 1, ...,
frameCount-1; and the i-th appended frame is the result of the loop body for source frame i:
the engine's result for that frame (for the wavelet codec after marshalling), where the
decoders of the wavelet and predictive codecs fill the one buffer of the call, which frame i
finds as frame i-1 left it (cleared for frame 0), and the DCT engine is handed the
destination with the i frames appended so far. -/
theorem frames_transcoded_in_order (engine2000 : OpenJpeg) (engineLs : CharLS)
    (engineJpeg : Ijg) (formatRatio : Nat → Nat → String)
    (transferSyntax : DicomTransferSyntax) (self : DcmJpegCodec)
    (oldPixelData newPixelData : DcmPixelData)
    (parameters2000 : Option DcmJpeg2000Parameters)
    (parametersLs : Option DcmJpegLsParameters)
    (parametersJpeg : Option DcmCodecParameters) :
    ((DcmJpeg2000Codec.Encode engine2000 formatRatio oldPixelData newPixelData
        parameters2000).thrown = none →
      ∃ outs : List (List Nat), outs.length = oldPixelData.NumberOfFrames ∧
        (DcmJpeg2000Codec.Encode engine2000 formatRatio oldPixelData newPixelData
            parameters2000).newPixelData.Frames = newPixelData.Frames ++ outs ∧
        (DcmJpeg2000Codec.Encode engine2000 formatRatio oldPixelData newPixelData
            parameters2000).framesRead = List.range oldPixelData.NumberOfFrames ∧
        ∀ i, i < oldPixelData.NumberOfFrames →
          DcmJpeg2000Codec.encodeFrame engine2000 oldPixelData (parameters2000.getD {})
            newPixelData i = .ok (outs.getD i [])) ∧
    ((DcmJpeg2000Codec.Decode engine2000 oldPixelData newPixelData).thrown = none →
      ∃ outs : List (List Nat), outs.length = oldPixelData.NumberOfFrames ∧
        (DcmJpeg2000Codec.Decode engine2000 oldPixelData newPixelData).newPixelData.Frames
          = newPixelData.Frames ++ outs ∧
        (DcmJpeg2000Codec.Decode engine2000 oldPixelData newPixelData).framesRead
          = List.range oldPixelData.NumberOfFrames ∧
        ∀ i, i < oldPixelData.NumberOfFrames →
          DcmJpeg2000Codec.decodeFrame engine2000 oldPixelData
            (oldPixelData.ImageHeight * oldPixelData.ImageWidth)
            (DcmJpeg2000Codec.decodeMetadata newPixelData)
            ((List.replicate oldPixelData.UncompressedFrameSize 0 :: outs).getD i []) i
            = .ok (outs.getD i [])) ∧
    ((DcmJpegLsCodec.Encode engineLs formatRatio transferSyntax oldPixelData newPixelData
        parametersLs).thrown = none →
      ∃ outs : List (List Nat), outs.length = oldPixelData.NumberOfFrames ∧
        (DcmJpegLsCodec.Encode engineLs formatRatio transferSyntax oldPixelData newPixelData
            parametersLs).newPixelData.Frames = newPixelData.Frames ++ outs ∧
        (DcmJpegLsCodec.Encode engineLs formatRatio transferSyntax oldPixelData newPixelData
            parametersLs).framesRead = List.range oldPixelData.NumberOfFrames ∧
        ∀ i, i < oldPixelData.NumberOfFrames →
          engineLs.JpegLsEncode (oldPixelData.GetFrameDataU8 i)
              (DcmJpegLsCodec.encodeParameters transferSyntax oldPixelData
                (parametersLs.getD {}))
            = .ok (outs.getD i [])) ∧
    ((DcmJpegLsCodec.Decode engineLs oldPixelData newPixelData).thrown = none →
      ∃ outs : List (List Nat), outs.length = oldPixelData.NumberOfFrames ∧
        (DcmJpegLsCodec.Decode engineLs oldPixelData newPixelData).newPixelData.Frames
          = newPixelData.Frames ++ outs ∧
        (DcmJpegLsCodec.Decode engineLs oldPixelData newPixelData).framesRead
          = List.range oldPixelData.NumberOfFrames ∧
        ∀ i, i < oldPixelData.NumberOfFrames →
          engineLs.JpegLsDecode
              ((List.replicate oldPixelData.UncompressedFrameSize 0 :: outs).getD i [])
              (oldPixelData.GetFrameDataU8 i)
            = .ok (outs.getD i [])) ∧
    ((DcmJpegCodec.Encode engineJpeg formatRatio self oldPixelData newPixelData
        parametersJpeg).thrown = none →
      ∃ outs : List (List Nat), outs.length = oldPixelData.NumberOfFrames ∧
        (DcmJpegCodec.Encode engineJpeg formatRatio self oldPixelData newPixelData
            parametersJpeg).newPixelData.Frames = newPixelData.Frames ++ outs ∧
        (DcmJpegCodec.Encode engineJpeg formatRatio self oldPixelData newPixelData
            parametersJpeg).framesRead = List.range oldPixelData.NumberOfFrames ∧
        ∀ i, i < oldPixelData.NumberOfFrames →
          ∃ codec, (DcmJpegCodec.Encode engineJpeg formatRatio self oldPixelData newPixelData
              parametersJpeg).codec = some codec ∧
            engineJpeg.Encode codec oldPixelData
                { (if oldPixelData.BitsAllocated = 16 ∧ oldPixelData.BitsStored ≤ 8 then
                    { newPixelData with BitsAllocated := 8 } else newPixelData) with
                  Frames := newPixelData.Frames ++ outs.take i }
                (DcmJpegCodec.selectParameters parametersJpeg) i
              = .ok (outs.getD i [])) ∧
    ((DcmJpegCodec.Decode engineJpeg self oldPixelData newPixelData
        parametersJpeg).thrown = none →
      ∃ outs : List (List Nat), outs.length = oldPixelData.NumberOfFrames ∧
        (DcmJpegCodec.Decode engineJpeg self oldPixelData newPixelData
            parametersJpeg).newPixelData.Frames = newPixelData.Frames ++ outs ∧
        (DcmJpegCodec.Decode engineJpeg self oldPixelData newPixelData
            parametersJpeg).framesRead = List.range oldPixelData.NumberOfFrames ∧
        ∀ i, i < oldPixelData.NumberOfFrames →
          ∃ codec, (DcmJpegCodec.Decode engineJpeg self oldPixelData newPixelData
              parametersJpeg).codec = some codec ∧
            engineJpeg.Decode codec oldPixelData
                { (DcmJpegCodec.Decode engineJpeg self oldPixelData newPixelData
                    parametersJpeg).newPixelData with
                  Frames := newPixelData.Frames ++ outs.take i }
                (DcmJpegCodec.selectParameters parametersJpeg) i
              = .ok (outs.getD i [])) := by
  refine ⟨?_, ?_, ?_, ?_, ?_, ?_⟩
  · exact DcmJpeg2000Codec.Encode_frames_in_order engine2000 formatRatio oldPixelData
      newPixelData parameters2000
  · exact DcmJpeg2000Codec.Decode_frames_in_order engine2000 oldPixelData newPixelData
  · exact DcmJpegLsCodec.Encode_frames_in_order_jls engineLs formatRatio transferSyntax
      oldPixelData newPixelData parametersLs
  · exact DcmJpegLsCodec.Decode_frames_in_order_jls engineLs oldPixelData newPixelData
  · exact DcmJpegCodec.Encode_frames_in_order_jpeg engineJpeg formatRatio self oldPixelData
      newPixelData parametersJpeg
  · exact DcmJpegCodec.Decode_frames_in_order_jpeg engineJpeg self oldPixelData newPixelData
      parametersJpeg

/-- C23: Predictor and point transform are fixed when the binding is constructed. For every
parameter set and every `bits` for which `GetCodec` returns a binding, the Process 14 SV1
binding has predictor 1 whatever the configured predictor, the Process 14 binding has the
configured predictor, both have the configured point transform, and the Process 1 and
Process 2/4 bindings have predictor 0 and point transform 0. -/
theorem GetCodec_predictor_point_transform (self : DcmJpegCodec) (bits : Int)
    (jparams : DcmJpegParameters) (codec : IJpegCodec)
    (hcodec : self.GetCodec bits jparams = .ok codec) :
    codec.Predictor
      = (match self with
         | .DcmJpegProcess1Codec => 0
         | .DcmJpegProcess4Codec => 0
         | .DcmJpegLossless14Codec => jparams.Predictor
         | .DcmJpegLossless14SV1Codec => 1) ∧
    codec.PointTransform
      = (match self with
         | .DcmJpegProcess1Codec => 0
         | .DcmJpegProcess4Codec => 0
         | .DcmJpegLossless14Codec => jparams.PointTransform
         | .DcmJpegLossless14SV1Codec => jparams.PointTransform) := by
  cases self <;> simp only [DcmJpegCodec.GetCodec] at hcodec <;> split_ifs at hcodec <;>
    cases hcodec <;> exact ⟨rfl, rfl⟩

/-- C23 at a concrete input: with predictor 7 and point transform 3 configured, the
Process 14 SV1 binding for 12 bits has predictor 1 and point transform 3. -/
theorem GetCodec_predictor_point_transform_witness :
    DcmJpegCodec.DcmJpegLossless14SV1Codec.GetCodec 12 { Predictor := 7, PointTransform := 3 }
      = .ok (.Jpeg12Codec .Lossless 1 3) ∧
    (IJpegCodec.Jpeg12Codec .Lossless 1 3).Predictor = 1 ∧
    (IJpegCodec.Jpeg12Codec .Lossless 1 3).PointTransform = 3 :=
  ⟨rfl, GetCodec_predictor_point_transform .DcmJpegLossless14SV1Codec 12
    { Predictor := 7, PointTransform := 3 } (.Jpeg12Codec .Lossless 1 3) rfl⟩

/-- C24: Lossless transfer syntaxes never record lossy compression. For every `Encode` call,
throwing or not, of the wavelet codec into a destination with the lossless transfer syntax,
of the predictive codec with the lossless transfer syntax (codec and destination), and of
the DCT codec for Process 14 or Process 14 SV1, the destination's lossy flag,
lossy-compression method and lossy-compression ratio are after the call what they were
before it. -/
theorem lossless_never_records_lossy (engine2000 : OpenJpeg) (engineLs : CharLS)
    (engineJpeg : Ijg) (formatRatio : Nat → Nat → String) (self : DcmJpegCodec)
    (oldPixelData newPixelData : DcmPixelData)
    (parameters2000 : Option DcmJpeg2000Parameters)
    (parametersLs : Option DcmJpegLsParameters)
    (parametersJpeg : Option DcmCodecParameters) :
    (newPixelData.TransferSyntax = .JPEG2000Lossless →
      (DcmJpeg2000Codec.Encode engine2000 formatRatio oldPixelData newPixelData
          parameters2000).newPixelData.IsLossy = newPixelData.IsLossy ∧
      (DcmJpeg2000Codec.Encode engine2000 formatRatio oldPixelData newPixelData
          parameters2000).newPixelData.LossyCompressionMethod
        = newPixelData.LossyCompressionMethod ∧
      (DcmJpeg2000Codec.Encode engine2000 formatRatio oldPixelData newPixelData
          parameters2000).newPixelData.LossyCompressionRatio
        = newPixelData.LossyCompressionRatio) ∧
    (newPixelData.TransferSyntax = .JPEGLSLossless →
      (DcmJpegLsCodec.Encode engineLs formatRatio .JPEGLSLossless oldPixelData newPixelData
          parametersLs).newPixelData.IsLossy = newPixelData.IsLossy ∧
      (DcmJpegLsCodec.Encode engineLs formatRatio .JPEGLSLossless oldPixelData newPixelData
          parametersLs).newPixelData.LossyCompressionMethod
        = newPixelData.LossyCompressionMethod ∧
      (DcmJpegLsCodec.Encode engineLs formatRatio .JPEGLSLossless oldPixelData newPixelData
          parametersLs).newPixelData.LossyCompressionRatio
        = newPixelData.LossyCompressionRatio) ∧
    (self = .DcmJpegLossless14Codec ∨ self = .DcmJpegLossless14SV1Codec →
      (DcmJpegCodec.Encode engineJpeg formatRatio self oldPixelData newPixelData
          parametersJpeg).newPixelData.IsLossy = newPixelData.IsLossy ∧
      (DcmJpegCodec.Encode engineJpeg formatRatio self oldPixelData newPixelData
          parametersJpeg).newPixelData.LossyCompressionMethod
        = newPixelData.LossyCompressionMethod ∧
      (DcmJpegCodec.Encode engineJpeg formatRatio self oldPixelData newPixelData
          parametersJpeg).newPixelData.LossyCompressionRatio
        = newPixelData.LossyCompressionRatio) := by
  refine ⟨?_, ?_, ?_⟩
  · intro hts
    have hf := DcmJpeg2000Codec.encodeFrames_fields engine2000 oldPixelData
      (parameters2000.getD {}) (List.range oldPixelData.NumberOfFrames) newPixelData []
    have hne : (DcmJpeg2000Codec.encodeFrames engine2000 oldPixelData (parameters2000.getD {})
        (List.range oldPixelData.NumberOfFrames) newPixelData []).newPixelData.TransferSyntax
          ≠ .JPEG2000Lossy := by
      rw [hf]
      simp only [hts, ne_eq, reduceCtorEq, not_false_eq_true]
    have hm := DcmJpeg2000Codec.encodeMetadata_not_lossy formatRatio oldPixelData _
      (parameters2000.getD {}) hne
    unfold DcmJpeg2000Codec.Encode
    by_cases hpi : oldPixelData.PhotometricInterpretation = "YBR_FULL_422"
        ∨ oldPixelData.PhotometricInterpretation = "YBR_PARTIAL_422"
        ∨ oldPixelData.PhotometricInterpretation = "YBR_PARTIAL_420"
    · rw [if_pos hpi]
      exact ⟨rfl, rfl, rfl⟩
    · rw [if_neg hpi]
      simp only
      cases hthrown : (DcmJpeg2000Codec.encodeFrames engine2000 oldPixelData
          (parameters2000.getD {}) (List.range oldPixelData.NumberOfFrames)
          newPixelData []).thrown with
      | some e =>
        simp only
        rw [hf]
        exact ⟨rfl, rfl, rfl⟩
      | none =>
        simp only
        rw [hm.1, hm.2.1, hm.2.2, hf]
        exact ⟨rfl, rfl, rfl⟩
  · intro hts
    have hl : (DicomTransferSyntax.JPEGLSLossless = .JPEGLSNearLossless) = False := by
      simp only [reduceCtorEq]
    have hf := DcmJpegLsCodec.encodeFrames_fields_jls engineLs oldPixelData
      (DcmJpegLsCodec.encodeParameters .JPEGLSLossless oldPixelData (parametersLs.getD {}))
      (List.range oldPixelData.NumberOfFrames) newPixelData []
    unfold DcmJpegLsCodec.Encode
    by_cases hpi : oldPixelData.PhotometricInterpretation = "YBR_FULL_422"
        ∨ oldPixelData.PhotometricInterpretation = "YBR_PARTIAL_422"
        ∨ oldPixelData.PhotometricInterpretation = "YBR_PARTIAL_420"
    · rw [if_pos hpi]
      exact ⟨rfl, rfl, rfl⟩
    · rw [if_neg hpi]
      simp only [hl, if_false]
      have hne : ¬ ((DcmJpegLsCodec.encodeFrames engineLs oldPixelData
          (DcmJpegLsCodec.encodeParameters .JPEGLSLossless oldPixelData (parametersLs.getD {}))
          (List.range oldPixelData.NumberOfFrames) newPixelData []).newPixelData.TransferSyntax
            = .JPEGLSNearLossless ∧
          (DcmJpegLsCodec.encodeFrames engineLs oldPixelData
          (DcmJpegLsCodec.encodeParameters .JPEGLSLossless oldPixelData (parametersLs.getD {}))
          (List.range oldPixelData.NumberOfFrames) newPixelData []).newPixelData.NumberOfFrames
            > 0) := by
        rw [hf]
        simp only [hts, reduceCtorEq, false_and, not_false_eq_true]
      cases hthrown : (DcmJpegLsCodec.encodeFrames engineLs oldPixelData
          (DcmJpegLsCodec.encodeParameters .JPEGLSLossless oldPixelData (parametersLs.getD {}))
          (List.range oldPixelData.NumberOfFrames) newPixelData []).thrown with
      | some e =>
        simp only
        rw [hf]
        exact ⟨rfl, rfl, rfl⟩
      | none =>
        simp only [DcmJpegLsCodec.encodeMetadata, if_neg hne]
        rw [hf]
        exact ⟨rfl, rfl, rfl⟩
  · intro hself
    unfold DcmJpegCodec.Encode
    by_cases h0 : oldPixelData.NumberOfFrames = 0
    · rw [if_pos h0]
      exact ⟨rfl, rfl, rfl⟩
    · rw [if_neg h0]
      simp only
      cases hc : self.GetCodec oldPixelData.BitsStored
          (DcmJpegCodec.selectParameters parametersJpeg) with
      | error e =>
        simp only
        split_ifs <;> exact ⟨rfl, rfl, rfl⟩
      | ok codec =>
        have hmode : codec.Mode = .Lossless :=
          DcmJpegCodec.GetCodec_lossless_mode self hself oldPixelData.BitsStored
            (DcmJpegCodec.selectParameters parametersJpeg) codec hc
        have hf := DcmJpegCodec.encodeFrames_fields_jpeg engineJpeg codec oldPixelData
          (DcmJpegCodec.selectParameters parametersJpeg)
          (List.range oldPixelData.NumberOfFrames)
          (if oldPixelData.BitsAllocated = 16 ∧ oldPixelData.BitsStored ≤ 8 then
            { newPixelData with BitsAllocated := 8 } else newPixelData) []
        have hm : ¬ codec.Mode ≠ .Lossless := by rw [hmode]; exact fun h => h rfl
        simp only
        split
        · rw [hf]
          split_ifs <;> exact ⟨rfl, rfl, rfl⟩
        · simp only [DcmJpegCodec.encodeMetadata, if_neg hm]
          rw [hf]
          split_ifs <;> exact ⟨rfl, rfl, rfl⟩

/-- C25: The photometric tag written by the wavelet `Encode` agrees with what the engine
was told. For every call that does not throw, the engine is only ever called with the
parameters `compressionParameters` (the call returns the same with an engine that fails on
every other parameter record); if the call changed the destination's photometric
interpretation then those parameters have the multi-component-transform flag set, and the new
value is YBR_ICT if and only if their irreversible flag is set and YBR_RCT if and only if it
is not; when the source is not RGB or the transform is not allowed, the photometric
interpretation is unchanged and the flag is not set. -/
theorem Encode_photometric_agrees_with_engine (engine : OpenJpeg)
    (formatRatio : Nat → Nat → String) (oldPixelData newPixelData : DcmPixelData)
    (parameters : Option DcmJpeg2000Parameters)
    (hok : (DcmJpeg2000Codec.Encode engine formatRatio oldPixelData newPixelData
      parameters).thrown = none) :
    DcmJpeg2000Codec.Encode engine formatRatio oldPixelData newPixelData parameters
      = DcmJpeg2000Codec.Encode
          { engine with
            opj_encode := fun eparams image =>
              if eparams = DcmJpeg2000Codec.compressionParameters oldPixelData newPixelData
                  (parameters.getD {}) then
                engine.opj_encode eparams image
              else none }
          formatRatio oldPixelData newPixelData parameters ∧
    ((DcmJpeg2000Codec.Encode engine formatRatio oldPixelData newPixelData
          parameters).newPixelData.PhotometricInterpretation
        ≠ newPixelData.PhotometricInterpretation →
      (DcmJpeg2000Codec.compressionParameters oldPixelData newPixelData
        (parameters.getD {})).tcp_mct = 1 ∧
      ((DcmJpeg2000Codec.Encode engine formatRatio oldPixelData newPixelData
          parameters).newPixelData.PhotometricInterpretation = "YBR_ICT" ↔
        (DcmJpeg2000Codec.compressionParameters oldPixelData newPixelData
          (parameters.getD {})).irreversible = 1) ∧
      ((DcmJpeg2000Codec.Encode engine formatRatio oldPixelData newPixelData
          parameters).newPixelData.PhotometricInterpretation = "YBR_RCT" ↔
        (DcmJpeg2000Codec.compressionParameters oldPixelData newPixelData
          (parameters.getD {})).irreversible = 0)) ∧
    (¬ (oldPixelData.PhotometricInterpretation = "RGB" ∧ (parameters.getD {}).AllowMCT = true) →
      (DcmJpeg2000Codec.Encode engine formatRatio oldPixelData newPixelData
          parameters).newPixelData.PhotometricInterpretation
        = newPixelData.PhotometricInterpretation ∧
      (DcmJpeg2000Codec.compressionParameters oldPixelData newPixelData
        (parameters.getD {})).tcp_mct = 0) := by
  obtain ⟨_, hnew⟩ := DcmJpeg2000Codec.Encode_success_newPixelData engine formatRatio
    oldPixelData newPixelData parameters hok
  have hf := DcmJpeg2000Codec.encodeFrames_fields engine oldPixelData (parameters.getD {})
    (List.range oldPixelData.NumberOfFrames) newPixelData []
  have hpi : (DcmJpeg2000Codec.Encode engine formatRatio oldPixelData newPixelData
      parameters).newPixelData.PhotometricInterpretation
      = (if oldPixelData.PhotometricInterpretation = "RGB" ∧ (parameters.getD {}).AllowMCT = true
            ∧ (parameters.getD {}).UpdatePhotometricInterpretation = true then
           (if newPixelData.TransferSyntax = DicomTransferSyntax.JPEG2000Lossy
              ∧ (parameters.getD {}).Irreversible = true then "YBR_ICT" else "YBR_RCT")
         else newPixelData.PhotometricInterpretation) := by
    rw [hnew, DcmJpeg2000Codec.encodeMetadata_PhotometricInterpretation, hf]
  obtain ⟨hmct, hirr⟩ := DcmJpeg2000Codec.compressionParameters_flags oldPixelData newPixelData
    (parameters.getD {})
  have hne : ("YBR_ICT" : String) ≠ "YBR_RCT" := by decide
  refine ⟨?_, ?_, ?_⟩
  · unfold DcmJpeg2000Codec.Encode
    split_ifs
    · rfl
    · simp only
      rw [DcmJpeg2000Codec.encodeFrames_engine_congr_j2k engine
        { engine with
          opj_encode := fun eparams image =>
            if eparams = DcmJpeg2000Codec.compressionParameters oldPixelData newPixelData
                (parameters.getD {}) then
              engine.opj_encode eparams image
            else none }
        oldPixelData (parameters.getD {})
        (DcmJpeg2000Codec.compressionParameters oldPixelData newPixelData (parameters.getD {}))
        (fun image => (if_pos rfl).symm) _ _ _ rfl]
  · intro hchg
    rw [hpi] at hchg ⊢
    rw [hmct, hirr]
    by_cases hc : oldPixelData.PhotometricInterpretation = "RGB"
        ∧ (parameters.getD {}).AllowMCT = true
        ∧ (parameters.getD {}).UpdatePhotometricInterpretation = true
    · rw [if_pos hc]
      rw [if_pos ⟨hc.1, hc.2.1⟩]
      by_cases hl : newPixelData.TransferSyntax = DicomTransferSyntax.JPEG2000Lossy
          ∧ (parameters.getD {}).Irreversible = true
      · simp only [if_pos hl, true_and, true_iff, hne, false_iff]
        decide
      · simp only [if_neg hl, true_and, hne.symm, false_iff, true_iff]
        decide
    · rw [if_neg hc] at hchg
      exact absurd rfl hchg
  · intro hno
    rw [hpi, hmct, if_neg hno]
    have hc : ¬ (oldPixelData.PhotometricInterpretation = "RGB"
        ∧ (parameters.getD {}).AllowMCT = true
        ∧ (parameters.getD {}).UpdatePhotometricInterpretation = true) :=
      fun h => hno ⟨h.1, h.2.1⟩
    rw [if_neg hc]
    exact ⟨rfl, rfl⟩

/-- C25 at a concrete input: an RGB frame encoded to the lossy transfer syntax with the
default parameters is marked YBR_ICT, and the engine parameters have the irreversible flag and
the multi-component-transform flag set. -/
theorem Encode_photometric_agrees_with_engine_witness :
    (DcmJpeg2000Codec.Encode sampleOpenJpeg (fun _ _ => "") rgb8Frame
        { rgb8 with TransferSyntax := .JPEG2000Lossy } none).newPixelData.PhotometricInterpretation
      = "YBR_ICT" ∧
    (DcmJpeg2000Codec.compressionParameters rgb8Frame
        { rgb8 with TransferSyntax := .JPEG2000Lossy } {}).irreversible = 1 ∧
    (DcmJpeg2000Codec.compressionParameters rgb8Frame
        { rgb8 with TransferSyntax := .JPEG2000Lossy } {}).tcp_mct = 1 :=
  ⟨by decide,
   ((Encode_photometric_agrees_with_engine sampleOpenJpeg (fun _ _ => "") rgb8Frame
      { rgb8 with TransferSyntax := .JPEG2000Lossy } none (by decide)).2.1 (by decide)).2.1.1
      (by decide),
   ((Encode_photometric_agrees_with_engine sampleOpenJpeg (fun _ _ => "") rgb8Frame
      { rgb8 with TransferSyntax := .JPEG2000Lossy } none (by decide)).2.1 (by decide)).1⟩

/-- C26: Sample positions partition the frame. For every component count and pixel count,
in the planar and in the interleaved layout, the position visited for (component c, pixel p)
lies below N * pixelCount, two different pairs have different positions and every position
below N * pixelCount is visited. Hence, for storage of 1 or 2 bytes, the pack loop of
`Encode` reads sample p of component c at that position, inside a frame of N * pixelCount
samples, and the unpack loop of `Decode`, given a buffer that holds such a frame, writes
every sample of the frame, from the one (component, pixel) pair with that position, and
leaves the units past the frame alone. -/
theorem sample_positions_partition (pd : DcmPixelData) (pixelCount : Nat)
    (frameData destArray : List Nat) (image : opj_image_t)
    (hw : pd.BytesAllocated = 1 ∨ pd.BytesAllocated = 2)
    (hdest : pd.BytesAllocated * (image.numcomps * pixelCount) ≤ destArray.length) :
    (∀ (planar : Bool) (numcomps c p : Nat), c < numcomps → p < pixelCount →
      samplePos planar pixelCount numcomps c p < numcomps * pixelCount) ∧
    (∀ (planar : Bool) (numcomps c p c' p' : Nat), c < numcomps → p < pixelCount →
      c' < numcomps → p' < pixelCount →
      samplePos planar pixelCount numcomps c p = samplePos planar pixelCount numcomps c' p' →
      c = c' ∧ p = p') ∧
    (∀ (planar : Bool) (numcomps q : Nat), q < numcomps * pixelCount →
      ∃ c p, c < numcomps ∧ p < pixelCount ∧ samplePos planar pixelCount numcomps c p = q) ∧
    (∀ (numcomps c p : Nat) (comp : opj_image_comp_t), c < numcomps → p < pixelCount →
      ∃ comp', DcmJpeg2000Codec.encodeComponent pd frameData pixelCount numcomps c comp
          = .ok comp' ∧
        comp'.data[p]? = some (packValue pd comp.sgnd (storedUnit pd.BytesAllocated frameData
          (samplePos pd.IsPlanar pixelCount numcomps c p))) ∧
        samplePos pd.IsPlanar pixelCount numcomps c p < numcomps * pixelCount) ∧
    (∃ destArray', DcmJpeg2000Codec.decodeImage pd pixelCount image destArray = .ok destArray' ∧
      destArray'.length = destArray.length ∧
      (∀ q, q < image.numcomps * pixelCount →
        ∃ c p comp, c < image.numcomps ∧ p < pixelCount ∧
          samplePos pd.IsPlanar pixelCount image.numcomps c p = q ∧
          image.comps[c]? = some comp ∧
          unitBytes pd.BytesAllocated destArray' q
            = valueBytes pd.BytesAllocated (unpackValue pd comp.sgnd (comp.data.getD p 0))) ∧
      (∀ q, image.numcomps * pixelCount ≤ q →
        unitBytes pd.BytesAllocated destArray' q = unitBytes pd.BytesAllocated destArray q)) := by
  refine ⟨?_, ?_, ?_, ?_, ?_⟩
  · intro planar numcomps c p hc hp
    exact samplePos_lt planar hc hp
  · intro planar numcomps c p c' p' hc hp hc' hp' h
    exact samplePos_injective planar hc hc' hp hp' h
  · intro planar numcomps q hq
    obtain ⟨c, p, hc, hp, h⟩ := samplePos_surjective planar hq
    exact ⟨c, p, hc, hp, h.symm⟩
  · intro numcomps c p comp hc hp
    obtain ⟨comp', h1, -, -, h4⟩ := DcmJpeg2000Codec.encodeComponent_getElem? pd
      frameData pixelCount numcomps c comp hw p hp
    exact ⟨comp', h1, h4, samplePos_lt _ hc hp⟩
  · obtain ⟨d', hdec, hl, hv, ho⟩ :=
      DcmJpeg2000Codec.decodeComponents_spec pd pixelCount image.numcomps hw image.comps 0
        destArray (by simp only [opj_image_t.numcomps]; omega) hdest
    refine ⟨d', hdec, hl, ?_, ?_⟩
    · intro q hq
      obtain ⟨c, p, hc, hp, h⟩ := samplePos_surjective pd.IsPlanar hq
      have hlt : c < image.comps.length := hc
      have hval := hv c _ (List.getElem?_eq_getElem hlt) p hp
      rw [Nat.zero_add] at hval
      exact ⟨c, p, _, hc, hp, h.symm, List.getElem?_eq_getElem hlt, h ▸ hval⟩
    · intro q hq
      apply ho
      intro j hj p hp
      have := samplePos_lt pd.IsPlanar (show 0 + j < image.numcomps by
        simp only [opj_image_t.numcomps]; omega) hp
      omega

/-- C26 at a concrete input: three components of two pixels are unpacked into an
interleaved buffer of six bytes, each byte written from its own (component, pixel) pair. -/
theorem sample_positions_partition_witness :
    DcmJpeg2000Codec.decodeImage rgb8 2 sampleRgbImage [0, 0, 0, 0, 0, 0]
      = .ok [10, 20, 30, 11, 21, 31] ∧
    (∃ destArray', DcmJpeg2000Codec.decodeImage rgb8 2 sampleRgbImage [0, 0, 0, 0, 0, 0]
        = .ok destArray' ∧ destArray'.length = 6) :=
  ⟨rfl,
   (sample_positions_partition rgb8 2 [] [0, 0, 0, 0, 0, 0] sampleRgbImage (by decide)
      (by decide)).2.2.2.2.imp fun _ h => ⟨h.1, h.2.1⟩⟩

/-- C27: Encoding signed values as unsigned ignores the pixel representation. When
`EncodeSignedPixelValuesAsUnsigned` is set (the default), the image the wavelet `Encode`
hands to the engine for a frame buffer, and the result of the whole call, are the same for
every pixel representation of the source as for the unsigned one; and for storage of 1 or 2
bytes every component has the signed flag clear and holds, for each pixel, the stored unit at
its sample position as an unsigned value. -/
theorem encode_signed_as_unsigned (engine : OpenJpeg) (formatRatio : Nat → Nat → String)
    (oldPixelData newPixelData : DcmPixelData) (jparams : DcmJpeg2000Parameters)
    (eparams : opj_cparameters_t) (frameData : List Nat) (representation : Nat)
    (hflag : jparams.EncodeSignedPixelValuesAsUnsigned = true) :
    DcmJpeg2000Codec.encodeImage { oldPixelData with PixelRepresentation := representation }
        jparams eparams frameData
      = DcmJpeg2000Codec.encodeImage { oldPixelData with PixelRepresentation := 0 }
          jparams eparams frameData ∧
    DcmJpeg2000Codec.Encode engine formatRatio
        { oldPixelData with PixelRepresentation := representation } newPixelData (some jparams)
      = DcmJpeg2000Codec.Encode engine formatRatio
          { oldPixelData with PixelRepresentation := 0 } newPixelData (some jparams) ∧
    (oldPixelData.BytesAllocated = 1 ∨ oldPixelData.BytesAllocated = 2 →
      ∃ image, DcmJpeg2000Codec.encodeImage oldPixelData jparams eparams frameData = .ok image ∧
        image.comps.length = oldPixelData.SamplesPerPixel ∧
        ∀ (c : Nat) (comp : opj_image_comp_t), image.comps[c]? = some comp →
          comp.sgnd = 0 ∧
          ∀ p, p < oldPixelData.ImageHeight * oldPixelData.ImageWidth →
            comp.data[p]? = some
              (storedUnit oldPixelData.BytesAllocated frameData
                (samplePos oldPixelData.IsPlanar
                  (oldPixelData.ImageHeight * oldPixelData.ImageWidth)
                  oldPixelData.SamplesPerPixel c p) : Int)) := by
  have himg : ∀ (r : Nat) (ep : opj_cparameters_t) (fd : List Nat),
      DcmJpeg2000Codec.encodeImage { oldPixelData with PixelRepresentation := r } jparams ep fd
        = DcmJpeg2000Codec.encodeImage oldPixelData jparams ep fd :=
    fun r ep fd => DcmJpeg2000Codec.encodeImage_representation oldPixelData jparams ep fd r hflag
  have hfr : ∀ r : Nat,
      DcmJpeg2000Codec.Encode engine formatRatio
          { oldPixelData with PixelRepresentation := r } newPixelData (some jparams)
        = DcmJpeg2000Codec.Encode engine formatRatio oldPixelData newPixelData
            (some jparams) := by
    intro r
    unfold DcmJpeg2000Codec.Encode
    simp only [Option.getD_some]
    rw [DcmJpeg2000Codec.encodeFrames_congr_source engine
      { oldPixelData with PixelRepresentation := r } oldPixelData jparams
      (fun _ => rfl) (fun _ => rfl) (himg r)]
    rfl
  refine ⟨(himg _ _ _).trans (himg 0 _ _).symm, (hfr _).trans (hfr 0).symm, ?_⟩
  intro hw
  obtain ⟨comps', henc, hlen, hspec⟩ :=
    DcmJpeg2000Codec.encodeComponents_spec oldPixelData frameData
      (oldPixelData.ImageHeight * oldPixelData.ImageWidth) oldPixelData.SamplesPerPixel hw
      (opj_image_create (DcmJpeg2000Codec.componentParameters oldPixelData jparams eparams)
        (getOpenJpegColorSpace oldPixelData.PhotometricInterpretation)).comps 0
  have hcomps : (opj_image_create
      (DcmJpeg2000Codec.componentParameters oldPixelData jparams eparams)
      (getOpenJpegColorSpace oldPixelData.PhotometricInterpretation)).comps.length
        = oldPixelData.SamplesPerPixel := by
    simp only [opj_image_create, DcmJpeg2000Codec.componentParameters, List.length_map,
      List.length_replicate]
  have hsgnd : ∀ (c : Nat) (comp : opj_image_comp_t), (opj_image_create
      (DcmJpeg2000Codec.componentParameters oldPixelData jparams eparams)
      (getOpenJpegColorSpace oldPixelData.PhotometricInterpretation)).comps[c]? = some comp →
      comp.sgnd = 0 := by
    intro c comp hc
    simp only [opj_image_create, DcmJpeg2000Codec.componentParameters, hflag,
      Bool.true_eq_false, if_false, List.map_replicate] at hc
    have hmem := List.getElem?_mem hc
    rw [List.mem_replicate] at hmem
    rw [hmem.2]
  have himage : ∃ image,
      DcmJpeg2000Codec.encodeImage oldPixelData jparams eparams frameData = .ok image ∧
      image.comps = comps' := by
    unfold DcmJpeg2000Codec.encodeImage
    simp only [opj_image_t.numcomps, hcomps, henc]
    exact ⟨_, rfl, rfl⟩
  obtain ⟨image, himage, hic⟩ := himage
  refine ⟨image, himage, by rw [hic, hlen, hcomps], ?_⟩
  intro c comp hc
  rw [hic] at hc
  have hlt : c < comps'.length := (List.getElem?_eq_some_iff.1 hc).choose
  rw [hlen] at hlt
  obtain ⟨comp', hc', hs, -, hdata⟩ := hspec c _ (List.getElem?_eq_getElem hlt)
  rw [hc] at hc'
  cases hc'
  have h0 := hsgnd c _ (List.getElem?_eq_getElem hlt)
  refine ⟨hs.trans h0, ?_⟩
  intro p hp
  rw [hdata p hp, h0, packValue_unsigned, Nat.zero_add]

/-- C27 at a concrete input: a signed 12-bit source with the default parameters is packed as
the same source declared unsigned, the units 0x0FFF and 0x07FF as 4095 and 2047. -/
theorem encode_signed_as_unsigned_witness :
    DcmJpeg2000Codec.encodeImage signed12 {} opj_set_default_encoder_parameters
        [0xFF, 0x0F, 0xFF, 0x07]
      = DcmJpeg2000Codec.encodeImage { signed12 with PixelRepresentation := 0 } {}
          opj_set_default_encoder_parameters [0xFF, 0x0F, 0xFF, 0x07] ∧
    signed12.PixelRepresentation = 1 ∧
    (∃ image, DcmJpeg2000Codec.encodeImage signed12 {} opj_set_default_encoder_parameters
        [0xFF, 0x0F, 0xFF, 0x07] = .ok image ∧
      image.comps.map (fun comp => (comp.sgnd, comp.data)) = [(0, [4095, 2047])]) :=
  ⟨(encode_signed_as_unsigned sampleOpenJpeg (fun _ _ => "") signed12 signed12 {}
      opj_set_default_encoder_parameters [0xFF, 0x0F, 0xFF, 0x07] 1 rfl).1,
   rfl, ⟨_, rfl, by decide⟩⟩

/-- C28: What a failed codec selection leaves behind in the DCT driver. For every `Encode`
or `Decode` call on a source with at least one frame in which `GetCodec` fails, the call
throws the exception of `GetCodec`, no source frame has been handed to an engine, no frame
has been appended, and the destination differs from the one before the call in
bits-allocated at most. -/
theorem failed_codec_selection (engine : Ijg) (formatRatio : Nat → Nat → String)
    (self : DcmJpegCodec) (oldPixelData newPixelData : DcmPixelData)
    (parameters : Option DcmCodecParameters) (e : DicomCodecException)
    (hframes : 0 < oldPixelData.NumberOfFrames) :
    (self.GetCodec oldPixelData.BitsStored (DcmJpegCodec.selectParameters parameters)
        = .error e →
      (DcmJpegCodec.Encode engine formatRatio self oldPixelData newPixelData
          parameters).thrown = some e ∧
      (DcmJpegCodec.Encode engine formatRatio self oldPixelData newPixelData
          parameters).framesRead = [] ∧
      (DcmJpegCodec.Encode engine formatRatio self oldPixelData newPixelData
          parameters).newPixelData.Frames = newPixelData.Frames ∧
      (DcmJpegCodec.Encode engine formatRatio self oldPixelData newPixelData
          parameters).newPixelData
        = { newPixelData with
            BitsAllocated := (DcmJpegCodec.Encode engine formatRatio self oldPixelData
              newPixelData parameters).newPixelData.BitsAllocated }) ∧
    (self.GetCodec ((engine.ScanHeaderForBitDepth oldPixelData).getD oldPixelData.BitsStored)
        (DcmJpegCodec.selectParameters parameters) = .error e →
      (DcmJpegCodec.Decode engine self oldPixelData newPixelData parameters).thrown = some e ∧
      (DcmJpegCodec.Decode engine self oldPixelData newPixelData parameters).framesRead = [] ∧
      (DcmJpegCodec.Decode engine self oldPixelData newPixelData
          parameters).newPixelData.Frames = newPixelData.Frames ∧
      (DcmJpegCodec.Decode engine self oldPixelData newPixelData parameters).newPixelData
        = { newPixelData with
            BitsAllocated := (DcmJpegCodec.Decode engine self oldPixelData newPixelData
              parameters).newPixelData.BitsAllocated }) := by
  have hne : oldPixelData.NumberOfFrames ≠ 0 := by omega
  constructor
  · intro herr
    unfold DcmJpegCodec.Encode
    rw [if_neg hne]
    simp only [herr]
    split_ifs <;> simp only [and_self]
  · intro herr
    have key : ∀ P : Int, self.GetCodec P (DcmJpegCodec.selectParameters parameters) = .error e →
        ∀ r : JpegCallResult,
        r = (match self.GetCodec P (DcmJpegCodec.selectParameters parameters) with
          | .error e => (⟨some e,
              (if ((if newPixelData.BitsAllocated = 16 ∧ newPixelData.BitsStored ≤ 8 then
                    { newPixelData with BitsAllocated := 8 } else newPixelData).BitsStored : Int)
                    ≤ 8 ∧ P > 8 then
                { (if newPixelData.BitsAllocated = 16 ∧ newPixelData.BitsStored ≤ 8 then
                    { newPixelData with BitsAllocated := 8 } else newPixelData) with
                  BitsAllocated := 16 }
              else (if newPixelData.BitsAllocated = 16 ∧ newPixelData.BitsStored ≤ 8 then
                    { newPixelData with BitsAllocated := 8 } else newPixelData)), [], none⟩ :
                JpegCallResult)
          | .ok codec =>
            DcmJpegCodec.decodeFrames engine codec oldPixelData
              (DcmJpegCodec.selectParameters parameters)
              (List.range oldPixelData.NumberOfFrames)
              (if ((if newPixelData.BitsAllocated = 16 ∧ newPixelData.BitsStored ≤ 8 then
                    { newPixelData with BitsAllocated := 8 } else newPixelData).BitsStored : Int)
                    ≤ 8 ∧ P > 8 then
                { (if newPixelData.BitsAllocated = 16 ∧ newPixelData.BitsStored ≤ 8 then
                    { newPixelData with BitsAllocated := 8 } else newPixelData) with
                  BitsAllocated := 16 }
              else (if newPixelData.BitsAllocated = 16 ∧ newPixelData.BitsStored ≤ 8 then
                    { newPixelData with BitsAllocated := 8 } else newPixelData)) []) →
        r.thrown = some e ∧ r.framesRead = [] ∧ r.newPixelData.Frames = newPixelData.Frames ∧
          r.newPixelData = { newPixelData with BitsAllocated := r.newPixelData.BitsAllocated } := by
      intro P hP r hr
      rw [hP] at hr
      subst hr
      split_ifs <;> exact ⟨rfl, rfl, rfl, rfl⟩
    unfold DcmJpegCodec.Decode
    rw [if_neg hne]
    cases hscan : engine.ScanHeaderForBitDepth oldPixelData with
    | none =>
      rw [hscan] at herr
      exact key _ herr _ rfl
    | some p =>
      rw [hscan] at herr
      exact key p herr _ rfl

/-- C28 at a concrete input: the Process 2/4 codec cannot be selected for 8 bits stored;
`Encode` throws and leaves the destination as it was except for bits-allocated, narrowed from
16 to 8. -/
theorem failed_codec_selection_witness :
    (DcmJpegCodec.Encode sampleIjg (fun _ _ => "") .DcmJpegProcess4Codec padded16
        { padded16 with Frames := [] } none).thrown
      = some (.UnableToCreateCodec "Process 4" 8) ∧
    (DcmJpegCodec.Encode sampleIjg (fun _ _ => "") .DcmJpegProcess4Codec padded16
        { padded16 with Frames := [] } none).newPixelData
      = { padded16 with Frames := [], BitsAllocated := 8 } ∧
    padded16.BitsAllocated = 16 :=
  ⟨((failed_codec_selection sampleIjg (fun _ _ => "") .DcmJpegProcess4Codec padded16
      { padded16 with Frames := [] } none (.UnableToCreateCodec "Process 4" 8)
      (by decide)).1 rfl).1,
   by decide, rfl⟩

/-- C29, the code at a failing input: the predictive `Encode` of the near-lossless codec, on
a source and a destination without frames, does not throw and sets the destination's lossy
flag, while the lossy-compression method and ratio stay as they were (empty). -/
theorem Encode_sets_lossy_flag_alone :
    ({ signed8 with TransferSyntax := .JPEGLSNearLossless } : DcmPixelData).NumberOfFrames = 0 ∧
    ({ signed8 with TransferSyntax := .JPEGLSNearLossless } : DcmPixelData).IsLossy = false ∧
    (DcmJpegLsCodec.Encode sampleCharLS (fun _ _ => "4.000") .JPEGLSNearLossless signed8
        { signed8 with TransferSyntax := .JPEGLSNearLossless } none).thrown = none ∧
    (DcmJpegLsCodec.Encode sampleCharLS (fun _ _ => "4.000") .JPEGLSNearLossless signed8
        { signed8 with TransferSyntax := .JPEGLSNearLossless } none).newPixelData.IsLossy
      = true ∧
    (DcmJpegLsCodec.Encode sampleCharLS (fun _ _ => "4.000") .JPEGLSNearLossless signed8
        { signed8 with TransferSyntax := .JPEGLSNearLossless }
        none).newPixelData.LossyCompressionMethod = "" ∧
    (DcmJpegLsCodec.Encode sampleCharLS (fun _ _ => "4.000") .JPEGLSNearLossless signed8
        { signed8 with TransferSyntax := .JPEGLSNearLossless }
        none).newPixelData.LossyCompressionRatio = "" := by
  decide

end Dicom.Codec
